import Mathlib

/-!
# Echo-pulse arena game: simulation core

A shallow embedding of `src/js/config.js` and `src/js/game.js`.

* JavaScript numbers are elements of a linearly ordered field `α` (exact arithmetic);
  the definitions are computable for every such `α` with decidable order.
* The functions of the JavaScript `Math` object that the simulation calls are the fields of a
  record `JSMath α`, passed explicitly; `realMath` is their interpretation over the reals.
* Objects are records; an array of objects is a `List`; `forEach` is modelled with the
  index-based semantics of `Array.prototype.forEach` over the live array, so that a `splice`
  inside a callback shifts the elements that are still to be visited.
* A call that raises an exception is an abrupt `Completion` carrying the state reached.
* Canvas drawing, DOM panels, audio and free-floating particle effects have no influence on the
  simulation state and are left out; where such a call can raise, the raise is kept.
-/

namespace EchoGame

/-! ## Completions -/

/-- Result of running a piece of imperative code on a mutable state: either it ran to its end, or
an exception was raised; in both cases the mutations done so far are kept. -/
inductive Completion (σ : Type) where
  | normal : σ → Completion σ
  | throws : σ → Completion σ
  deriving Repr, DecidableEq

namespace Completion

variable {σ : Type}

/-- The state the code left behind. -/
def state : Completion σ → σ
  | normal s => s
  | throws s => s

/-- Whether an exception escaped. -/
def threw : Completion σ → Bool
  | normal _ => false
  | throws _ => true

/-- Sequencing: the continuation runs only after a normal completion. -/
def andThen (c : Completion σ) (k : σ → Completion σ) : Completion σ :=
  match c with
  | normal s => k s
  | throws s => throws s

end Completion

/-- The index-based loop of `Array.prototype.forEach`: `n` indices remain, `k` is the current
index, `arr` reads the live array out of the state. An index that is no longer in the array is
skipped; an exception in the callback ends the loop. -/
def forEachLoop {σ β : Type} (arr : σ → List β) (f : β → Nat → σ → Completion σ) :
    Nat → Nat → σ → Completion σ
  | 0, _, s => Completion.normal s
  | n + 1, k, s =>
    match (arr s)[k]? with
    | none => forEachLoop arr f n (k + 1) s
    | some x =>
      match f x k s with
      | Completion.normal s' => forEachLoop arr f n (k + 1) s'
      | Completion.throws s' => Completion.throws s'

/-- The method `arr.forEach((x, k) => f x k)`: the length is read once, before the first call. -/
def forEach {σ β : Type} (arr : σ → List β) (f : β → Nat → σ → Completion σ) (s : σ) :
    Completion σ :=
  forEachLoop arr f (arr s).length 0 s

/-! ## The `Math` object and the per-tick environment -/

/-- The members of `Math` used by the simulation. -/
structure JSMath (α : Type) where
  PI : α
  cos : α → α
  sin : α → α
  atan2 : α → α → α
  sqrt : α → α

/-- Values read from the outside world during one tick: `Date.now()` and `Math.random()`. -/
structure Env (α : Type) where
  now : α
  random : α

/-! ## Configuration (`config.js`) -/

section Config

variable {α : Type} [LinearOrderedField α]

abbrev CONFIG.CANVAS.WIDTH : α := 900
abbrev CONFIG.CANVAS.HEIGHT : α := 600
abbrev CONFIG.PLAYER.MAX_SPEED : α := 8
abbrev CONFIG.PLAYER.JUMP_FORCE : α := -15
abbrev CONFIG.PLAYER.GRAVITY : α := 8 / 10
abbrev CONFIG.PLAYER.WALL_SLIDE_SPEED : α := 2
abbrev CONFIG.PLAYER.WALL_JUMP_FORCE.X : α := 12
abbrev CONFIG.PLAYER.WALL_JUMP_FORCE.Y : α := -12
abbrev CONFIG.PLAYER.WIDTH : α := 32
abbrev CONFIG.PLAYER.HEIGHT : α := 64
abbrev CONFIG.PLAYER.MAX_HEALTH : α := 5
abbrev CONFIG.PLAYER.INVINCIBILITY_DURATION : α := 800
abbrev CONFIG.ECHO.SPEED : α := 10
abbrev CONFIG.ECHO.MAX_BOUNCES : Nat := 3
abbrev CONFIG.ECHO.COOLDOWN : α := 800
abbrev CONFIG.ECHO.RADIUS : α := 16
abbrev CONFIG.ECHO.TRAIL_LENGTH : Nat := 5
abbrev CONFIG.ENEMY.BASIC.HEALTH : α := 2
abbrev CONFIG.ENEMY.BASIC.DAMAGE : α := 1
abbrev CONFIG.ENEMY.BASIC.SPEED : α := 3 / 2
abbrev CONFIG.ENEMY.BASIC.SIZE : α := 32
abbrev CONFIG.ENEMY.BASIC.MIN_DISTANCE : α := 200
abbrev CONFIG.ENEMY.BASIC.SPAWN_DISTANCE : α := 300
abbrev CONFIG.CRYSTALS.HEALTH_CRYSTAL.HEAL_AMOUNT : α := 1
abbrev CONFIG.CRYSTALS.HEALTH_CRYSTAL.DROP_CHANCE : α := 2 / 10
abbrev CONFIG.CRYSTALS.HEALTH_CRYSTAL.SIZE : α := 24

end Config

/-! ## Data model -/

/-- What a pending `setTimeout` callback of a player does when it fires. -/
inductive TimerAction where
  | clearInvincible
  | enableShoot
  deriving Repr, DecidableEq

/-- A pending `setTimeout` callback: the time it still has to wait (the delay it was registered
with, less the time that has passed since) and its body. -/
structure Timer (α : Type) where
  delay : α
  action : TimerAction
  deriving Repr, DecidableEq

/-- The fields `x`, `y`, `width`, `height` that `checkCollision` reads from an object. -/
structure Box (α : Type) where
  x : α
  y : α
  width : α
  height : α
  deriving Repr, DecidableEq

/-- Instances of `class Player`; `timers` are the callbacks registered by this object that have
not fired yet, in registration order. -/
structure Player (α : Type) where
  x : α
  y : α
  width : α
  height : α
  velocityX : α
  velocityY : α
  health : α
  isInvincible : Bool
  canShoot : Bool
  invincibilityFlashTime : α
  moveDirection : α
  isJumping : Bool
  dashCooldown : α
  echoCooldown : α
  lastKeys : List String
  timers : List (Timer α)
  deriving Repr, DecidableEq

/-- One entry of `EchoPulse.trail`. -/
structure TrailPoint (α : Type) where
  x : α
  y : α
  size : α
  deriving Repr, DecidableEq

/-- Instances of `class EchoPulse` (its `particles`, filled from `Math.random` and only drawn,
are left out). -/
structure EchoPulse (α : Type) where
  x : α
  y : α
  width : α
  height : α
  angle : α
  speed : α
  bounces : Nat
  trail : List (TrailPoint α)
  pulseSize : α
  pulseGrowth : Bool
  isMainPulse : Bool
  damage : α
  alpha : α
  deriving Repr, DecidableEq

/-- Instances of `class Enemy`. -/
structure Enemy (α : Type) where
  x : α
  y : α
  width : α
  height : α
  health : α
  damage : α
  speed : α
  velocityX : α
  velocityY : α
  isStunned : Bool
  stunDuration : α
  flashEffect : α
  deriving Repr, DecidableEq

/-- Instances of `class Crystal`. -/
structure Crystal (α : Type) where
  x : α
  y : α
  width : α
  height : α
  pulsePhase : α
  deriving Repr, DecidableEq

/-- Values of `Game.gameState`. -/
inductive GameState where
  | START
  | PLAYING
  | PAUSED
  | GAME_OVER
  deriving Repr, DecidableEq

/-- Calls recorded for reasoning about one tick (not part of the program state proper):
`hit pulseIndex enemyIndex pulse` stands for one call `enemy.takeDamage(pulse.damage)` made by
the projectile-enemy pass, `healed crystalIndex` for one call `player.heal` made by the pickup
pass. -/
inductive Event (α : Type) where
  | hit : Nat → Nat → EchoPulse α → Event α
  | healed : Nat → Event α
  deriving Repr, DecidableEq

/-- The simulation-relevant fields of `class Game`; `trace` is the record of calls described at
`Event`, oldest first. `timestep` is the constant `1000 / 60` set by the constructor. -/
structure Game (α : Type) where
  gameState : GameState
  score : Nat
  depth : Nat
  player : Player α
  echoPulses : List (EchoPulse α)
  enemies : List (Enemy α)
  crystals : List (Crystal α)
  keys : List String
  lastTime : α
  accumulator : α
  trace : List (Event α)
  deriving Repr, DecidableEq

/-! ## Operations -/

section Operations

variable {α : Type} [LinearOrderedField α]

/-! ### `class Player` -/

namespace Player

/-- The bounding box of the player. -/
def box (p : Player α) : Box α := ⟨p.x, p.y, p.width, p.height⟩

/-- The constructor `new Player(x, y)`. -/
def new (x y : α) : Player α :=
  { x := x, y := y, width := CONFIG.PLAYER.WIDTH, height := CONFIG.PLAYER.HEIGHT,
    velocityX := 0, velocityY := 0, health := CONFIG.PLAYER.MAX_HEALTH,
    isInvincible := false, canShoot := true, invincibilityFlashTime := 0,
    moveDirection := 0, isJumping := false, dashCooldown := 0, echoCooldown := 0,
    lastKeys := [], timers := [] }

/-- The method `startInvincibility(duration)`: raise the flag and register a callback that lowers
it after `duration`. -/
def startInvincibility (p : Player α) (duration : α) : Player α :=
  { p with isInvincible := true,
           timers := p.timers ++ [⟨duration, TimerAction.clearInvincible⟩] }

/-- The method `takeDamage(amount)` (the particles it emits are not part of the state). -/
def takeDamage (p : Player α) (amount : α) : Player α :=
  if p.isInvincible then p
  else
    let p : Player α := { p with health := p.health - amount }
    let p : Player α := p.startInvincibility 1000
    let p : Player α := { p with isInvincible := true }
    { p with timers :=
        p.timers ++ [⟨CONFIG.PLAYER.INVINCIBILITY_DURATION, TimerAction.clearInvincible⟩] }

/-- The method `heal(amount)`. -/
def heal (p : Player α) (amount : α) : Player α :=
  { p with health := min (p.health + amount) CONFIG.PLAYER.MAX_HEALTH }

/-- The method `isOnGround()`. -/
def isOnGround (p : Player α) : Bool := decide (p.y ≥ CONFIG.CANVAS.HEIGHT - p.height)

/-- The method `isAtLeftWall()`. -/
def isAtLeftWall (p : Player α) : Bool := decide (p.x ≤ 0)

/-- The method `isAtRightWall()`. -/
def isAtRightWall (p : Player α) : Bool := decide (p.x ≥ CONFIG.CANVAS.WIDTH - p.width)

/-- The body of a timer callback. -/
def runTimer (p : Player α) : TimerAction → Player α
  | TimerAction.clearInvincible => { p with isInvincible := false }
  | TimerAction.enableShoot => { p with canShoot := true }

/-- The pending callback number `i` fires and is gone. -/
def fireTimer (p : Player α) (i : Nat) : Player α :=
  match p.timers[i]? with
  | none => p
  | some t => { p.runTimer t.action with timers := p.timers.eraseIdx i }

/-! The method `update(deltaTime, keys)` is cut at the comments of its source into the stages
below, which `update` runs in source order. -/

/-- `update`, "Update cooldowns". -/
def tickCooldowns (p : Player α) (deltaTime : α) : Player α :=
  let p : Player α :=
    if p.dashCooldown > 0 then { p with dashCooldown := p.dashCooldown - deltaTime } else p
  if p.echoCooldown > 0 then { p with echoCooldown := p.echoCooldown - deltaTime } else p

/-- `update`, "Movement input". -/
def readDirection (p : Player α) (keys : List String) : Player α :=
  let p : Player α := { p with moveDirection := 0 }
  let p : Player α :=
    if keys.contains "ArrowLeft" || keys.contains "KeyA"
    then { p with moveDirection := p.moveDirection - 1 } else p
  if keys.contains "ArrowRight" || keys.contains "KeyD"
  then { p with moveDirection := p.moveDirection + 1 } else p

/-- `update`, "Horizontal movement". -/
def accelerate (p : Player α) : Player α :=
  let targetVelocityX : α := p.moveDirection * CONFIG.PLAYER.MAX_SPEED
  let acceleration : α := if p.isOnGround then 15 / 100 else 1 / 10
  let deceleration : α := if p.isOnGround then 25 / 100 else 5 / 100
  if p.moveDirection ≠ 0
  then { p with velocityX := p.velocityX + (targetVelocityX - p.velocityX) * acceleration }
  else { p with velocityX := p.velocityX * (1 - deceleration) }

/-- `update`, "Dash ability". -/
def dash (p : Player α) (keys : List String) : Player α :=
  if (keys.contains "ShiftLeft" || keys.contains "ShiftRight")
      ∧ p.dashCooldown ≤ 0 ∧ p.moveDirection ≠ 0
  then { p with velocityX := p.moveDirection * CONFIG.PLAYER.MAX_SPEED * 2, dashCooldown := 1000 }
  else p

/-- The constant `jumpPressed` of `update`. -/
def jumpPressed (keys : List String) : Bool :=
  keys.contains "ArrowUp" || keys.contains "KeyW" || keys.contains "Space"

/-- `update`, "Jumping" and "Store current keys for next frame". -/
def jump (p : Player α) (keys : List String) : Player α :=
  let wasJumpPressed := jumpPressed p.lastKeys
  let p : Player α :=
    if jumpPressed keys && !wasJumpPressed then
      if p.isOnGround then
        { p with velocityY := CONFIG.PLAYER.JUMP_FORCE, isJumping := true }
      else if p.isAtLeftWall || p.isAtRightWall then
        { p with velocityY := CONFIG.PLAYER.WALL_JUMP_FORCE.Y,
                 velocityX := if p.isAtLeftWall then CONFIG.PLAYER.WALL_JUMP_FORCE.X
                              else -CONFIG.PLAYER.WALL_JUMP_FORCE.X }
      else p
    else p
  { p with lastKeys := keys }

/-- `update`, "Wall sliding". -/
def wallSlide (p : Player α) : Player α :=
  if !p.isOnGround && (p.isAtLeftWall || p.isAtRightWall) then
    if p.velocityY > CONFIG.PLAYER.WALL_SLIDE_SPEED
    then { p with velocityY := CONFIG.PLAYER.WALL_SLIDE_SPEED } else p
  else p

/-- `update`, "Variable jump height". -/
def cutJump (p : Player α) (keys : List String) : Player α :=
  if (!keys.contains "Space" && !keys.contains "ArrowUp" && !keys.contains "KeyW")
      ∧ p.velocityY < 0
  then { p with velocityY := p.velocityY * (85 / 100) } else p

/-- `update`, "Apply gravity with terminal velocity". -/
def applyGravity (p : Player α) : Player α :=
  { p with
    velocityY := min (p.velocityY + CONFIG.PLAYER.GRAVITY) (CONFIG.PLAYER.MAX_SPEED * 2) }

/-- `update`, "Update position". -/
def integrate (p : Player α) : Player α :=
  let p : Player α := { p with x := p.x + p.velocityX }
  { p with y := p.y + p.velocityY }

/-- `update`, "Apply friction when on ground". -/
def groundFriction (p : Player α) : Player α :=
  if p.isOnGround
  then { p with velocityX := p.velocityX * (85 / 100), isJumping := false } else p

/-- `update`, "Keep player in bounds". -/
def keepInBounds (p : Player α) : Player α :=
  let p : Player α := { p with x := max 0 (min p.x (CONFIG.CANVAS.WIDTH - p.width)) }
  let p : Player α :=
    if p.y > CONFIG.CANVAS.HEIGHT - p.height
    then { p with y := CONFIG.CANVAS.HEIGHT - p.height, velocityY := 0 } else p
  if p.y < 0 then { p with y := 0, velocityY := 0 } else p

/-- `update`, "Update invincibility flash effect". -/
def tickFlash (p : Player α) (deltaTime : α) : Player α :=
  { p with invincibilityFlashTime := p.invincibilityFlashTime + deltaTime }

/-- The method `update(deltaTime, keys)`. -/
def update (p : Player α) (deltaTime : α) (keys : List String) : Player α :=
  let p := p.tickCooldowns deltaTime
  let p := p.readDirection keys
  let p := p.accelerate
  let p := p.dash keys
  let p := p.jump keys
  let p := p.wallSlide
  let p := p.cutJump keys
  let p := p.applyGravity
  let p := p.integrate
  let p := p.groundFriction
  let p := p.keepInBounds
  p.tickFlash deltaTime

end Player

/-! ### `class EchoPulse` -/

namespace EchoPulse

/-- The bounding box of a projectile. -/
def box (e : EchoPulse α) : Box α := ⟨e.x, e.y, e.width, e.height⟩

/-- The constructor `new EchoPulse(x, y, angle, isMainPulse)`. -/
def new (x y angle : α) (isMainPulse : Bool) : EchoPulse α :=
  { x := x, y := y, width := CONFIG.ECHO.RADIUS * 2, height := CONFIG.ECHO.RADIUS * 2,
    angle := angle, speed := CONFIG.ECHO.SPEED, bounces := 0, trail := [],
    pulseSize := CONFIG.ECHO.RADIUS, pulseGrowth := true, isMainPulse := isMainPulse,
    damage := if isMainPulse then 1 else 1 / 2,
    alpha := if isMainPulse then 1 else 6 / 10 }

/-! The method `update(deltaTime)` is cut at the comments of its source into the stages below,
which `update` runs in source order. -/

/-- `update`, "Pulse size animation". -/
def animate (e : EchoPulse α) : EchoPulse α :=
  if e.pulseGrowth then
    let e : EchoPulse α := { e with pulseSize := e.pulseSize + 1 / 2 }
    if e.pulseSize ≥ CONFIG.ECHO.RADIUS * (12 / 10) then { e with pulseGrowth := false } else e
  else
    let e : EchoPulse α := { e with pulseSize := e.pulseSize - 1 / 2 }
    if e.pulseSize ≤ CONFIG.ECHO.RADIUS * (8 / 10) then { e with pulseGrowth := true } else e

/-- `update`, "Move in direction of angle" and "Add current position to trail". -/
def advance (M : JSMath α) (e : EchoPulse α) : EchoPulse α :=
  let prevX := e.x
  let prevY := e.y
  let e : EchoPulse α := { e with x := e.x + M.cos e.angle * e.speed }
  let e : EchoPulse α := { e with y := e.y + M.sin e.angle * e.speed }
  let point (i : α) : TrailPoint α :=
    ⟨prevX + (e.x - prevX) * (i / 3), prevY + (e.y - prevY) * (i / 3), e.pulseSize * (1 - i / 3)⟩
  let e : EchoPulse α := { e with trail := e.trail ++ [point 1, point 2, point 3] }
  if e.trail.length > CONFIG.ECHO.TRAIL_LENGTH * 3 then { e with trail := e.trail.drop 3 } else e

/-- `update`, "Handle wall collisions". -/
def bounce (M : JSMath α) (e : EchoPulse α) : EchoPulse α :=
  let collision := false
  let hitX : Bool := decide (e.x ≤ 0 ∨ e.x ≥ CONFIG.CANVAS.WIDTH - e.width)
  let e : EchoPulse α :=
    if hitX then
      { e with angle := M.PI - e.angle, x := max 0 (min e.x (CONFIG.CANVAS.WIDTH - e.width)) }
    else e
  let collision := collision || hitX
  let hitY : Bool := decide (e.y ≤ 0 ∨ e.y ≥ CONFIG.CANVAS.HEIGHT - e.height)
  let e : EchoPulse α :=
    if hitY then
      { e with angle := -e.angle, y := max 0 (min e.y (CONFIG.CANVAS.HEIGHT - e.height)) }
    else e
  let collision := collision || hitY
  if collision then { e with bounces := e.bounces + 1 } else e

/-- The method `update(deltaTime)`. -/
def update (M : JSMath α) (e : EchoPulse α) (_deltaTime : α) : EchoPulse α :=
  ((e.animate).advance M).bounce M

end EchoPulse

/-! ### `class Enemy` -/

namespace Enemy

/-- The bounding box of an enemy. -/
def box (e : Enemy α) : Box α := ⟨e.x, e.y, e.width, e.height⟩

/-- The constructor `new Enemy(x, y)`. -/
def new (x y : α) : Enemy α :=
  { x := x, y := y, width := CONFIG.ENEMY.BASIC.SIZE, height := CONFIG.ENEMY.BASIC.SIZE,
    health := CONFIG.ENEMY.BASIC.HEALTH, damage := CONFIG.ENEMY.BASIC.DAMAGE,
    speed := CONFIG.ENEMY.BASIC.SPEED, velocityX := 0, velocityY := 0,
    isStunned := false, stunDuration := 0, flashEffect := 0 }

/-- The method `takeDamage(amount)`. -/
def takeDamage (e : Enemy α) (amount : α) : Enemy α :=
  { e with health := e.health - amount, isStunned := true, stunDuration := 500,
           flashEffect := 200 }

/-- The method `update(deltaTime, player)`; `now` is the value of `Date.now()`. -/
def update (M : JSMath α) (now : α) (e : Enemy α) (deltaTime : α) (player : Player α) :
    Enemy α :=
  if e.isStunned then
    let e : Enemy α := { e with stunDuration := e.stunDuration - deltaTime }
    let e : Enemy α := if e.stunDuration ≤ 0 then { e with isStunned := false } else e
    { e with velocityX := e.velocityX * (8 / 10), velocityY := e.velocityY * (8 / 10) }
  else
    let dx := player.x - e.x
    let dy := player.y - e.y
    let distance := M.sqrt (dx * dx + dy * dy)
    let randomAngle := M.sin (now * (1 / 1000)) * (2 / 10)
    let e : Enemy α := if distance > CONFIG.ENEMY.BASIC.MIN_DISTANCE then
        let angle := M.atan2 dy dx + randomAngle
        { e with velocityX := M.cos angle * e.speed * (1 / 2),
                 velocityY := M.sin angle * e.speed * (1 / 2) }
      else
        let angle := M.atan2 dy dx + M.PI / 2 + randomAngle
        { e with velocityX := M.cos angle * e.speed, velocityY := M.sin angle * e.speed }
    let e : Enemy α :=
      { e with velocityX := e.velocityX * (98 / 100), velocityY := e.velocityY * (98 / 100) }
    let e : Enemy α :=
      if e.flashEffect > 0 then { e with flashEffect := e.flashEffect - deltaTime } else e
    let e : Enemy α := { e with x := e.x + e.velocityX }
    let e : Enemy α := { e with y := e.y + e.velocityY }
    let e : Enemy α := { e with x := max 0 (min e.x (CONFIG.CANVAS.WIDTH - e.width)) }
    { e with y := max 0 (min e.y (CONFIG.CANVAS.HEIGHT - e.height)) }

end Enemy

/-! ### `class Crystal` -/

namespace Crystal

/-- The bounding box of a pickup. -/
def box (c : Crystal α) : Box α := ⟨c.x, c.y, c.width, c.height⟩

/-- The constructor `new Crystal(x, y)`. -/
def new (x y : α) : Crystal α :=
  { x := x, y := y, width := CONFIG.CRYSTALS.HEALTH_CRYSTAL.SIZE,
    height := CONFIG.CRYSTALS.HEALTH_CRYSTAL.SIZE, pulsePhase := 0 }

/-- The method `update(deltaTime)`. -/
def update (M : JSMath α) (c : Crystal α) (deltaTime : α) : Crystal α :=
  let c : Crystal α := { c with pulsePhase := c.pulsePhase + deltaTime * (5 / 1000) }
  if c.pulsePhase > M.PI * 2 then { c with pulsePhase := c.pulsePhase - M.PI * 2 } else c

end Crystal

/-! ### `class Game` -/

namespace Game

/-- The field `timestep`, set once by the constructor. -/
def timestep : α := 1000 / 60

/-- The constructor `new Game()`. -/
def new : Game α :=
  { gameState := GameState.START, score := 0, depth := 0,
    player := Player.new (CONFIG.CANVAS.WIDTH / 2) (CONFIG.CANVAS.HEIGHT / 2),
    echoPulses := [], enemies := [], crystals := [], keys := [],
    lastTime := 0, accumulator := 0, trace := [] }

/-- The method `checkCollision(obj1, obj2)`. -/
def checkCollision (obj1 obj2 : Box α) : Bool :=
  let buffer : α := 5
  decide (obj1.x < obj2.x + obj2.width + buffer) &&
  decide (obj1.x + obj1.width + buffer > obj2.x) &&
  decide (obj1.y < obj2.y + obj2.height + buffer) &&
  decide (obj1.y + obj1.height + buffer > obj2.y)

/-- The call `this.renderParticles(particles)`. `class Game` has no member `renderParticles`
(the only function of that name is a local constant inside `Player.addJumpEffect`), so the
call raises a `TypeError`. -/
def renderParticles (g : Game α) : Completion (Game α) := Completion.throws g

/-- The method `createHitEffect(x, y)`: builds eight particles and hands them to
`this.renderParticles`. -/
def createHitEffect (g : Game α) (_x _y : α) : Completion (Game α) := g.renderParticles

/-- The method `createSpawnEffect(x, y)`: builds twelve particles and hands them to
`this.renderParticles`. -/
def createSpawnEffect (g : Game α) (_x _y : α) : Completion (Game α) := g.renderParticles

/-- The method `createHealEffect(x, y)`: builds eight particles and hands them to
`this.renderParticles`. -/
def createHealEffect (g : Game α) (_x _y : α) : Completion (Game α) := g.renderParticles

/-- The method `gameOver()`. -/
def gameOver (g : Game α) : Game α := { g with gameState := GameState.GAME_OVER }

/-- The method `pauseGame()`. -/
def pauseGame (g : Game α) : Game α :=
  if g.gameState = GameState.PLAYING then { g with gameState := GameState.PAUSED } else g

/-- The method `quitToMenu()`. -/
def quitToMenu (g : Game α) : Game α := { g with gameState := GameState.START }

/-- The method `getDistance(x1, y1, x2, y2)`. -/
def getDistance (M : JSMath α) (x1 y1 x2 y2 : α) : α :=
  let dx := x2 - x1
  let dy := y2 - y1
  M.sqrt (dx * dx + dy * dy)

/-- The method `isCloseToPlayer(x, y, minDistance)`. -/
def isCloseToPlayer (M : JSMath α) (g : Game α) (x y minDistance : α) : Bool :=
  decide (getDistance M x y g.player.x g.player.y < minDistance)

/-- The `while` loop of `generateLevel`; each pass consumes one pair of `Math.random()` values
from `draws`. `none`: the draws are used up and the loop is still running. -/
def generateLevelLoop (M : JSMath α) (g : Game α) :
    List (α × α) → List (α × α) → Option (List (α × α))
  | draws, spawnPositions =>
    if spawnPositions.length < 2 then
      match draws with
      | [] => none
      | (r1, r2) :: rest =>
        let x := r1 * (CONFIG.CANVAS.WIDTH - CONFIG.ENEMY.BASIC.SIZE)
        let y := r2 * (CONFIG.CANVAS.HEIGHT - CONFIG.ENEMY.BASIC.SIZE)
        let validPosition := !g.isCloseToPlayer M x y CONFIG.ENEMY.BASIC.SPAWN_DISTANCE
        let validPosition := spawnPositions.foldl
          (fun valid pos =>
            if getDistance M x y pos.1 pos.2 < CONFIG.ENEMY.BASIC.SPAWN_DISTANCE then false
            else valid)
          validPosition
        if validPosition then generateLevelLoop M g rest (spawnPositions ++ [(x, y)])
        else generateLevelLoop M g rest spawnPositions
    else some spawnPositions

/-- The method `generateLevel()`. -/
def generateLevel (M : JSMath α) (draws : List (α × α)) (g : Game α) : Option (Game α) :=
  (generateLevelLoop M g draws []).map fun spawnPositions =>
    { g with enemies := g.enemies ++ spawnPositions.map fun pos => Enemy.new pos.1 pos.2 }

/-- The method `resetGame()`. -/
def resetGame (M : JSMath α) (draws : List (α × α)) (g : Game α) : Option (Game α) :=
  generateLevel M draws
    { g with score := 0, depth := 0,
             player := Player.new (CONFIG.CANVAS.WIDTH / 2) (CONFIG.CANVAS.HEIGHT / 2),
             echoPulses := [], enemies := [], crystals := [] }

/-- Callback of `this.echoPulses.forEach` in `update`. -/
def updatePulse (M : JSMath α) (deltaTime : α) (pulse : EchoPulse α) (index : Nat)
    (g : Game α) : Completion (Game α) :=
  let pulse := pulse.update M deltaTime
  let g : Game α := { g with echoPulses := g.echoPulses.set index pulse }
  if pulse.bounces ≥ CONFIG.ECHO.MAX_BOUNCES then
    Completion.normal { g with echoPulses := g.echoPulses.eraseIdx index }
  else Completion.normal g

/-- State of the inner loop of the projectile-enemy pass: the session, the enemy object the
outer callback was called with, and whether that object is still the element `index` of
`enemies` (it is until `this.enemies.splice(index, 1)` has run). -/
structure HitScan (α : Type) where
  game : Game α
  enemy : Enemy α
  attached : Bool

/-- Callback of the inner `this.echoPulses.forEach` of the projectile-enemy pass, for the enemy
at `index`. -/
def hitPulse (env : Env α) (index : Nat) (pulse : EchoPulse α) (pulseIndex : Nat)
    (s : HitScan α) : Completion (HitScan α) :=
  if checkCollision pulse.box s.enemy.box then
    let enemy := s.enemy.takeDamage pulse.damage
    let g : Game α := s.game
    let g : Game α :=
      { g with enemies := if s.attached then g.enemies.set index enemy else g.enemies,
               trace := g.trace ++ [Event.hit pulseIndex index pulse] }
    let g : Game α := { g with echoPulses := g.echoPulses.eraseIdx pulseIndex }
    match g.createHitEffect pulse.x pulse.y with
    | Completion.throws g => Completion.throws ⟨g, enemy, s.attached⟩
    | Completion.normal g =>
      if enemy.health ≤ 0 then
        let g : Game α := { g with enemies := g.enemies.eraseIdx index, score := g.score + 100 }
        if env.random < CONFIG.CRYSTALS.HEALTH_CRYSTAL.DROP_CHANCE then
          let crystal := Crystal.new enemy.x enemy.y
          let g : Game α := { g with crystals := g.crystals ++ [crystal] }
          match g.createSpawnEffect crystal.x crystal.y with
          | Completion.throws g => Completion.throws ⟨g, enemy, false⟩
          | Completion.normal g => Completion.normal ⟨g, enemy, false⟩
        else Completion.normal ⟨g, enemy, false⟩
      else Completion.normal ⟨g, enemy, s.attached⟩
  else Completion.normal s

/-- Callback of the first `this.enemies.forEach` in `update`. -/
def updateEnemy (M : JSMath α) (env : Env α) (deltaTime : α) (enemy : Enemy α) (index : Nat)
    (g : Game α) : Completion (Game α) :=
  let enemy := enemy.update M env.now deltaTime g.player
  let g : Game α := { g with enemies := g.enemies.set index enemy }
  match forEach (fun s : HitScan α => s.game.echoPulses) (hitPulse env index) ⟨g, enemy, true⟩ with
  | Completion.normal s => Completion.normal s.game
  | Completion.throws s => Completion.throws s.game

/-- Callback of `this.crystals.forEach` in `update`. -/
def updateCrystal (M : JSMath α) (deltaTime : α) (crystal : Crystal α) (index : Nat)
    (g : Game α) : Completion (Game α) :=
  let crystal := crystal.update M deltaTime
  let distToPlayer := M.sqrt ((g.player.x - crystal.x) ^ 2 + (g.player.y - crystal.y) ^ 2)
  let crystal : Crystal α :=
    if distToPlayer < 150 then
      let pullStrength := (150 - distToPlayer) / 150
      let crystal : Crystal α :=
        { crystal with x := crystal.x + (g.player.x - crystal.x) * pullStrength * (1 / 10) }
      { crystal with y := crystal.y + (g.player.y - crystal.y) * pullStrength * (1 / 10) }
    else crystal
  let g : Game α := { g with crystals := g.crystals.set index crystal }
  if checkCollision g.player.box crystal.box then
    let g : Game α :=
      { g with player := g.player.heal CONFIG.CRYSTALS.HEALTH_CRYSTAL.HEAL_AMOUNT,
               trace := g.trace ++ [Event.healed index] }
    let g : Game α := { g with crystals := g.crystals.eraseIdx index }
    g.createHealEffect g.player.x g.player.y
  else Completion.normal g

/-- Callback of the second `this.enemies.forEach` in `update` (player against enemies). -/
def touchEnemy (M : JSMath α) (enemy : Enemy α) (_index : Nat) (g : Game α) :
    Completion (Game α) :=
  if !enemy.isStunned && checkCollision g.player.box enemy.box then
    let knockbackAngle := M.atan2 (g.player.y - enemy.y) (g.player.x - enemy.x)
    let player := g.player.takeDamage enemy.damage
    let player : Player α := { player with velocityX := player.velocityX + M.cos knockbackAngle * 10 }
    let player : Player α := { player with velocityY := player.velocityY + M.sin knockbackAngle * 10 }
    let g : Game α := { g with player := player }
    if g.player.health ≤ 0 then Completion.normal g.gameOver else Completion.normal g
  else Completion.normal g

/-- The method `update(deltaTime)`: one simulation tick. -/
def update (M : JSMath α) (env : Env α) (deltaTime : α) (g : Game α) : Completion (Game α) :=
  if g.gameState ≠ GameState.PLAYING then Completion.normal g
  else
    let g : Game α := { g with player := g.player.update deltaTime g.keys }
    (forEach Game.echoPulses (updatePulse M deltaTime) g).andThen fun g =>
    (forEach Game.enemies (updateEnemy M env deltaTime) g).andThen fun g =>
    (forEach Game.crystals (updateCrystal M deltaTime) g).andThen fun g =>
    forEach Game.enemies (touchEnemy M) g

/-- The `while (this.accumulator >= this.timestep)` loop of `gameLoop`; `fuel` bounds the number
of passes, `i` counts the ticks of this frame and `env i` is what tick `i` reads from outside. -/
def tickLoop (M : JSMath α) (env : Nat → Env α) : Nat → Nat → Game α → Completion (Game α)
  | 0, _, g => Completion.normal g
  | fuel + 1, i, g =>
    if g.accumulator ≥ timestep then
      match update M (env i) timestep g with
      | Completion.throws g => Completion.throws g
      | Completion.normal g =>
        tickLoop M env fuel (i + 1) { g with accumulator := g.accumulator - timestep }
    else Completion.normal g

/-- The method `gameLoop(timestamp)`; drawing and the request for the next frame follow the loop
and do not touch the state. The loop makes at most `⌊accumulator / timestep⌋` passes, which is
the fuel given. -/
def gameLoop [FloorRing α] (M : JSMath α) (env : Nat → Env α) (timestamp : α) (g : Game α) :
    Completion (Game α) :=
  if g.gameState ≠ GameState.PLAYING then Completion.normal g
  else
    let deltaTime := timestamp - g.lastTime
    let g : Game α := { g with lastTime := timestamp }
    let g : Game α := { g with accumulator := g.accumulator + deltaTime }
    tickLoop M env ⌊g.accumulator / timestep⌋₊ 0 g

/-- The method `resumeGame()`. -/
def resumeGame [FloorRing α] (M : JSMath α) (env : Nat → Env α) (g : Game α) :
    Completion (Game α) :=
  if g.gameState = GameState.PAUSED then
    let g : Game α := { g with gameState := GameState.PLAYING }
    gameLoop M env g.lastTime g
  else Completion.normal g

/-- The method `startGame()`; `none` when `generateLevel` does not come back on these draws. -/
def startGame [FloorRing α] (M : JSMath α) (env : Nat → Env α) (draws : List (α × α))
    (g : Game α) : Option (Completion (Game α)) :=
  let g : Game α := { g with gameState := GameState.PLAYING }
  (resetGame M draws g).map fun g =>
    let g : Game α := { g with player := g.player.startInvincibility 3000 }
    gameLoop M env 0 g

/-- The method `restartGame()`. -/
def restartGame [FloorRing α] (M : JSMath α) (env : Nat → Env α) (draws : List (α × α))
    (g : Game α) : Option (Completion (Game α)) :=
  startGame M env draws g

end Game

/-- The method `Player.shootEchoPulse(targetX, targetY)` of the player of session `g`; the
projectiles go to `game.echoPulses`, where `game` is that session. -/
def Player.shootEchoPulse (M : JSMath α) (targetX targetY : α) (g : Game α) : Game α :=
  let p := g.player
  if !p.canShoot || decide (p.echoCooldown > 0) then g
  else
    let angle := M.atan2 (targetY - (p.y + p.height / 2)) (targetX - (p.x + p.width / 2))
    let spreadAngles : List α := [-1, -(1 / 2), 0, 1 / 2, 1]
    let pulses := spreadAngles.map fun spread =>
      EchoPulse.new (p.x + p.width / 2) (p.y + p.height / 2) (angle + spread * M.PI / 32)
        (decide (spread = 0))
    let g : Game α := { g with echoPulses := g.echoPulses ++ pulses }
    let p : Player α := { p with echoCooldown := CONFIG.ECHO.COOLDOWN, canShoot := false }
    let p : Player α :=
      { p with timers := p.timers ++ [⟨CONFIG.ECHO.COOLDOWN, TimerAction.enableShoot⟩] }
    let p : Player α := { p with velocityX := p.velocityX - M.cos angle * 3 }
    let p : Player α := { p with velocityY := p.velocityY - M.sin angle * 3 }
    { g with player := p }

/-! ### Event handlers -/

namespace Game

/-- The `keydown` listener. -/
def keydown (code : String) (g : Game α) : Game α :=
  let g : Game α := { g with keys := if g.keys.contains code then g.keys else g.keys ++ [code] }
  if code = "Escape" ∧ g.gameState = GameState.PLAYING then g.pauseGame else g

/-- The `keyup` listener. -/
def keyup (code : String) (g : Game α) : Game α :=
  { g with keys := g.keys.filter fun k => k != code }

/-- The `click` listener of the canvas, with the click at canvas coordinates `(x, y)`. -/
def click (M : JSMath α) (x y : α) (g : Game α) : Game α :=
  if g.gameState = GameState.PLAYING then Player.shootEchoPulse M x y g else g

/-- A pending timer callback of the current player fires. -/
def timerFires (i : Nat) (g : Game α) : Game α := { g with player := g.player.fireTimer i }

end Game

end Operations

/-! ## The reals as numbers -/

/-- The `Math` object over the reals: `atan2 y x` is the argument of `x + y i`, `sqrt` is the real
square root (`0` where JavaScript gives `NaN`). -/
noncomputable def realMath : JSMath ℝ :=
  { PI := Real.pi, cos := Real.cos, sin := Real.sin,
    atan2 := fun y x => Complex.arg ⟨x, y⟩, sqrt := Real.sqrt }

/-! ## Sessions -/

section Sessions

variable {α : Type} [LinearOrderedField α] [FloorRing α]

/-- One turn of the browser's event loop on a session: a listener, a timer callback or an
animation frame runs to its end (or to an exception, which the browser reports and drops).
A tick run on its own is a step as well. Frames and timers may arrive in any state, which covers
every schedule the program can set up. -/
inductive Step (M : JSMath α) : Game α → Game α → Prop where
  | keydown (code : String) (g : Game α) : Step M g (g.keydown code)
  | keyup (code : String) (g : Game α) : Step M g (g.keyup code)
  | click (x y : α) (g : Game α) : Step M g (g.click M x y)
  | timer (i : Nat) (g : Game α) : Step M g (g.timerFires i)
  | tick (env : Env α) (deltaTime : α) (g : Game α) : Step M g (g.update M env deltaTime).state
  | frame (env : Nat → Env α) (timestamp : α) (g : Game α) :
      Step M g (g.gameLoop M env timestamp).state
  | start (env : Nat → Env α) (draws : List (α × α)) (g : Game α) (c : Completion (Game α)) :
      g.startGame M env draws = some c → Step M g c.state
  | restart (env : Nat → Env α) (draws : List (α × α)) (g : Game α) (c : Completion (Game α)) :
      g.restartGame M env draws = some c → Step M g c.state
  | resume (env : Nat → Env α) (g : Game α) : Step M g (g.resumeGame M env).state
  | quit (g : Game α) : Step M g g.quitToMenu

/-- The sessions that a page can be in: those reached from the freshly constructed `Game` by
finitely many steps. -/
def Reachable (M : JSMath α) (g : Game α) : Prop := Relation.ReflTransGen (Step M) Game.new g

end Sessions

/-! ## Named parts of callbacks, and sample states -/

section Parts

variable {α : Type} [LinearOrderedField α]

/-- The pickup as the pickup pass of `update` leaves it before the overlap test: animated by
`Crystal.update`, then pulled towards the player (first part of the callback `updateCrystal`). -/
def Game.pulledCrystal (M : JSMath α) (dt : α) (crystal : Crystal α) (g : Game α) : Crystal α :=
  let crystal := crystal.update M dt
  let distToPlayer := M.sqrt ((g.player.x - crystal.x) ^ 2 + (g.player.y - crystal.y) ^ 2)
  if distToPlayer < 150 then
    let pullStrength := (150 - distToPlayer) / 150
    let crystal : Crystal α :=
      { crystal with x := crystal.x + (g.player.x - crystal.x) * pullStrength * (1 / 10) }
    { crystal with y := crystal.y + (g.player.y - crystal.y) * pullStrength * (1 / 10) }
  else crystal

/-- No projectile of the session has used up its bounces. -/
def Game.PulsesLive (g : Game α) : Prop := ∀ q ∈ g.echoPulses, q.bounces < CONFIG.ECHO.MAX_BOUNCES


/-- The health part of what holds in every session: the player's health is one of 0, ..., 5,
every enemy deals damage 1, and a session that is running or paused has a player alive. -/
def Game.HealthInv (g : Game α) : Prop :=
  (∃ n : Nat, n ≤ 5 ∧ g.player.health = n) ∧
  (∀ e ∈ g.enemies, e.damage = 1) ∧
  (g.gameState = GameState.PLAYING ∨ g.gameState = GameState.PAUSED → 1 ≤ g.player.health)

/-- What holds at every point of a tick: as `HealthInv`, and once the session is over within
the tick the player is still invincible from the blow that ended it. -/
def Game.TickInv (g : Game α) : Prop :=
  (∃ n : Nat, n ≤ 5 ∧ g.player.health = n) ∧
  (∀ e ∈ g.enemies, e.damage = 1) ∧
  ((g.gameState = GameState.PLAYING ∧ 1 ≤ g.player.health) ∨
   (g.gameState = GameState.GAME_OVER ∧ g.player.isInvincible = true))

/-! ### Loops that may end in an exception -/

/-- A loop invariant `P` with an exit condition `Q` for the exception. -/
def Completion.Meets {σ : Type} (P Q : σ → Prop) : Completion σ → Prop
  | Completion.normal s => P s
  | Completion.throws s => Q s

/-! The four passes of `Game.update`, by name. -/

/-- The session after `this.player.update(deltaTime, this.keys)`. -/
def Game.afterPlayer (dt : α) (g : Game α) : Game α :=
  { g with player := g.player.update dt g.keys }

/-- The pass `this.echoPulses.forEach(...)` of `update`. -/
def Game.pulsePass (M : JSMath α) (dt : α) (g : Game α) : Completion (Game α) :=
  forEach Game.echoPulses (Game.updatePulse M dt) g

/-- The first pass `this.enemies.forEach(...)` of `update` (enemies against projectiles). -/
def Game.enemyPass (M : JSMath α) (env : Env α) (dt : α) (g : Game α) : Completion (Game α) :=
  forEach Game.enemies (Game.updateEnemy M env dt) g

/-- The pass `this.crystals.forEach(...)` of `update`. -/
def Game.crystalPass (M : JSMath α) (dt : α) (g : Game α) : Completion (Game α) :=
  forEach Game.crystals (Game.updateCrystal M dt) g

/-- The second pass `this.enemies.forEach(...)` of `update` (player against enemies). -/
def Game.touchPass (M : JSMath α) (g : Game α) : Completion (Game α) :=
  forEach Game.enemies (Game.touchEnemy M) g

/-- A running session with one enemy that an earlier hit left at health 1 and stunned, and one
main projectile flying at it from the left. -/
noncomputable def Game.lastHit : Game ℝ :=
  { gameState := GameState.PLAYING, score := 0, depth := 0, player := Player.new 450 300,
    echoPulses := [EchoPulse.new 80 100 0 true],
    enemies := [(Enemy.new 100 100).takeDamage 1],
    crystals := [], keys := [], lastTime := 0, accumulator := 0, trace := [] }

/-! Intermediate states of `Player.update`, by name. -/

/-- The player when `update` reaches "Jumping": after the cooldowns, the movement input, the
horizontal movement and the dash. -/
def Player.beforeJump (p : Player α) (dt : α) (keys : List String) : Player α :=
  (((p.tickCooldowns dt).readDirection keys).accelerate).dash keys

/-- The player when `update` reaches "Update position": after the jump, the wall slide, the
variable jump height and gravity. Its velocity is the one the position is moved by. -/
def Player.beforeIntegrate (p : Player α) (dt : α) (keys : List String) : Player α :=
  ((((p.beforeJump dt keys).jump keys).wallSlide).cutJump keys).applyGravity

/-- A player falling at speed 5 along the left wall (`x = 0`, in mid-air). -/
def Player.slidingDown : Player ℚ := { (Player.new 0 300 : Player ℚ) with velocityY := 5 }

/-! Geometry in the words of the specification, to compare `checkCollision` with. -/

/-- Specification side: the box `b` grown by `m` units on every side. -/
def Box.grow (b : Box α) (m : α) : Box α :=
  ⟨b.x - m, b.y - m, b.width + 2 * m, b.height + 2 * m⟩

/-- Specification side: the boxes `a` and `b` strictly overlap (their interiors meet, for boxes
of positive size). -/
def Box.overlaps (a b : Box α) : Prop :=
  a.x < b.x + b.width ∧ b.x < a.x + a.width ∧ a.y < b.y + b.height ∧ b.y < a.y + a.height

/-- Specification side: the gap between `a` and `b` along the x axis (negative when the
projections overlap). -/
def Box.gapX (a b : Box α) : α := max (b.x - (a.x + a.width)) (a.x - (b.x + b.width))

/-- Specification side: the gap between `a` and `b` along the y axis. -/
def Box.gapY (a b : Box α) : α := max (b.y - (a.y + a.height)) (a.y - (b.y + b.height))

/-- The cosine and the sine of `M` take values in `[-1, 1]`. -/
def JSMath.UnitTrig (M : JSMath α) : Prop :=
  ∀ t : α, (-1 ≤ M.cos t ∧ M.cos t ≤ 1) ∧ (-1 ≤ M.sin t ∧ M.sin t ≤ 1)

/-- The player is alive, or the session is over. -/
def Game.AliveOrOver (g : Game α) : Prop :=
  0 < g.player.health ∨ g.gameState = GameState.GAME_OVER

/-- A running session in which a player with one point of health, not invincible, stands on an
enemy (not stunned, damage 1). -/
noncomputable def Game.lastStand : Game ℝ :=
  { gameState := GameState.PLAYING, score := 0, depth := 0,
    player := { (Player.new 450 300 : Player ℝ) with health := 1 },
    echoPulses := [], enemies := [Enemy.new 450 300],
    crystals := [], keys := [], lastTime := 0, accumulator := 0, trace := [] }

/-- The ticks of a frame without the loop test: `n` times `update(timestep)` followed by
`accumulator -= timestep`, ended early only by an exception. Tick number `i` reads `envs i`. -/
def Game.runTicks (M : JSMath α) (envs : Nat → Env α) : Nat → Nat → Game α → Completion (Game α)
  | 0, _, g => Completion.normal g
  | n + 1, i, g =>
    match Game.update M (envs i) Game.timestep g with
    | Completion.throws g => Completion.throws g
    | Completion.normal g =>
      Game.runTicks M envs n (i + 1) { g with accumulator := g.accumulator - Game.timestep }

/-- A session paused at wall-clock time 5000 (the time of its last frame), with an empty
accumulator and nothing but the player in the arena. -/
noncomputable def Game.pausedIdle : Game ℝ :=
  { (Game.new : Game ℝ) with gameState := GameState.PAUSED, lastTime := 5000 }

/-- An enemy that was moving to the right at its top speed, 1.5 * 0.98 = 1.47, and has just
taken a hit of 1: it is stunned for 500 ms and still has that velocity. -/
noncomputable def Enemy.knockedBack : Enemy ℝ :=
  ({ (Enemy.new 100 100 : Enemy ℝ) with velocityX := 147 / 100 }).takeDamage 1

/-- A main projectile in flight to the right that has bounced twice and is 8 short of the right
boundary. -/
noncomputable def EchoPulse.lastBounce : EchoPulse ℝ :=
  { (EchoPulse.new 860 300 0 true : EchoPulse ℝ) with bounces := 2 }

/-- A running session without enemies or pickups whose only projectile is
`EchoPulse.lastBounce`. -/
noncomputable def Game.spentShot : Game ℝ :=
  { (Game.new : Game ℝ) with
    gameState := GameState.PLAYING
    echoPulses := [EchoPulse.lastBounce] }

/-- A running session without enemies or pickups with two projectiles: `EchoPulse.lastBounce`
and, after it in `echoPulses`, a fresh one in the open flying to the right. -/
noncomputable def Game.volley : Game ℝ :=
  { (Game.new : Game ℝ) with
    gameState := GameState.PLAYING
    echoPulses := [EchoPulse.lastBounce, EchoPulse.new 400 300 0 true] }

/-- The first `n` of a run of successive `update` calls of one enemy with tick `deltaTime`; call
number `i` (from 0) reads `now i` from `Date.now()` and is passed `player i`. -/
def Enemy.updates (M : JSMath α) (now : Nat → α) (player : Nat → Player α) (deltaTime : α) :
    Nat → Enemy α → Enemy α
  | 0, e => e
  | n + 1, e => (Enemy.updates M now player deltaTime n e).update M (now n) deltaTime (player n)

/-- The passes of `update` that come before the player-enemy pass: the player's own update, the
projectile pass, the projectile-enemy pass and the pickup pass. -/
def Game.beforeTouch (M : JSMath α) (env : Env α) (dt : α) (g : Game α) : Completion (Game α) :=
  (Game.pulsePass M dt (g.afterPlayer dt)).andThen fun g =>
  (Game.enemyPass M env dt g).andThen fun g => Game.crystalPass M dt g

/-- A running session as it is after a hit: the player has health 4 and is invincible, with the
two callbacks of `takeDamage` pending; of the two enemies, neither stunned, one overlaps the
player from a little to its right and below, and the other is far away. -/
noncomputable def Game.underAttack : Game ℝ :=
  { gameState := GameState.PLAYING, score := 0, depth := 0,
    player := (Player.new 450 300 : Player ℝ).takeDamage 1,
    echoPulses := [], enemies := [Enemy.new 460 310, Enemy.new 100 100],
    crystals := [], keys := [], lastTime := 0, accumulator := 0, trace := [] }

/-- The player after `d` milliseconds in which nothing but timers happens to it: the pending
callbacks whose time has come fire, in the order registered (each body only lowers or raises one
flag, so their order does not matter), and every other callback has `d` less to wait. -/
def Player.elapse (p : Player α) (d : α) : Player α :=
  let due := p.timers.filter fun t => decide (t.delay ≤ d)
  let waiting := p.timers.filter fun t => !decide (t.delay ≤ d)
  let p : Player α := due.foldl (fun q t => q.runTimer t.action) p
  { p with timers := waiting.map fun t => { t with delay := t.delay - d } }

/-- A fresh player that has just taken a first hit of 1. -/
def Player.firstHit : Player ℚ := (Player.new 450 300 : Player ℚ).takeDamage 1

/-- The player `Player.firstHit` hit again 900 ms after the first hit. -/
def Player.secondHit : Player ℚ := (Player.firstHit.elapse 900).takeDamage 1

/-- The session `Game.underAttack` with one main projectile in flight to the right, about to
reach the enemy that is far from the player. -/
noncomputable def Game.crossfire : Game ℝ :=
  { Game.underAttack with echoPulses := [EchoPulse.new 80 100 0 true] }

/-- The session right after `startGame()` on the page as loaded, when `Math.random()` gives
0, 0, 1/2, 1/2, 3/4, 0: the player is at the centre, invincible for 3000 ms, and the two enemies
are at (0, 0) and (651, 0). -/
noncomputable def Game.started : Game ℝ :=
  { gameState := GameState.PLAYING, score := 0, depth := 0,
    player := (Player.new 450 300 : Player ℝ).startInvincibility 3000,
    echoPulses := [], enemies := [Enemy.new 0 0, Enemy.new 651 0],
    crystals := [], keys := [], lastTime := 0, accumulator := 0, trace := [] }

/-- The session `Game.started` after a click on the canvas at (450, 0). -/
noncomputable def Game.firstShot : Game ℝ := Game.started.click realMath 450 0

end Parts

/-! ## Properties -/

section Properties

variable {α : Type} [LinearOrderedField α]

/-! ### Loops -/

theorem forEachLoop_zero {σ β : Type} (arr : σ → List β) (f : β → Nat → σ → Completion σ)
    (k : Nat) (s : σ) : forEachLoop arr f 0 k s = Completion.normal s := rfl

theorem forEachLoop_skip {σ β : Type} (arr : σ → List β) (f : β → Nat → σ → Completion σ)
    (n k : Nat) (s : σ) (h : (arr s)[k]? = none) :
    forEachLoop arr f (n + 1) k s = forEachLoop arr f n (k + 1) s := by
  simp [forEachLoop, h]

theorem forEachLoop_normal {σ β : Type} (arr : σ → List β) (f : β → Nat → σ → Completion σ)
    (n k : Nat) (s s' : σ) (x : β) (h : (arr s)[k]? = some x)
    (hf : f x k s = Completion.normal s') :
    forEachLoop arr f (n + 1) k s = forEachLoop arr f n (k + 1) s' := by
  simp [forEachLoop, h, hf]

theorem forEachLoop_throws {σ β : Type} (arr : σ → List β) (f : β → Nat → σ → Completion σ)
    (n k : Nat) (s s' : σ) (x : β) (h : (arr s)[k]? = some x)
    (hf : f x k s = Completion.throws s') :
    forEachLoop arr f (n + 1) k s = Completion.throws s' := by
  simp [forEachLoop, h, hf]

theorem forEachLoop_state_inv {σ β : Type} (arr : σ → List β) (f : β → Nat → σ → Completion σ)
    (P : σ → Prop) (hf : ∀ x k s, P s → (arr s)[k]? = some x → P (f x k s).state) :
    ∀ (n k : Nat) (s : σ), P s → P (forEachLoop arr f n k s).state := by
  intro n
  induction n with
  | zero => intro k s hs; simpa [forEachLoop, Completion.state] using hs
  | succ n ih =>
    intro k s hs
    cases hx : (arr s)[k]? with
    | none =>
      rw [forEachLoop_skip arr f n k s hx]
      exact ih _ _ hs
    | some x =>
      have h := hf x k s hs hx
      cases hfx : f x k s with
      | normal s' =>
        rw [forEachLoop_normal arr f n k s s' x hx hfx]
        rw [hfx] at h
        exact ih _ _ h
      | throws s' =>
        rw [forEachLoop_throws arr f n k s s' x hx hfx]
        rw [hfx] at h
        exact h

theorem forEach_state_inv {σ β : Type} (arr : σ → List β) (f : β → Nat → σ → Completion σ)
    (P : σ → Prop) (hf : ∀ x k s, P s → (arr s)[k]? = some x → P (f x k s).state)
    (s : σ) (hs : P s) : P (forEach arr f s).state :=
  forEachLoop_state_inv arr f P hf _ _ s hs

theorem andThen_state_inv {σ : Type} (P : σ → Prop) (c : Completion σ) (k : σ → Completion σ)
    (hc : P c.state) (hk : ∀ s, P s → P (k s).state) : P (c.andThen k).state := by
  cases c with
  | normal s => exact hk s hc
  | throws s => exact hc

/-! ### C2, C5: guarded calls that do nothing -/

/-- C2. Invincibility blocks all damage: for every player with `isInvincible` set and every
amount, `takeDamage(amount)` returns the player unchanged in every field, health included. -/
theorem C2_invincible_takeDamage_noop (p : Player α) (amount : α)
    (h : p.isInvincible = true) : p.takeDamage amount = p := by
  simp [Player.takeDamage, h]

/-- C5. Firing while the weapon is not ready is a silent no-op: when `canShoot` is false or
`echoCooldown > 0`, `shootEchoPulse` returns the session unchanged for every target point: no
projectile is added, the cooldown, velocity and position of the player stay, and the call
completes without an exception (it is a total function on sessions). -/
theorem C5_shoot_on_cooldown_noop (M : JSMath α) (g : Game α) (targetX targetY : α)
    (h : g.player.canShoot = false ∨ g.player.echoCooldown > 0) :
    Player.shootEchoPulse M targetX targetY g = g := by
  unfold Player.shootEchoPulse
  rcases h with h | h
  · simp [h]
  · simp [h]

/-! ### C3, C4: firing -/

/-- What a shot that fires does to the session. -/
theorem shootEchoPulse_fires (M : JSMath α) (g : Game α) (targetX targetY : α)
    (hready : g.player.canShoot = true) (hcool : g.player.echoCooldown ≤ 0) :
    Player.shootEchoPulse M targetX targetY g =
      { g with
        echoPulses := g.echoPulses ++ ([-1, -(1 / 2), 0, 1 / 2, 1] : List α).map fun spread =>
          EchoPulse.new (g.player.x + g.player.width / 2) (g.player.y + g.player.height / 2)
            (M.atan2 (targetY - (g.player.y + g.player.height / 2))
              (targetX - (g.player.x + g.player.width / 2)) + spread * M.PI / 32)
            (decide (spread = 0)),
        player :=
          { g.player with
            echoCooldown := CONFIG.ECHO.COOLDOWN, canShoot := false,
            timers := g.player.timers ++ [⟨CONFIG.ECHO.COOLDOWN, TimerAction.enableShoot⟩],
            velocityX := g.player.velocityX -
              M.cos (M.atan2 (targetY - (g.player.y + g.player.height / 2))
                (targetX - (g.player.x + g.player.width / 2))) * 3,
            velocityY := g.player.velocityY -
              M.sin (M.atan2 (targetY - (g.player.y + g.player.height / 2))
                (targetX - (g.player.x + g.player.width / 2))) * 3 } } := by
  have hc : ¬ g.player.echoCooldown > 0 := not_lt.mpr hcool
  unfold Player.shootEchoPulse
  simp [hready, hc]

/-- C3. Whenever `shootEchoPulse` fires (`canShoot` set and `echoCooldown ≤ 0`), for every target
point it appends exactly five projectiles to `echoPulses`; all start at the player's centre with
bounce count 0; their angles are `aim + k * PI / 32` for `k = -1, -1/2, 0, 1/2, 1` in that
order, with `aim = atan2(targetY - centreY, targetX - centreX)`; only the middle one is marked
main and has damage 1, the other four have damage 1/2; and `echoCooldown` becomes 800. -/
theorem C3_shoot_spawns_spread (M : JSMath α) (g : Game α) (targetX targetY : α)
    (hready : g.player.canShoot = true) (hcool : g.player.echoCooldown ≤ 0) :
    ∃ ps : List (EchoPulse α),
      (Player.shootEchoPulse M targetX targetY g).echoPulses = g.echoPulses ++ ps ∧
      ps.map (fun q => (q.x, q.y, q.bounces, q.angle, q.isMainPulse, q.damage)) =
        (let cx := g.player.x + g.player.width / 2
         let cy := g.player.y + g.player.height / 2
         let aim := M.atan2 (targetY - cy) (targetX - cx)
         [(cx, cy, 0, aim + -1 * M.PI / 32, false, 1 / 2),
          (cx, cy, 0, aim + -(1 / 2) * M.PI / 32, false, 1 / 2),
          (cx, cy, 0, aim + 0 * M.PI / 32, true, 1),
          (cx, cy, 0, aim + 1 / 2 * M.PI / 32, false, 1 / 2),
          (cx, cy, 0, aim + 1 * M.PI / 32, false, 1 / 2)]) ∧
      (Player.shootEchoPulse M targetX targetY g).player.echoCooldown = 800 := by
  rw [shootEchoPulse_fires M g targetX targetY hready hcool]
  refine ⟨_, rfl, ?_, rfl⟩
  simp [EchoPulse.new]

/-- The scenario "player at (450, 300) fires at (450, 0)", for any interpretation of `Math`. -/
theorem shoot_scenario (M : JSMath α) (g : Game α) (hp : g.player = Player.new 450 300) :
    ∃ ps : List (EchoPulse α),
      (Player.shootEchoPulse M 450 0 g).echoPulses = g.echoPulses ++ ps ∧
      ps.map EchoPulse.angle =
        [M.atan2 (-332) (-16) + -1 * M.PI / 32,
         M.atan2 (-332) (-16) + -(1 / 2) * M.PI / 32,
         M.atan2 (-332) (-16) + 0 * M.PI / 32,
         M.atan2 (-332) (-16) + 1 / 2 * M.PI / 32,
         M.atan2 (-332) (-16) + 1 * M.PI / 32] ∧
      (Player.shootEchoPulse M 450 0 g).player.echoCooldown = 800 := by
  rw [shootEchoPulse_fires M g 450 0 (by simp [hp, Player.new]) (by simp [hp, Player.new])]
  refine ⟨_, rfl, ?_, rfl⟩
  have e1 : (0 : α) - (300 + 64 / 2) = -332 := by norm_num
  have e2 : (450 : α) - (450 + 32 / 2) = -16 := by norm_num
  simp [EchoPulse.new, hp, Player.new, e1, e2]

/-- C2, at a player made invincible by `startInvincibility`. -/
theorem C2_invincible_takeDamage_noop_witness :
    ((Player.new 450 300 : Player ℚ).startInvincibility 3000).isInvincible = true ∧
    ((Player.new 450 300 : Player ℚ).startInvincibility 3000).takeDamage 1 =
      (Player.new 450 300 : Player ℚ).startInvincibility 3000 :=
  ⟨rfl, C2_invincible_takeDamage_noop _ 1 rfl⟩

/-- C5, at the session right after a shot: the weapon is cooling down. -/
theorem C5_shoot_on_cooldown_noop_witness :
    ((Player.shootEchoPulse realMath 466 0 (Game.new : Game ℝ)).player.canShoot = false ∨
      (Player.shootEchoPulse realMath 466 0 (Game.new : Game ℝ)).player.echoCooldown > 0) ∧
    Player.shootEchoPulse realMath 100 100 (Player.shootEchoPulse realMath 466 0 (Game.new : Game ℝ)) =
      Player.shootEchoPulse realMath 466 0 (Game.new : Game ℝ) :=
  ⟨Or.inl (by simp [Player.shootEchoPulse, Game.new, Player.new]),
   C5_shoot_on_cooldown_noop realMath _ 100 100
     (Or.inl (by simp [Player.shootEchoPulse, Game.new, Player.new]))⟩

/-- C3, at the freshly constructed session, aiming at (466, 0). -/
theorem C3_shoot_spawns_spread_witness :
    (Game.new : Game ℝ).player.canShoot = true ∧ (Game.new : Game ℝ).player.echoCooldown ≤ 0 ∧
    ∃ ps : List (EchoPulse ℝ),
      (Player.shootEchoPulse realMath 466 0 (Game.new : Game ℝ)).echoPulses =
        (Game.new : Game ℝ).echoPulses ++ ps ∧
      ps.map (fun q => (q.x, q.y, q.bounces, q.angle, q.isMainPulse, q.damage)) =
        (let cx := (Game.new : Game ℝ).player.x + (Game.new : Game ℝ).player.width / 2
         let cy := (Game.new : Game ℝ).player.y + (Game.new : Game ℝ).player.height / 2
         let aim := realMath.atan2 (0 - cy) (466 - cx)
         [(cx, cy, 0, aim + -1 * realMath.PI / 32, false, 1 / 2),
          (cx, cy, 0, aim + -(1 / 2) * realMath.PI / 32, false, 1 / 2),
          (cx, cy, 0, aim + 0 * realMath.PI / 32, true, 1),
          (cx, cy, 0, aim + 1 / 2 * realMath.PI / 32, false, 1 / 2),
          (cx, cy, 0, aim + 1 * realMath.PI / 32, false, 1 / 2)]) ∧
      (Player.shootEchoPulse realMath 466 0 (Game.new : Game ℝ)).player.echoCooldown = 800 :=
  ⟨rfl, by simp [Game.new, Player.new],
   C3_shoot_spawns_spread realMath Game.new 466 0 rfl (by simp [Game.new, Player.new])⟩

/-- C4 (as amended). With the player at position (450, 300) as constructed (size 32 x 64, so
centre (466, 332), health 5, weapon ready), `shootEchoPulse(450, 0)` appends five projectiles
whose angles are `aim + k * PI / 32` for `k = -1, -1/2, 0, 1/2, 1`, where
`aim = atan2(-332, -16)` is the direction from the player's centre to the target, and the echo
cooldown becomes 800. -/
theorem C4_scenario_aim_from_centre (M : JSMath α) (g : Game α)
    (hp : g.player = Player.new 450 300) :
    ∃ ps : List (EchoPulse α),
      (Player.shootEchoPulse M 450 0 g).echoPulses = g.echoPulses ++ ps ∧
      ps.map EchoPulse.angle =
        [M.atan2 (-332) (-16) + -1 * M.PI / 32,
         M.atan2 (-332) (-16) + -(1 / 2) * M.PI / 32,
         M.atan2 (-332) (-16) + 0 * M.PI / 32,
         M.atan2 (-332) (-16) + 1 / 2 * M.PI / 32,
         M.atan2 (-332) (-16) + 1 * M.PI / 32] ∧
      (Player.shootEchoPulse M 450 0 g).player.echoCooldown = 800 :=
  shoot_scenario M g hp

/-- C4 (as amended), at the session after `resetGame` placed the player. -/
theorem C4_scenario_aim_from_centre_witness :
    ({ (Game.new : Game ℝ) with gameState := GameState.PLAYING }).player = Player.new 450 300 ∧
    ∃ ps : List (EchoPulse ℝ),
      (Player.shootEchoPulse realMath 450 0
        { (Game.new : Game ℝ) with gameState := GameState.PLAYING }).echoPulses =
        ({ (Game.new : Game ℝ) with gameState := GameState.PLAYING }).echoPulses ++ ps ∧
      ps.map EchoPulse.angle =
        [realMath.atan2 (-332) (-16) + -1 * realMath.PI / 32,
         realMath.atan2 (-332) (-16) + -(1 / 2) * realMath.PI / 32,
         realMath.atan2 (-332) (-16) + 0 * realMath.PI / 32,
         realMath.atan2 (-332) (-16) + 1 / 2 * realMath.PI / 32,
         realMath.atan2 (-332) (-16) + 1 * realMath.PI / 32] ∧
      (Player.shootEchoPulse realMath 450 0
        { (Game.new : Game ℝ) with gameState := GameState.PLAYING }).player.echoCooldown = 800 :=
  ⟨by norm_num [Game.new], C4_scenario_aim_from_centre realMath _ (by norm_num [Game.new])⟩

/-- C4, the scenario as the specification words it: in the session as constructed (player at
(450, 300), health 5, weapon ready) the angles of the projectiles of `shootEchoPulse(450, 0)`
are not `-pi/2 + k * pi / 32`, because the aim `atan2(-332, -16)` is not `-pi/2`. -/
theorem C4_aim_is_not_straight_up :
    ¬ ((Player.shootEchoPulse realMath 450 0 (Game.new : Game ℝ)).echoPulses.map EchoPulse.angle =
        [-(Real.pi / 2) + -1 * Real.pi / 32,
         -(Real.pi / 2) + -(1 / 2) * Real.pi / 32,
         -(Real.pi / 2) + 0 * Real.pi / 32,
         -(Real.pi / 2) + 1 / 2 * Real.pi / 32,
         -(Real.pi / 2) + 1 * Real.pi / 32]) := by
  intro h
  obtain ⟨ps, hps, hang, -⟩ := shoot_scenario realMath (Game.new : Game ℝ)
    (by norm_num [Game.new])
  rw [hps] at h
  simp only [Game.new, List.nil_append] at h
  rw [hang] at h
  have h3 := congrArg (fun l => l[2]?) h
  simp [realMath] at h3
  have := (Complex.arg_eq_neg_pi_div_two_iff).mp h3
  simp at this

/-! ### Projectiles -/

theorem EchoPulse.animate_frame (e : EchoPulse α) :
    e.animate.x = e.x ∧ e.animate.y = e.y ∧ e.animate.width = e.width ∧
    e.animate.height = e.height ∧ e.animate.angle = e.angle ∧ e.animate.speed = e.speed ∧
    e.animate.bounces = e.bounces ∧ e.animate.damage = e.damage ∧
    e.animate.isMainPulse = e.isMainPulse := by
  unfold EchoPulse.animate
  dsimp only
  split_ifs <;> simp

theorem EchoPulse.advance_frame (M : JSMath α) (e : EchoPulse α) :
    (e.advance M).x = e.x + M.cos e.angle * e.speed ∧
    (e.advance M).y = e.y + M.sin e.angle * e.speed ∧
    (e.advance M).width = e.width ∧ (e.advance M).height = e.height ∧
    (e.advance M).angle = e.angle ∧ (e.advance M).speed = e.speed ∧
    (e.advance M).bounces = e.bounces ∧ (e.advance M).damage = e.damage ∧
    (e.advance M).isMainPulse = e.isMainPulse := by
  unfold EchoPulse.advance
  dsimp only
  split_ifs <;> simp

/-- The position a projectile has after the move of `update`, before the boundary test. -/
theorem EchoPulse.moved_eq (M : JSMath α) (e : EchoPulse α) :
    ((e.animate).advance M).x = e.x + M.cos e.angle * e.speed ∧
    ((e.animate).advance M).y = e.y + M.sin e.angle * e.speed ∧
    ((e.animate).advance M).width = e.width ∧ ((e.animate).advance M).height = e.height ∧
    ((e.animate).advance M).angle = e.angle ∧
    ((e.animate).advance M).bounces = e.bounces := by
  obtain ⟨a1, a2, a3, a4, a5, a6, a7, -, -⟩ := EchoPulse.animate_frame e
  obtain ⟨b1, b2, b3, b4, b5, b6, b7, -, -⟩ := EchoPulse.advance_frame M e.animate
  rw [b1, b2, b3, b4, b5, b7, a1, a2, a3, a4, a5, a6, a7]
  exact ⟨rfl, rfl, rfl, rfl, rfl, rfl⟩

theorem EchoPulse.bounce_bounces (M : JSMath α) (e : EchoPulse α) :
    (e.bounce M).bounces =
      if (e.x ≤ 0 ∨ e.x ≥ CONFIG.CANVAS.WIDTH - e.width) ∨
         (e.y ≤ 0 ∨ e.y ≥ CONFIG.CANVAS.HEIGHT - e.height) then e.bounces + 1
      else e.bounces := by
  unfold EchoPulse.bounce
  by_cases hx : (e.x ≤ 0 ∨ e.x ≥ CONFIG.CANVAS.WIDTH - e.width) <;>
  by_cases hy : (e.y ≤ 0 ∨ e.y ≥ CONFIG.CANVAS.HEIGHT - e.height) <;>
  simp only [hx, hy, decide_True, decide_False, if_true, if_false, Bool.false_eq_true,
    Bool.or_true, Bool.or_false, Bool.or_self, or_true, or_false, true_or]

theorem EchoPulse.update_bounces_ge (M : JSMath α) (e : EchoPulse α) (dt : α) :
    e.bounces ≤ (e.update M dt).bounces := by
  unfold EchoPulse.update
  rw [EchoPulse.bounce_bounces]
  obtain ⟨-, -, -, -, -, h⟩ := EchoPulse.moved_eq M e
  split_ifs <;> omega

theorem EchoPulse.update_bounces_le (M : JSMath α) (e : EchoPulse α) (dt : α) :
    (e.update M dt).bounces ≤ e.bounces + 1 := by
  unfold EchoPulse.update
  rw [EchoPulse.bounce_bounces]
  obtain ⟨-, -, -, -, -, h⟩ := EchoPulse.moved_eq M e
  split_ifs <;> omega

/-- Contact with a vertical boundary only. -/
theorem EchoPulse.bounce_vertical (M : JSMath α) (e : EchoPulse α)
    (hx : e.x ≤ 0 ∨ e.x ≥ CONFIG.CANVAS.WIDTH - e.width)
    (hy : ¬ (e.y ≤ 0 ∨ e.y ≥ CONFIG.CANVAS.HEIGHT - e.height)) :
    (e.bounce M).angle = M.PI - e.angle ∧
    (e.bounce M).x = max 0 (min e.x (CONFIG.CANVAS.WIDTH - e.width)) ∧
    (e.bounce M).y = e.y ∧ (e.bounce M).bounces = e.bounces + 1 := by
  unfold EchoPulse.bounce
  simp only [hx, hy, decide_True, decide_False, if_true, if_false, Bool.false_eq_true,
    Bool.or_true, Bool.or_false, Bool.or_self, and_self]

/-- Contact with a horizontal boundary only. -/
theorem EchoPulse.bounce_horizontal (M : JSMath α) (e : EchoPulse α)
    (hx : ¬ (e.x ≤ 0 ∨ e.x ≥ CONFIG.CANVAS.WIDTH - e.width))
    (hy : e.y ≤ 0 ∨ e.y ≥ CONFIG.CANVAS.HEIGHT - e.height) :
    (e.bounce M).angle = -e.angle ∧
    (e.bounce M).y = max 0 (min e.y (CONFIG.CANVAS.HEIGHT - e.height)) ∧
    (e.bounce M).x = e.x ∧ (e.bounce M).bounces = e.bounces + 1 := by
  unfold EchoPulse.bounce
  simp only [hx, hy, decide_True, decide_False, if_true, if_false, Bool.false_eq_true,
    Bool.or_true, Bool.or_false, Bool.or_self, and_self]

/-! ### C7: wall reflection -/

/-- C7. Wall reflection, for a projectile of the constructor's size 32 x 32. Write `(x', y')` for
its position after the move of `update`. If `x' ≤ 0` or `x' ≥ 868` while `0 < y' < 568`, then
`update` replaces `angle` by `PI - angle`, sets `x` to `x'` clamped into `[0, 868]`, leaves `y`
at `y'` and adds exactly 1 to `bounces`. If `y' ≤ 0` or `y' ≥ 568` while `0 < x' < 868`, then
`update` replaces `angle` by `-angle`, sets `y` to `y'` clamped into `[0, 568]`, leaves `x` at
`x'` and adds exactly 1 to `bounces`. -/
theorem C7_wall_reflection (M : JSMath α) (e : EchoPulse α) (dt : α)
    (hw : e.width = 32) (hh : e.height = 32) :
    ((e.x + M.cos e.angle * e.speed ≤ 0 ∨ e.x + M.cos e.angle * e.speed ≥ 868) →
      0 < e.y + M.sin e.angle * e.speed → e.y + M.sin e.angle * e.speed < 568 →
      (e.update M dt).angle = M.PI - e.angle ∧
      (e.update M dt).x = max 0 (min (e.x + M.cos e.angle * e.speed) 868) ∧
      0 ≤ (e.update M dt).x ∧ (e.update M dt).x ≤ 868 ∧
      (e.update M dt).y = e.y + M.sin e.angle * e.speed ∧
      (e.update M dt).bounces = e.bounces + 1) ∧
    ((e.y + M.sin e.angle * e.speed ≤ 0 ∨ e.y + M.sin e.angle * e.speed ≥ 568) →
      0 < e.x + M.cos e.angle * e.speed → e.x + M.cos e.angle * e.speed < 868 →
      (e.update M dt).angle = -e.angle ∧
      (e.update M dt).y = max 0 (min (e.y + M.sin e.angle * e.speed) 568) ∧
      0 ≤ (e.update M dt).y ∧ (e.update M dt).y ≤ 568 ∧
      (e.update M dt).x = e.x + M.cos e.angle * e.speed ∧
      (e.update M dt).bounces = e.bounces + 1) := by
  obtain ⟨mx, my, mw, mh, ma, mb⟩ := EchoPulse.moved_eq M e
  have e868 : (CONFIG.CANVAS.WIDTH : α) - 32 = 868 := by norm_num
  have e568 : (CONFIG.CANVAS.HEIGHT : α) - 32 = 568 := by norm_num
  constructor
  · intro hx hy0 hy1
    have hX : (e.animate.advance M).x ≤ 0 ∨
        (e.animate.advance M).x ≥ CONFIG.CANVAS.WIDTH - (e.animate.advance M).width := by
      rw [mx, mw, hw, e868]; exact hx
    have hY : ¬ ((e.animate.advance M).y ≤ 0 ∨
        (e.animate.advance M).y ≥ CONFIG.CANVAS.HEIGHT - (e.animate.advance M).height) := by
      rw [my, mh, hh, e568]
      intro h
      rcases h with h | h
      · exact absurd hy0 (not_lt.mpr h)
      · exact absurd hy1 (not_lt.mpr h)
    obtain ⟨r1, r2, r3, r4⟩ := EchoPulse.bounce_vertical M _ hX hY
    unfold EchoPulse.update
    rw [r1, r2, r3, r4, mx, my, mw, ma, mb, hw, e868]
    refine ⟨rfl, rfl, le_max_left _ _, ?_, rfl, rfl⟩
    exact max_le (by norm_num) (min_le_right _ _)
  · intro hy hx0 hx1
    have hX : ¬ ((e.animate.advance M).x ≤ 0 ∨
        (e.animate.advance M).x ≥ CONFIG.CANVAS.WIDTH - (e.animate.advance M).width) := by
      rw [mx, mw, hw, e868]
      intro h
      rcases h with h | h
      · exact absurd hx0 (not_lt.mpr h)
      · exact absurd hx1 (not_lt.mpr h)
    have hY : (e.animate.advance M).y ≤ 0 ∨
        (e.animate.advance M).y ≥ CONFIG.CANVAS.HEIGHT - (e.animate.advance M).height := by
      rw [my, mh, hh, e568]; exact hy
    obtain ⟨r1, r2, r3, r4⟩ := EchoPulse.bounce_horizontal M _ hX hY
    unfold EchoPulse.update
    rw [r1, r2, r3, r4, mx, my, mh, ma, mb, hh, e568]
    refine ⟨rfl, rfl, le_max_left _ _, ?_, rfl, rfl⟩
    exact max_le (by norm_num) (min_le_right _ _)

/-- C7, at the projectile fired straight up by a player standing at the right wall: it starts
at `x = 884`, reaches the boundary test still at `x = 884`, and leaves `update` with the angle
`pi - (-pi/2)`, `x = 868` and one bounce. -/
theorem C7_wall_reflection_witness :
    (EchoPulse.new 884 332 (-(Real.pi / 2)) true : EchoPulse ℝ).width = 32 ∧
    (EchoPulse.new 884 332 (-(Real.pi / 2)) true : EchoPulse ℝ).height = 32 ∧
    (884 : ℝ) + realMath.cos (-(Real.pi / 2)) * 10 = 884 ∧
    ((EchoPulse.new 884 332 (-(Real.pi / 2)) true : EchoPulse ℝ).update realMath
      (1000 / 60)).angle = Real.pi - -(Real.pi / 2) ∧
    ((EchoPulse.new 884 332 (-(Real.pi / 2)) true : EchoPulse ℝ).update realMath
      (1000 / 60)).x = 868 ∧
    ((EchoPulse.new 884 332 (-(Real.pi / 2)) true : EchoPulse ℝ).update realMath
      (1000 / 60)).bounces = 1 := by
  have hw : (EchoPulse.new 884 332 (-(Real.pi / 2)) true : EchoPulse ℝ).width = 32 := by
    norm_num [EchoPulse.new]
  have hh : (EchoPulse.new 884 332 (-(Real.pi / 2)) true : EchoPulse ℝ).height = 32 := by
    norm_num [EchoPulse.new]
  have hc : realMath.cos (-(Real.pi / 2)) = 0 := by simp [realMath]
  have hs : realMath.sin (-(Real.pi / 2)) = -1 := by simp [realMath]
  have h := (C7_wall_reflection realMath
    (EchoPulse.new 884 332 (-(Real.pi / 2)) true : EchoPulse ℝ) (1000 / 60) hw hh).1
    (Or.inr (by norm_num [EchoPulse.new, hc])) (by norm_num [EchoPulse.new, hs])
    (by norm_num [EchoPulse.new, hs])
  refine ⟨hw, hh, by rw [hc]; norm_num, ?_, ?_, ?_⟩
  · exact h.1
  · rw [h.2.1]; norm_num [EchoPulse.new, hc]
  · rw [h.2.2.2.2.2]; simp [EchoPulse.new]

/-! ### The tick, phase by phase -/

/-- A hit always ends in the exception raised by `createHitEffect`: the enemy has taken the
damage and the projectile is spliced out, and the rest of the callback is not reached. -/
theorem Game.hitPulse_eq (env : Env α) (index : Nat) (pulse : EchoPulse α) (pulseIndex : Nat)
    (s : Game.HitScan α) :
    Game.hitPulse env index pulse pulseIndex s =
      if Game.checkCollision pulse.box s.enemy.box then
        Completion.throws
          ⟨{ s.game with
              enemies := if s.attached then s.game.enemies.set index
                (s.enemy.takeDamage pulse.damage) else s.game.enemies,
              trace := s.game.trace ++ [Event.hit pulseIndex index pulse],
              echoPulses := s.game.echoPulses.eraseIdx pulseIndex },
            s.enemy.takeDamage pulse.damage, s.attached⟩
      else Completion.normal s := by
  unfold Game.hitPulse
  split_ifs <;> simp [Game.createHitEffect, Game.renderParticles]

theorem Game.updateEnemy_state_inv (P : Game α → Prop) (M : JSMath α) (env : Env α) (dt : α)
    (hset : ∀ (g : Game α) (k : Nat) (e : Enemy α), P g → g.enemies[k]? = some e →
      P { g with enemies := g.enemies.set k (e.update M env.now dt g.player) })
    (hhit : ∀ (g : Game α) (k j : Nat) (e : Enemy α) (pulse : EchoPulse α), P g →
      g.enemies[k]? = some e → g.echoPulses[j]? = some pulse →
      Game.checkCollision pulse.box e.box = true →
      P { g with enemies := g.enemies.set k (e.takeDamage pulse.damage),
                 trace := g.trace ++ [Event.hit j k pulse],
                 echoPulses := g.echoPulses.eraseIdx j })
    (x : Enemy α) (k : Nat) (g : Game α) (hg : P g) (hx : g.enemies[k]? = some x) :
    P (Game.updateEnemy M env dt x k g).state := by
  have hk : k < g.enemies.length := by
    rcases List.getElem?_eq_some_iff.mp hx with ⟨h, -⟩
    exact h
  have key := forEach_state_inv (fun s : Game.HitScan α => s.game.echoPulses)
    (Game.hitPulse env k)
    (fun s => P s.game ∧ s.attached = true ∧ s.game.enemies[k]? = some s.enemy)
    (by
      intro pulse j s hs hj
      obtain ⟨h1, h2, h3⟩ := hs
      rw [Game.hitPulse_eq]
      by_cases hc : Game.checkCollision pulse.box s.enemy.box = true
      · rw [if_pos hc]
        simp only [Completion.state, h2, if_true]
        refine ⟨hhit s.game k j s.enemy pulse h1 h3 hj hc, trivial, ?_⟩
        have hk' : k < s.game.enemies.length := by
          rcases List.getElem?_eq_some_iff.mp h3 with ⟨h, -⟩
          exact h
        simp [hk']
      · rw [if_neg hc]
        exact ⟨h1, h2, h3⟩)
    ⟨{ g with enemies := g.enemies.set k (x.update M env.now dt g.player) },
      x.update M env.now dt g.player, true⟩
    ⟨hset g k x hg hx, rfl, by simp [hk]⟩
  unfold Game.updateEnemy
  dsimp only
  cases hfe : forEach (fun s : Game.HitScan α => s.game.echoPulses) (Game.hitPulse env k)
    ⟨{ g with enemies := g.enemies.set k (x.update M env.now dt g.player) },
      x.update M env.now dt g.player, true⟩ with
  | normal s => rw [hfe] at key; exact key.1
  | throws s => rw [hfe] at key; exact key.1

theorem Game.update_state_inv (P : Game α → Prop) (M : JSMath α) (env : Env α) (dt : α)
    (hplayer : ∀ g : Game α, P g → P { g with player := g.player.update dt g.keys })
    (hpulse : ∀ (x : EchoPulse α) (k : Nat) (g : Game α), P g → g.echoPulses[k]? = some x →
      P (Game.updatePulse M dt x k g).state)
    (henemy : ∀ (x : Enemy α) (k : Nat) (g : Game α), P g → g.enemies[k]? = some x →
      P (Game.updateEnemy M env dt x k g).state)
    (hcrystal : ∀ (x : Crystal α) (k : Nat) (g : Game α), P g → g.crystals[k]? = some x →
      P (Game.updateCrystal M dt x k g).state)
    (htouch : ∀ (x : Enemy α) (k : Nat) (g : Game α), P g → g.enemies[k]? = some x →
      P (Game.touchEnemy M x k g).state)
    (g : Game α) (hg : P g) : P (Game.update M env dt g).state := by
  unfold Game.update
  split_ifs with hs
  · exact hg
  · dsimp only
    apply andThen_state_inv P
    · exact forEach_state_inv _ _ P hpulse _ (hplayer g hg)
    · intro g2 h2
      apply andThen_state_inv P
      · exact forEach_state_inv _ _ P henemy _ h2
      · intro g3 h3
        apply andThen_state_inv P
        · exact forEach_state_inv _ _ P hcrystal _ h3
        · intro g4 h4
          exact forEach_state_inv _ _ P htouch _ h4

/-! ### What `Player.update` leaves alone -/

theorem Player.update_combat (p : Player α) (dt : α) (keys : List String) :
    (p.update dt keys).health = p.health ∧
    (p.update dt keys).isInvincible = p.isInvincible ∧
    (p.update dt keys).canShoot = p.canShoot ∧
    (p.update dt keys).timers = p.timers ∧
    (p.update dt keys).width = p.width ∧
    (p.update dt keys).height = p.height := by
  have h1 : ∀ q : Player α, (q.tickCooldowns dt).health = q.health ∧
      (q.tickCooldowns dt).isInvincible = q.isInvincible ∧
      (q.tickCooldowns dt).canShoot = q.canShoot ∧ (q.tickCooldowns dt).timers = q.timers ∧
      (q.tickCooldowns dt).width = q.width ∧ (q.tickCooldowns dt).height = q.height := by
    intro q; unfold Player.tickCooldowns; dsimp only; split_ifs <;> simp
  have h2 : ∀ q : Player α, (q.readDirection keys).health = q.health ∧
      (q.readDirection keys).isInvincible = q.isInvincible ∧
      (q.readDirection keys).canShoot = q.canShoot ∧ (q.readDirection keys).timers = q.timers ∧
      (q.readDirection keys).width = q.width ∧ (q.readDirection keys).height = q.height := by
    intro q; unfold Player.readDirection; dsimp only; split_ifs <;> simp
  have h3 : ∀ q : Player α, q.accelerate.health = q.health ∧
      q.accelerate.isInvincible = q.isInvincible ∧
      q.accelerate.canShoot = q.canShoot ∧ q.accelerate.timers = q.timers ∧
      q.accelerate.width = q.width ∧ q.accelerate.height = q.height := by
    intro q; unfold Player.accelerate; dsimp only; split_ifs <;> simp
  have h4 : ∀ q : Player α, (q.dash keys).health = q.health ∧
      (q.dash keys).isInvincible = q.isInvincible ∧
      (q.dash keys).canShoot = q.canShoot ∧ (q.dash keys).timers = q.timers ∧
      (q.dash keys).width = q.width ∧ (q.dash keys).height = q.height := by
    intro q; unfold Player.dash; split_ifs <;> simp
  have h5 : ∀ q : Player α, (q.jump keys).health = q.health ∧
      (q.jump keys).isInvincible = q.isInvincible ∧
      (q.jump keys).canShoot = q.canShoot ∧ (q.jump keys).timers = q.timers ∧
      (q.jump keys).width = q.width ∧ (q.jump keys).height = q.height := by
    intro q; unfold Player.jump; dsimp only; split_ifs <;> simp
  have h6 : ∀ q : Player α, q.wallSlide.health = q.health ∧
      q.wallSlide.isInvincible = q.isInvincible ∧
      q.wallSlide.canShoot = q.canShoot ∧ q.wallSlide.timers = q.timers ∧
      q.wallSlide.width = q.width ∧ q.wallSlide.height = q.height := by
    intro q; unfold Player.wallSlide; split_ifs <;> simp
  have h7 : ∀ q : Player α, (q.cutJump keys).health = q.health ∧
      (q.cutJump keys).isInvincible = q.isInvincible ∧
      (q.cutJump keys).canShoot = q.canShoot ∧ (q.cutJump keys).timers = q.timers ∧
      (q.cutJump keys).width = q.width ∧ (q.cutJump keys).height = q.height := by
    intro q; unfold Player.cutJump; split_ifs <;> simp
  have h8 : ∀ q : Player α, q.applyGravity.health = q.health ∧
      q.applyGravity.isInvincible = q.isInvincible ∧
      q.applyGravity.canShoot = q.canShoot ∧ q.applyGravity.timers = q.timers ∧
      q.applyGravity.width = q.width ∧ q.applyGravity.height = q.height := by
    intro q; unfold Player.applyGravity; simp
  have h9 : ∀ q : Player α, q.integrate.health = q.health ∧
      q.integrate.isInvincible = q.isInvincible ∧
      q.integrate.canShoot = q.canShoot ∧ q.integrate.timers = q.timers ∧
      q.integrate.width = q.width ∧ q.integrate.height = q.height := by
    intro q; unfold Player.integrate; simp
  have h10 : ∀ q : Player α, q.groundFriction.health = q.health ∧
      q.groundFriction.isInvincible = q.isInvincible ∧
      q.groundFriction.canShoot = q.canShoot ∧ q.groundFriction.timers = q.timers ∧
      q.groundFriction.width = q.width ∧ q.groundFriction.height = q.height := by
    intro q; unfold Player.groundFriction; split_ifs <;> simp
  have h11 : ∀ q : Player α, q.keepInBounds.health = q.health ∧
      q.keepInBounds.isInvincible = q.isInvincible ∧
      q.keepInBounds.canShoot = q.canShoot ∧ q.keepInBounds.timers = q.timers ∧
      q.keepInBounds.width = q.width ∧ q.keepInBounds.height = q.height := by
    intro q; unfold Player.keepInBounds; dsimp only; split_ifs <;> simp
  have h12 : ∀ q : Player α, (q.tickFlash dt).health = q.health ∧
      (q.tickFlash dt).isInvincible = q.isInvincible ∧
      (q.tickFlash dt).canShoot = q.canShoot ∧ (q.tickFlash dt).timers = q.timers ∧
      (q.tickFlash dt).width = q.width ∧ (q.tickFlash dt).height = q.height := by
    intro q; unfold Player.tickFlash; simp
  unfold Player.update
  dsimp only
  refine ⟨?_, ?_, ?_, ?_, ?_, ?_⟩
  · rw [(h12 _).1, (h11 _).1, (h10 _).1, (h9 _).1, (h8 _).1, (h7 _).1, (h6 _).1, (h5 _).1,
      (h4 _).1, (h3 _).1, (h2 _).1, (h1 _).1]
  · rw [(h12 _).2.1, (h11 _).2.1, (h10 _).2.1, (h9 _).2.1, (h8 _).2.1, (h7 _).2.1, (h6 _).2.1,
      (h5 _).2.1, (h4 _).2.1, (h3 _).2.1, (h2 _).2.1, (h1 _).2.1]
  · rw [(h12 _).2.2.1, (h11 _).2.2.1, (h10 _).2.2.1, (h9 _).2.2.1, (h8 _).2.2.1, (h7 _).2.2.1,
      (h6 _).2.2.1, (h5 _).2.2.1, (h4 _).2.2.1, (h3 _).2.2.1, (h2 _).2.2.1, (h1 _).2.2.1]
  · rw [(h12 _).2.2.2.1, (h11 _).2.2.2.1, (h10 _).2.2.2.1, (h9 _).2.2.2.1, (h8 _).2.2.2.1,
      (h7 _).2.2.2.1, (h6 _).2.2.2.1, (h5 _).2.2.2.1, (h4 _).2.2.2.1, (h3 _).2.2.2.1,
      (h2 _).2.2.2.1, (h1 _).2.2.2.1]
  · rw [(h12 _).2.2.2.2.1, (h11 _).2.2.2.2.1, (h10 _).2.2.2.2.1, (h9 _).2.2.2.2.1,
      (h8 _).2.2.2.2.1, (h7 _).2.2.2.2.1, (h6 _).2.2.2.2.1, (h5 _).2.2.2.2.1, (h4 _).2.2.2.2.1,
      (h3 _).2.2.2.2.1, (h2 _).2.2.2.2.1, (h1 _).2.2.2.2.1]
  · rw [(h12 _).2.2.2.2.2, (h11 _).2.2.2.2.2, (h10 _).2.2.2.2.2, (h9 _).2.2.2.2.2,
      (h8 _).2.2.2.2.2, (h7 _).2.2.2.2.2, (h6 _).2.2.2.2.2, (h5 _).2.2.2.2.2, (h4 _).2.2.2.2.2,
      (h3 _).2.2.2.2.2, (h2 _).2.2.2.2.2, (h1 _).2.2.2.2.2]

/-! ### Callbacks of the tick -/

theorem Game.updatePulse_eq (M : JSMath α) (dt : α) (pulse : EchoPulse α) (index : Nat)
    (g : Game α) :
    Game.updatePulse M dt pulse index g =
      if (pulse.update M dt).bounces ≥ CONFIG.ECHO.MAX_BOUNCES then
        Completion.normal
          { g with echoPulses := (g.echoPulses.set index (pulse.update M dt)).eraseIdx index }
      else
        Completion.normal { g with echoPulses := g.echoPulses.set index (pulse.update M dt) } := by
  unfold Game.updatePulse
  rfl

theorem Game.updateCrystal_eq (M : JSMath α) (dt : α) (crystal : Crystal α) (index : Nat)
    (g : Game α) :
    Game.updateCrystal M dt crystal index g =
      if Game.checkCollision g.player.box (Game.pulledCrystal M dt crystal g).box then
        Completion.throws
          { g with
            crystals :=
              (g.crystals.set index (Game.pulledCrystal M dt crystal g)).eraseIdx index,
            player := g.player.heal CONFIG.CRYSTALS.HEALTH_CRYSTAL.HEAL_AMOUNT,
            trace := g.trace ++ [Event.healed index] }
      else
        Completion.normal
          { g with crystals := g.crystals.set index (Game.pulledCrystal M dt crystal g) } := by
  unfold Game.updateCrystal Game.pulledCrystal
  dsimp only
  split_ifs <;> simp [Game.createHealEffect, Game.renderParticles]

theorem Game.touchEnemy_eq (M : JSMath α) (enemy : Enemy α) (index : Nat) (g : Game α) :
    Game.touchEnemy M enemy index g =
      if (!enemy.isStunned && Game.checkCollision g.player.box enemy.box) = true then
        Completion.normal
          { g with
            player :=
              { g.player.takeDamage enemy.damage with
                velocityX := (g.player.takeDamage enemy.damage).velocityX +
                  M.cos (M.atan2 (g.player.y - enemy.y) (g.player.x - enemy.x)) * 10,
                velocityY := (g.player.takeDamage enemy.damage).velocityY +
                  M.sin (M.atan2 (g.player.y - enemy.y) (g.player.x - enemy.x)) * 10 },
            gameState :=
              if (g.player.takeDamage enemy.damage).health ≤ 0 then GameState.GAME_OVER
              else g.gameState }
      else Completion.normal g := by
  unfold Game.touchEnemy
  dsimp only
  split_ifs <;> simp [Game.gameOver]

theorem Player.takeDamage_health (p : Player α) (amount : α) :
    (p.takeDamage amount).health = if p.isInvincible then p.health else p.health - amount := by
  unfold Player.takeDamage
  split_ifs <;> simp [Player.startInvincibility]

theorem Player.takeDamage_isInvincible (p : Player α) (amount : α) :
    (p.takeDamage amount).isInvincible = true := by
  unfold Player.takeDamage
  split_ifs with h
  · exact h
  · simp [Player.startInvincibility]

/-! ### Frames and sessions -/

theorem Game.tickLoop_state_inv (P : Game α → Prop) (M : JSMath α) (env : Nat → Env α)
    (hupd : ∀ (e : Env α) (dt : α) (g : Game α), P g → P (Game.update M e dt g).state)
    (hacc : ∀ (g : Game α) (a : α), P g → P { g with accumulator := a }) :
    ∀ (fuel i : Nat) (g : Game α), P g → P (Game.tickLoop M env fuel i g).state := by
  intro fuel
  induction fuel with
  | zero => intro i g hg; exact hg
  | succ n ih =>
    intro i g hg
    unfold Game.tickLoop
    split_ifs with hc
    · have h := hupd (env i) Game.timestep g hg
      cases hu : Game.update M (env i) Game.timestep g with
      | normal g' =>
        rw [hu] at h
        exact ih _ _ (hacc _ _ h)
      | throws g' =>
        rw [hu] at h
        exact h
    · exact hg

theorem Game.gameLoop_state_inv [FloorRing α] (P : Game α → Prop) (M : JSMath α)
    (env : Nat → Env α)
    (hupd : ∀ (e : Env α) (dt : α) (g : Game α), P g → P (Game.update M e dt g).state)
    (hacc : ∀ (g : Game α) (a : α), P g → P { g with accumulator := a })
    (hlast : ∀ (g : Game α) (t : α), P g → P { g with lastTime := t })
    (t : α) (g : Game α) (hg : P g) : P (Game.gameLoop M env t g).state := by
  unfold Game.gameLoop
  split_ifs with hs
  · exact hg
  · dsimp only
    have h1 := hlast g t hg
    have h2 := hacc _ (g.accumulator + (t - g.lastTime)) h1
    exact Game.tickLoop_state_inv P M env hupd hacc _ _ _ h2

theorem Game.resetGame_eq (M : JSMath α) (draws : List (α × α)) (g g' : Game α)
    (h : Game.resetGame M draws g = some g') :
    ∃ spawn : List (α × α),
      g' = { g with score := 0, depth := 0,
                    player := Player.new (CONFIG.CANVAS.WIDTH / 2) (CONFIG.CANVAS.HEIGHT / 2),
                    echoPulses := [],
                    enemies := spawn.map fun pos => Enemy.new pos.1 pos.2,
                    crystals := [] } := by
  unfold Game.resetGame Game.generateLevel at h
  simp only [Option.map_eq_some'] at h
  obtain ⟨spawn, -, hs⟩ := h
  exact ⟨spawn, by rw [← hs]; simp⟩

theorem Game.keydown_cases (code : String) (g : Game α) :
    (∃ ks : List String, g.keydown code = { g with keys := ks }) ∨
    (g.gameState = GameState.PLAYING ∧ ∃ ks : List String,
      g.keydown code = { g with keys := ks, gameState := GameState.PAUSED }) := by
  unfold Game.keydown Game.pauseGame
  dsimp only
  by_cases h1 : code = "Escape" ∧ g.gameState = GameState.PLAYING
  · right
    refine ⟨h1.2, if g.keys.contains code then g.keys else g.keys ++ [code], ?_⟩
    rw [if_pos h1, if_pos h1.2]
  · left
    refine ⟨if g.keys.contains code then g.keys else g.keys ++ [code], ?_⟩
    rw [if_neg h1]

/-- Induction over the sessions a page can reach. -/
theorem Reachable.induction [FloorRing α] (P : Game α → Prop) (M : JSMath α)
    (h0 : P Game.new)
    (hkeys : ∀ (g : Game α) (ks : List String), P g → P { g with keys := ks })
    (hpause : ∀ g : Game α, P g → g.gameState = GameState.PLAYING →
      P { g with gameState := GameState.PAUSED })
    (hshoot : ∀ (g : Game α) (x y : α), P g → g.gameState = GameState.PLAYING →
      P (Player.shootEchoPulse M x y g))
    (htimer : ∀ (g : Game α) (i : Nat), P g → P (g.timerFires i))
    (hupd : ∀ (e : Env α) (dt : α) (g : Game α), P g → P (Game.update M e dt g).state)
    (hacc : ∀ (g : Game α) (a : α), P g → P { g with accumulator := a })
    (hlast : ∀ (g : Game α) (t : α), P g → P { g with lastTime := t })
    (hstart : ∀ (g : Game α) (spawn : List (α × α)), P g →
      P { g with gameState := GameState.PLAYING, score := 0, depth := 0,
                 player := (Player.new (CONFIG.CANVAS.WIDTH / 2)
                   (CONFIG.CANVAS.HEIGHT / 2)).startInvincibility 3000,
                 echoPulses := [],
                 enemies := spawn.map fun pos => Enemy.new pos.1 pos.2,
                 crystals := [] })
    (hresume : ∀ g : Game α, P g → g.gameState = GameState.PAUSED →
      P { g with gameState := GameState.PLAYING })
    (hquit : ∀ g : Game α, P g → P g.quitToMenu)
    (g : Game α) (hg : Reachable M g) : P g := by
  have hloop : ∀ (env : Nat → Env α) (t : α) (g : Game α), P g →
      P (Game.gameLoop M env t g).state :=
    fun env t g h => Game.gameLoop_state_inv P M env hupd hacc hlast t g h
  have hst : ∀ (env : Nat → Env α) (draws : List (α × α)) (g : Game α)
      (c : Completion (Game α)), P g → Game.startGame M env draws g = some c → P c.state := by
    intro env draws g c hp hc
    unfold Game.startGame at hc
    simp only [Option.map_eq_some'] at hc
    obtain ⟨g', hr, hc⟩ := hc
    obtain ⟨spawn, hspawn⟩ := Game.resetGame_eq M draws _ g' hr
    rw [← hc]
    apply hloop
    rw [hspawn]
    exact hstart g spawn hp
  unfold Reachable at hg
  induction hg with
  | refl => exact h0
  | @tail b c _ hstep ih =>
    cases hstep with
    | keydown code =>
      rcases Game.keydown_cases code b with ⟨ks, h⟩ | ⟨hp, ks, h⟩
      · rw [h]; exact hkeys _ _ ih
      · rw [h]; exact hpause _ (hkeys _ ks ih) hp
    | keyup code => exact hkeys _ _ ih
    | click x y =>
      unfold Game.click
      split_ifs with h1
      · exact hshoot _ _ _ ih h1
      · exact ih
    | timer i => exact htimer _ _ ih
    | tick env dt => exact hupd _ _ _ ih
    | frame env t => exact hloop _ _ _ ih
    | start env draws _ c hc => exact hst env draws _ c ih hc
    | restart env draws _ c hc => exact hst env draws _ c ih hc
    | resume env =>
      unfold Game.resumeGame
      split_ifs with h1
      · exact hloop _ _ _ (hresume _ ih h1)
      · exact ih
    | quit => exact hquit _ ih

/-! ### C6: the bounce rule -/

theorem eraseIdx_set_self {β : Type} (l : List β) (k : Nat) (x : β) :
    (l.set k x).eraseIdx k = l.eraseIdx k := by
  induction l generalizing k with
  | nil => simp
  | cons a l ih =>
    cases k with
    | zero => simp
    | succ k => simp [ih]

theorem Game.update_pulsesLive (M : JSMath α) (env : Env α) (dt : α) (g : Game α)
    (hg : g.PulsesLive) : (Game.update M env dt g).state.PulsesLive := by
  apply Game.update_state_inv Game.PulsesLive M env dt
  · intro g h; exact h
  · intro x k g h _
    rw [Game.updatePulse_eq]
    split_ifs with hb
    · intro q hq
      simp only [Completion.state, eraseIdx_set_self] at hq
      exact h q (List.mem_of_mem_eraseIdx hq)
    · intro q hq
      simp only [Completion.state] at hq
      rcases List.mem_or_eq_of_mem_set hq with hq | hq
      · exact h q hq
      · rw [hq]; exact not_le.mp hb
  · intro x k g h hx
    apply Game.updateEnemy_state_inv Game.PulsesLive M env dt
    · intro g k e h _; exact h
    · intro g k j e pulse h _ _ _ q hq
      exact h q (List.mem_of_mem_eraseIdx hq)
    · exact h
    · exact hx
  · intro x k g h _
    rw [Game.updateCrystal_eq]
    split_ifs <;> exact h
  · intro x k g h _
    rw [Game.touchEnemy_eq]
    split_ifs <;> exact h
  · exact hg

theorem Reachable.pulsesLive [FloorRing α] (M : JSMath α) (g : Game α) (hg : Reachable M g) :
    g.PulsesLive := by
  apply Reachable.induction Game.PulsesLive M _ _ _ _ _ _ _ _ _ _ _ g hg
  · intro q hq; simp [Game.new] at hq
  · intro g ks h; exact h
  · intro g h _; exact h
  · intro g x y h _
    unfold Player.shootEchoPulse
    dsimp only
    split_ifs
    · exact h
    · intro q hq
      simp only [List.mem_append, List.mem_map] at hq
      rcases hq with hq | ⟨s, -, hq⟩
      · exact h q hq
      · rw [← hq]; simp [EchoPulse.new]
  · intro g i h; exact h
  · intro e dt g h; exact Game.update_pulsesLive M e dt g h
  · intro g a h; exact h
  · intro g t h; exact h
  · intro g spawn _ q hq; simp at hq
  · intro g h _; exact h
  · intro g h; exact h

/-- C6. (a) `EchoPulse.update` never lowers the bounce count. (b) In every session a page can
reach, and after every `Game.update` tick run from it, no projectile in `echoPulses` has
`bounces ≥ 3`. (c) The bounce check of the tick removes a projectile exactly when its count has
reached `MAX_BOUNCES = 3`: a projectile whose count is below 3 after its update stays in
`echoPulses` (updated, at its index), and one whose count is 3 or more is spliced out at its
index. -/
theorem C6_bounce_rule [FloorRing α] (M : JSMath α) (g : Game α) (hg : Reachable M g)
    (env : Env α) (dt : α) :
    (∀ (e : EchoPulse α) (d : α), e.bounces ≤ (e.update M d).bounces) ∧
    (∀ q ∈ g.echoPulses, q.bounces < 3) ∧
    (∀ q ∈ (Game.update M env dt g).state.echoPulses, q.bounces < 3) ∧
    (∀ (pulse : EchoPulse α) (index : Nat) (s : Game α),
      ((pulse.update M dt).bounces < 3 →
        Game.updatePulse M dt pulse index s =
          Completion.normal { s with echoPulses := s.echoPulses.set index (pulse.update M dt) }) ∧
      (3 ≤ (pulse.update M dt).bounces →
        Game.updatePulse M dt pulse index s =
          Completion.normal { s with echoPulses := s.echoPulses.eraseIdx index })) := by
  refine ⟨fun e d => EchoPulse.update_bounces_ge M e d, Reachable.pulsesLive M g hg,
    Game.update_pulsesLive M env dt g (Reachable.pulsesLive M g hg), ?_⟩
  intro pulse index s
  rw [Game.updatePulse_eq]
  constructor
  · intro h
    rw [if_neg (not_le.mpr h)]
  · intro h
    rw [if_pos h, eraseIdx_set_self]

/-! ### C1: the player's health -/

theorem Enemy.update_damage (M : JSMath α) (now : α) (e : Enemy α) (dt : α) (p : Player α) :
    (e.update M now dt p).damage = e.damage ∧ (e.update M now dt p).health = e.health := by
  unfold Enemy.update
  dsimp only
  split_ifs <;> simp

theorem Game.update_tickInv (M : JSMath α) (env : Env α) (dt : α) (g : Game α)
    (hg : g.TickInv) : (Game.update M env dt g).state.TickInv := by
  apply Game.update_state_inv Game.TickInv M env dt
  · intro g h
    obtain ⟨h1, h2, h3⟩ := h
    obtain ⟨u1, u2, -⟩ := Player.update_combat g.player dt g.keys
    refine ⟨?_, h2, ?_⟩
    · simpa [u1] using h1
    · simpa [u1, u2] using h3
  · intro x k g h _
    rw [Game.updatePulse_eq]
    split_ifs <;> exact h
  · intro x k g h hx
    apply Game.updateEnemy_state_inv Game.TickInv M env dt
    · intro g k e h he
      obtain ⟨h1, h2, h3⟩ := h
      refine ⟨h1, ?_, h3⟩
      intro e' he'
      rcases List.mem_or_eq_of_mem_set he' with hm | hm
      · exact h2 e' hm
      · rw [hm, (Enemy.update_damage M env.now e dt g.player).1]
        exact h2 e (List.getElem?_mem he)
    · intro g k j e pulse h he _ _
      obtain ⟨h1, h2, h3⟩ := h
      refine ⟨h1, ?_, h3⟩
      intro e' he'
      rcases List.mem_or_eq_of_mem_set he' with hm | hm
      · exact h2 e' hm
      · rw [hm]
        exact h2 e (List.getElem?_mem he)
    · exact h
    · exact hx
  · intro x k g h _
    rw [Game.updateCrystal_eq]
    split_ifs
    · obtain ⟨⟨n, hn, hh⟩, h2, h3⟩ := h
      refine ⟨⟨min (n + 1) 5, min_le_right _ _, ?_⟩, h2, ?_⟩
      · simp only [Completion.state, Player.heal, hh]
        push_cast
        rfl
      · rcases h3 with ⟨hs, hl⟩ | ⟨hs, hi⟩
        · left
          refine ⟨hs, ?_⟩
          simp only [Completion.state, Player.heal]
          have e1 : (CONFIG.CRYSTALS.HEALTH_CRYSTAL.HEAL_AMOUNT : α) = 1 := rfl
          rw [e1]
          exact le_min (by linarith) (by norm_num)
        · right
          exact ⟨hs, hi⟩
    · exact h
  · intro x k g h hx
    rw [Game.touchEnemy_eq]
    by_cases hc : (!x.isStunned && Game.checkCollision g.player.box x.box) = true
    · rw [if_pos hc]
      obtain ⟨⟨n, hn, hh⟩, h2, h3⟩ := h
      have hd : x.damage = 1 := h2 x (List.getElem?_mem hx)
      simp only [Completion.state]
      rw [Player.takeDamage_health, hd]
      have hinv := Player.takeDamage_isInvincible g.player (1 : α)
      by_cases hi : g.player.isInvincible = true
      · simp only [hi, if_true]
        refine ⟨⟨n, hn, hh⟩, h2, ?_⟩
        rcases h3 with ⟨hs, hl⟩ | ⟨hs, -⟩
        · left
          refine ⟨?_, hl⟩
          rw [if_neg (by linarith), hs]
        · right
          refine ⟨?_, hinv⟩
          rw [hs]; simp
      · simp only [hi, Bool.false_eq_true, if_false]
        rcases h3 with ⟨hs, hl⟩ | ⟨-, hi'⟩
        · have hn1 : 1 ≤ n := by
            rw [hh] at hl
            exact_mod_cast hl
          refine ⟨⟨n - 1, by omega, ?_⟩, h2, ?_⟩
          · rw [hh]
            push_cast [hn1]
            rfl
          · by_cases hz : g.player.health - 1 ≤ 0
            · right
              exact ⟨by rw [if_pos hz], hinv⟩
            · left
              refine ⟨by rw [if_neg hz, hs], ?_⟩
              have h2n : 2 ≤ n := by
                rw [hh] at hz
                have : ¬ ((n : α) ≤ 1) := by
                  intro h'; apply hz; linarith
                have : ¬ (n ≤ 1) := by
                  intro h'; apply this; exact_mod_cast h'
                omega
              have h2a : (2 : α) ≤ (n : α) := by exact_mod_cast h2n
              show (1 : α) ≤ g.player.health - 1
              rw [hh]
              linarith
        · exact absurd hi' hi
    · rw [if_neg hc]
      exact h
  · exact hg

theorem Game.update_healthInv (M : JSMath α) (env : Env α) (dt : α) (g : Game α)
    (hg : g.HealthInv) : (Game.update M env dt g).state.HealthInv := by
  by_cases hs : g.gameState = GameState.PLAYING
  · obtain ⟨h1, h2, h3⟩ := hg
    have ht : g.TickInv := ⟨h1, h2, Or.inl ⟨hs, h3 (Or.inl hs)⟩⟩
    obtain ⟨t1, t2, t3⟩ := Game.update_tickInv M env dt g ht
    refine ⟨t1, t2, ?_⟩
    intro hp
    rcases t3 with ⟨-, hl⟩ | ⟨hs', -⟩
    · exact hl
    · rw [hs'] at hp
      rcases hp with hp | hp <;> exact absurd hp (by decide)
  · unfold Game.update
    rw [if_pos hs]
    exact hg

theorem Reachable.healthInv [FloorRing α] (M : JSMath α) (g : Game α) (hg : Reachable M g) :
    g.HealthInv := by
  apply Reachable.induction Game.HealthInv M _ _ _ _ _ _ _ _ _ _ _ g hg
  · refine ⟨⟨5, le_refl _, by simp [Game.new, Player.new]⟩, ?_, ?_⟩
    · intro e he; simp [Game.new] at he
    · intro h; simp [Game.new] at h
  · intro g ks h; exact h
  · intro g h hp
    obtain ⟨h1, h2, h3⟩ := h
    exact ⟨h1, h2, fun _ => h3 (Or.inl hp)⟩
  · intro g x y h _
    unfold Player.shootEchoPulse
    dsimp only
    split_ifs
    · exact h
    · exact h
  · intro g i h
    obtain ⟨h1, h2, h3⟩ := h
    have hh : (g.player.fireTimer i).health = g.player.health := by
      unfold Player.fireTimer
      split
      · rfl
      · rename_i t _
        cases t.action <;> rfl
    unfold Game.timerFires
    exact ⟨by simpa [hh] using h1, h2, by simpa [hh] using h3⟩
  · intro e dt g h; exact Game.update_healthInv M e dt g h
  · intro g a h; exact h
  · intro g t h; exact h
  · intro g spawn _
    refine ⟨⟨5, le_refl _, by simp [Player.startInvincibility, Player.new]⟩, ?_, ?_⟩
    · intro e he
      simp only [List.mem_map] at he
      obtain ⟨pos, -, hp⟩ := he
      rw [← hp]; simp [Enemy.new]
    · intro _; simp [Player.startInvincibility, Player.new]
  · intro g h hp
    obtain ⟨h1, h2, h3⟩ := h
    exact ⟨h1, h2, fun _ => h3 (Or.inr hp)⟩
  · intro g h
    obtain ⟨h1, h2, h3⟩ := h
    refine ⟨h1, h2, ?_⟩
    intro hq
    simp [Game.quitToMenu] at hq

/-- C1. In every session a page can reach (from the constructed `Game` through `startGame` /
`resetGame`, ticks of `Game.update`, frames, shots, timers, pause, resume and quit) the player's
health is never below 0 and never above `MAX_HEALTH = 5`; the same holds after one more tick. -/
theorem C1_health_in_range [FloorRing α] (M : JSMath α) (g : Game α) (hg : Reachable M g)
    (env : Env α) (dt : α) :
    (0 ≤ g.player.health ∧ g.player.health ≤ 5) ∧
    (0 ≤ (Game.update M env dt g).state.player.health ∧
      (Game.update M env dt g).state.player.health ≤ 5) := by
  have key : ∀ s : Game α, s.HealthInv → 0 ≤ s.player.health ∧ s.player.health ≤ 5 := by
    intro s hs
    obtain ⟨⟨n, hn, hh⟩, -, -⟩ := hs
    rw [hh]
    exact ⟨Nat.cast_nonneg n, by exact_mod_cast hn⟩
  exact ⟨key g (Reachable.healthInv M g hg),
    key _ (Game.update_healthInv M env dt g (Reachable.healthInv M g hg))⟩

/-! ### Loops that may end in an exception -/

theorem forEachLoop_meets {σ β : Type} (arr : σ → List β) (f : β → Nat → σ → Completion σ)
    (P Q : σ → Prop)
    (hf : ∀ x k s, P s → (arr s)[k]? = some x → (f x k s).Meets P Q) :
    ∀ (n k : Nat) (s : σ), P s → (forEachLoop arr f n k s).Meets P Q := by
  intro n
  induction n with
  | zero => intro k s hs; exact hs
  | succ n ih =>
    intro k s hs
    cases hx : (arr s)[k]? with
    | none =>
      rw [forEachLoop_skip arr f n k s hx]
      exact ih _ _ hs
    | some x =>
      have h := hf x k s hs hx
      cases hfx : f x k s with
      | normal s' =>
        rw [forEachLoop_normal arr f n k s s' x hx hfx]
        rw [hfx] at h
        exact ih _ _ h
      | throws s' =>
        rw [forEachLoop_throws arr f n k s s' x hx hfx]
        rw [hfx] at h
        exact h

theorem forEach_meets {σ β : Type} (arr : σ → List β) (f : β → Nat → σ → Completion σ)
    (P Q : σ → Prop)
    (hf : ∀ x k s, P s → (arr s)[k]? = some x → (f x k s).Meets P Q)
    (s : σ) (hs : P s) : (forEach arr f s).Meets P Q :=
  forEachLoop_meets arr f P Q hf _ _ s hs

/-! ### The passes of a tick -/

theorem Game.update_eq_passes (M : JSMath α) (env : Env α) (dt : α) (g : Game α) :
    Game.update M env dt g =
      if g.gameState ≠ GameState.PLAYING then Completion.normal g
      else
        (Game.pulsePass M dt (g.afterPlayer dt)).andThen fun g =>
        (Game.enemyPass M env dt g).andThen fun g =>
        (Game.crystalPass M dt g).andThen fun g => Game.touchPass M g := rfl

/-- The projectile pass never raises and touches `echoPulses` only. -/
theorem Game.pulsePass_normal (M : JSMath α) (dt : α) (g : Game α) :
    ∃ ps : List (EchoPulse α),
      Game.pulsePass M dt g = Completion.normal { g with echoPulses := ps } := by
  have h := forEach_meets Game.echoPulses (Game.updatePulse M dt)
    (fun s => ∃ ps : List (EchoPulse α), s = { g with echoPulses := ps }) (fun _ => False)
    (by
      intro x k s hs _
      obtain ⟨ps, rfl⟩ := hs
      rw [Game.updatePulse_eq]
      split_ifs
      · exact ⟨_, rfl⟩
      · exact ⟨_, rfl⟩)
    g ⟨g.echoPulses, rfl⟩
  unfold Game.pulsePass
  cases hc : forEach Game.echoPulses (Game.updatePulse M dt) g with
  | normal s =>
    rw [hc] at h
    obtain ⟨ps, hps⟩ := h
    exact ⟨ps, by rw [hps]⟩
  | throws s =>
    rw [hc] at h
    exact absurd h id

/-- The player-enemy pass never raises and touches the player and the mode only. -/
theorem Game.touchPass_normal (M : JSMath α) (g : Game α) :
    ∃ (p : Player α) (st : GameState),
      Game.touchPass M g = Completion.normal { g with player := p, gameState := st } := by
  have h := forEach_meets Game.enemies (Game.touchEnemy M)
    (fun s => ∃ (p : Player α) (st : GameState), s = { g with player := p, gameState := st })
    (fun _ => False)
    (by
      intro x k s hs _
      obtain ⟨p, st, rfl⟩ := hs
      rw [Game.touchEnemy_eq]
      by_cases hc : (!x.isStunned && Game.checkCollision p.box x.box) = true
      · rw [if_pos hc]
        exact ⟨_, _, rfl⟩
      · rw [if_neg hc]
        exact ⟨_, _, rfl⟩)
    g ⟨g.player, g.gameState, rfl⟩
  unfold Game.touchPass
  cases hc : forEach Game.enemies (Game.touchEnemy M) g with
  | normal s =>
    rw [hc] at h
    obtain ⟨p, st, hps⟩ := h
    exact ⟨p, st, by rw [hps]⟩
  | throws s =>
    rw [hc] at h
    exact absurd h id

/-- The enemy-projectile pass: either no projectile overlaps an enemy and only `enemies`
changed, element by element; or the pass ended in the exception of the first hit, with exactly one
`takeDamage` call made, the projectile of that call spliced out, and the enemy that was hit still
in `enemies` at its index. -/
theorem Game.enemyPass_meets (M : JSMath α) (env : Env α) (dt : α) (g : Game α) :
    (Game.enemyPass M env dt g).Meets
      (fun s => ∃ es : List (Enemy α), s = { g with enemies := es } ∧
        es.length = g.enemies.length)
      (fun s => ∃ (j i : Nat) (pulse : EchoPulse α) (e : Enemy α) (es : List (Enemy α)),
        g.echoPulses[j]? = some pulse ∧
        Game.checkCollision pulse.box e.box = true ∧
        es[i]? = some (e.takeDamage pulse.damage) ∧
        es.length = g.enemies.length ∧
        s = { g with enemies := es, trace := g.trace ++ [Event.hit j i pulse],
                     echoPulses := g.echoPulses.eraseIdx j }) := by
  unfold Game.enemyPass
  apply forEach_meets
  · intro x k s hs hx
    obtain ⟨es, rfl, hlen⟩ := hs
    have hk : k < es.length := by
      rcases List.getElem?_eq_some_iff.mp hx with ⟨h, -⟩
      exact h
    have key := forEach_meets (fun s : Game.HitScan α => s.game.echoPulses)
      (Game.hitPulse env k)
      (fun s => s.attached = true ∧ s.game.enemies[k]? = some s.enemy ∧
        ∃ es' : List (Enemy α), s.game = { g with enemies := es' } ∧
          es'.length = g.enemies.length)
      (fun s => ∃ (j i : Nat) (pulse : EchoPulse α) (e : Enemy α) (es' : List (Enemy α)),
        g.echoPulses[j]? = some pulse ∧
        Game.checkCollision pulse.box e.box = true ∧
        es'[i]? = some (e.takeDamage pulse.damage) ∧
        es'.length = g.enemies.length ∧
        s.game = { g with enemies := es', trace := g.trace ++ [Event.hit j i pulse],
                          echoPulses := g.echoPulses.eraseIdx j })
      (by
        intro pulse j s hs hj
        obtain ⟨h1, h2, es', h3, h4⟩ := hs
        rw [Game.hitPulse_eq]
        by_cases hc : Game.checkCollision pulse.box s.enemy.box = true
        · rw [if_pos hc]
          have hk' : k < es'.length := by
            rw [h3] at h2
            rcases List.getElem?_eq_some_iff.mp h2 with ⟨h, -⟩
            exact h
          refine ⟨j, k, pulse, s.enemy, es'.set k (s.enemy.takeDamage pulse.damage), ?_, hc, ?_,
            ?_, ?_⟩
          · have hj' : s.game.echoPulses[j]? = some pulse := hj
            rw [h3] at hj'
            exact hj'
          · simp [hk']
          · simp [h4]
          · simp only [h1, if_true, h3]
        · rw [if_neg hc]
          exact ⟨h1, h2, es', h3, h4⟩)
      ⟨{ ({ g with enemies := es } : Game α) with
          enemies := es.set k (x.update M env.now dt g.player) },
        x.update M env.now dt g.player, true⟩
      ⟨rfl, by simp [hk], es.set k (x.update M env.now dt g.player), rfl, by simp [hlen]⟩
    unfold Game.updateEnemy
    dsimp only
    cases hfe : forEach (fun s : Game.HitScan α => s.game.echoPulses) (Game.hitPulse env k)
      ⟨{ ({ g with enemies := es } : Game α) with
          enemies := es.set k (x.update M env.now dt g.player) },
        x.update M env.now dt g.player, true⟩ with
    | normal s =>
      rw [hfe] at key
      obtain ⟨-, -, es', h3, h4⟩ := key
      exact ⟨es', h3, h4⟩
    | throws s =>
      rw [hfe] at key
      exact key
  · exact ⟨g.enemies, rfl, rfl⟩

/-- The pickup pass: either no pickup overlaps the player and only `crystals` changed, element
by element; or the pass ended in the exception of the first pickup collected, with exactly one
`heal` call made and exactly one pickup spliced out. -/
theorem Game.crystalPass_meets (M : JSMath α) (dt : α) (g : Game α) :
    (Game.crystalPass M dt g).Meets
      (fun s => ∃ cs : List (Crystal α), s = { g with crystals := cs } ∧
        cs.length = g.crystals.length)
      (fun s => ∃ (k : Nat) (cs : List (Crystal α)),
        cs.length + 1 = g.crystals.length ∧
        s = { g with crystals := cs,
                     player := g.player.heal CONFIG.CRYSTALS.HEALTH_CRYSTAL.HEAL_AMOUNT,
                     trace := g.trace ++ [Event.healed k] }) := by
  unfold Game.crystalPass
  apply forEach_meets
  · intro x k s hs hx
    obtain ⟨cs, rfl, hlen⟩ := hs
    have hk : k < cs.length := by
      rcases List.getElem?_eq_some_iff.mp hx with ⟨h, -⟩
      exact h
    rw [Game.updateCrystal_eq]
    split_ifs
    · refine ⟨k, _, ?_, rfl⟩
      rw [eraseIdx_set_self, List.length_eraseIdx_of_lt hk, ← hlen]
      omega
    · exact ⟨_, rfl, by simp [hlen]⟩
  · exact ⟨g.crystals, rfl, rfl⟩

/-- The calls a tick makes, and what is left of the projectiles. -/
theorem Game.update_trace (M : JSMath α) (env : Env α) (dt : α) (g : Game α) :
    (Game.update M env dt g).state.trace = g.trace ∨
    (∃ k : Nat, (Game.update M env dt g).state.trace = g.trace ++ [Event.healed k]) ∨
    (∃ (j i : Nat) (pulse : EchoPulse α),
      (Game.update M env dt g).state.trace = g.trace ++ [Event.hit j i pulse] ∧
      (Game.pulsePass M dt (g.afterPlayer dt)).state.echoPulses[j]? = some pulse ∧
      (Game.update M env dt g).state.echoPulses =
        (Game.pulsePass M dt (g.afterPlayer dt)).state.echoPulses.eraseIdx j) := by
  rw [Game.update_eq_passes]
  by_cases hs : g.gameState ≠ GameState.PLAYING
  · rw [if_pos hs]
    left; rfl
  · rw [if_neg hs]
    obtain ⟨ps, hps⟩ := Game.pulsePass_normal M dt (g.afterPlayer dt)
    rw [hps]
    simp only [Completion.andThen, Completion.state]
    have he := Game.enemyPass_meets M env dt
      { g.afterPlayer dt with echoPulses := ps }
    cases hec : Game.enemyPass M env dt { g.afterPlayer dt with echoPulses := ps } with
    | throws s =>
      rw [hec] at he
      obtain ⟨j, i, pulse, e, es, h1, -, -, -, h5⟩ := he
      right; right
      refine ⟨j, i, pulse, ?_, h1, ?_⟩
      · rw [h5]; rfl
      · rw [h5]
    | normal s =>
      rw [hec] at he
      obtain ⟨es, h1, -⟩ := he
      simp only []
      have hcr := Game.crystalPass_meets M dt s
      cases hcc : Game.crystalPass M dt s with
      | throws s' =>
        rw [hcc] at hcr
        obtain ⟨k, cs, -, h2⟩ := hcr
        right; left
        refine ⟨k, ?_⟩
        simp only []
        rw [h2, h1]; rfl
      | normal s' =>
        rw [hcc] at hcr
        obtain ⟨cs, h2, -⟩ := hcr
        obtain ⟨p, st, h3⟩ := Game.touchPass_normal M s'
        left
        simp only []
        rw [h3, h2, h1]; rfl

/-- C8. At most one effect per projectile per tick. The session's `trace` gets one entry
`hit j i pulse` for each call `enemy.takeDamage(pulse.damage)` of the projectile-enemy pass (and
one entry for each call of `player.heal`). Every tick appends at most one entry in all, so no
projectile damages more than one enemy, or one enemy more than once, in a tick; and when the
entry is `hit j i pulse`, the projectile `pulse` was element `j` of `echoPulses` after the
projectile pass and the tick ends with `echoPulses` being that array with element `j` spliced
out, so the projectile that hit is gone at the end of the tick. -/
theorem C8_one_effect_per_projectile (M : JSMath α) (env : Env α) (dt : α) (g : Game α) :
    ∃ l : List (Event α),
      (Game.update M env dt g).state.trace = g.trace ++ l ∧ l.length ≤ 1 ∧
      ∀ (j i : Nat) (pulse : EchoPulse α), Event.hit j i pulse ∈ l →
        (Game.pulsePass M dt (g.afterPlayer dt)).state.echoPulses[j]? = some pulse ∧
        (Game.update M env dt g).state.echoPulses =
          (Game.pulsePass M dt (g.afterPlayer dt)).state.echoPulses.eraseIdx j := by
  rcases Game.update_trace M env dt g with h | ⟨k, h⟩ | ⟨j, i, pulse, h1, h2, h3⟩
  · exact ⟨[], by simpa using h, by simp, by simp⟩
  · exact ⟨[Event.healed k], h, by simp, by simp⟩
  · refine ⟨[Event.hit j i pulse], h1, by simp, ?_⟩
    intro j' i' pulse' hm
    simp only [List.mem_singleton, Event.hit.injEq] at hm
    obtain ⟨rfl, rfl, rfl⟩ := hm
    exact ⟨h2, h3⟩

/-! ### C9, C10: kills -/

/-- No tick changes the score or the number of enemies. -/
theorem Game.update_score_enemies (M : JSMath α) (env : Env α) (dt : α) (g : Game α) :
    (Game.update M env dt g).state.score = g.score ∧
    (Game.update M env dt g).state.enemies.length = g.enemies.length := by
  apply Game.update_state_inv
    (fun s => s.score = g.score ∧ s.enemies.length = g.enemies.length) M env dt
  · intro s h; exact h
  · intro x k s h _
    rw [Game.updatePulse_eq]
    split_ifs <;> exact h
  · intro x k s h hx
    apply Game.updateEnemy_state_inv
      (fun s => s.score = g.score ∧ s.enemies.length = g.enemies.length) M env dt
    · intro s k e h _
      exact ⟨h.1, by simp [h.2]⟩
    · intro s k j e pulse h _ _ _
      exact ⟨h.1, by simp [h.2]⟩
    · exact h
    · exact hx
  · intro x k s h _
    rw [Game.updateCrystal_eq]
    split_ifs <;> exact h
  · intro x k s h _
    rw [Game.touchEnemy_eq]
    split_ifs <;> exact h
  · exact ⟨rfl, rfl⟩

/-- A tick in which the only projectile overlaps the only enemy. -/
theorem Game.update_single_hit (M : JSMath α) (env : Env α) (dt : α) (g : Game α)
    (e : Enemy α) (p : EchoPulse α) (hplay : g.gameState = GameState.PLAYING)
    (hene : g.enemies = [e]) (hpul : g.echoPulses = [p])
    (hb : (p.update M dt).bounces < 3)
    (hcol : Game.checkCollision (p.update M dt).box
      (e.update M env.now dt (g.player.update dt g.keys)).box = true) :
    Game.update M env dt g =
      Completion.throws
        { g.afterPlayer dt with
          echoPulses := [],
          enemies := [(e.update M env.now dt (g.player.update dt g.keys)).takeDamage
            (p.update M dt).damage],
          trace := g.trace ++ [Event.hit 0 0 (p.update M dt)] } := by
  rw [Game.update_eq_passes, if_neg (by simp [hplay])]
  have hb' : ¬ (CONFIG.ECHO.MAX_BOUNCES ≤ (p.update M dt).bounces) := not_le.mpr hb
  simp [Game.pulsePass, Game.enemyPass, forEach, forEachLoop, Game.afterPlayer,
    Game.updatePulse_eq, Completion.andThen, Game.updateEnemy, Game.hitPulse_eq, hene, hpul, hb',
    hcol]

/-- A projectile that reaches no boundary just moves. -/
theorem EchoPulse.update_free (M : JSMath α) (e : EchoPulse α) (dt : α)
    (hx : ¬ (e.x + M.cos e.angle * e.speed ≤ 0 ∨
      e.x + M.cos e.angle * e.speed ≥ CONFIG.CANVAS.WIDTH - e.width))
    (hy : ¬ (e.y + M.sin e.angle * e.speed ≤ 0 ∨
      e.y + M.sin e.angle * e.speed ≥ CONFIG.CANVAS.HEIGHT - e.height)) :
    (e.update M dt).box =
      ⟨e.x + M.cos e.angle * e.speed, e.y + M.sin e.angle * e.speed, e.width, e.height⟩ ∧
    (e.update M dt).bounces = e.bounces ∧ (e.update M dt).damage = e.damage ∧
    (e.update M dt).angle = e.angle := by
  obtain ⟨mx, my, mw, mh, ma, mb⟩ := EchoPulse.moved_eq M e
  obtain ⟨-, -, -, -, -, -, -, ad, -⟩ := EchoPulse.animate_frame e
  obtain ⟨-, -, -, -, -, -, -, bd, -⟩ := EchoPulse.advance_frame M e.animate
  have hX : ¬ ((e.animate.advance M).x ≤ 0 ∨
      (e.animate.advance M).x ≥ CONFIG.CANVAS.WIDTH - (e.animate.advance M).width) := by
    rw [mx, mw]; exact hx
  have hY : ¬ ((e.animate.advance M).y ≤ 0 ∨
      (e.animate.advance M).y ≥ CONFIG.CANVAS.HEIGHT - (e.animate.advance M).height) := by
    rw [my, mh]; exact hy
  have hbo : (e.animate.advance M).bounce M = e.animate.advance M := by
    unfold EchoPulse.bounce
    simp only [hX, hY, decide_False, Bool.or_self, Bool.false_eq_true, if_false]
  unfold EchoPulse.update
  rw [hbo]
  refine ⟨?_, mb, by rw [bd, ad], ma⟩
  simp only [EchoPulse.box, mx, my, mw, mh]

/-- A stunned enemy stays where it is. -/
theorem Enemy.update_stunned (M : JSMath α) (now : α) (e : Enemy α) (dt : α) (p : Player α)
    (hs : e.isStunned = true) :
    (e.update M now dt p).box = e.box ∧ (e.update M now dt p).health = e.health := by
  unfold Enemy.update
  rw [if_pos hs]
  dsimp only
  split_ifs <;> simp [Enemy.box]

theorem Game.lastHit_tick :
    (Game.update realMath ⟨0, 0⟩ (1000 / 60) Game.lastHit).threw = true ∧
    (Game.update realMath ⟨0, 0⟩ (1000 / 60) Game.lastHit).state.score = 0 ∧
    (Game.update realMath ⟨0, 0⟩ (1000 / 60) Game.lastHit).state.enemies.map Enemy.health =
      [0] := by
  have hc : realMath.cos 0 = 1 := by simp [realMath]
  have hs : realMath.sin 0 = 0 := by simp [realMath]
  obtain ⟨pb, pbo, pd, -⟩ := EchoPulse.update_free realMath
    (EchoPulse.new 80 100 0 true : EchoPulse ℝ) (1000 / 60)
    (by norm_num [EchoPulse.new, hc]) (by norm_num [EchoPulse.new, hs])
  obtain ⟨eb, eh⟩ := Enemy.update_stunned realMath 0
    ((Enemy.new 100 100 : Enemy ℝ).takeDamage 1) (1000 / 60)
    ((Player.new 450 300 : Player ℝ).update (1000 / 60) []) rfl
  have h := Game.update_single_hit realMath ⟨0, 0⟩ (1000 / 60) Game.lastHit
    ((Enemy.new 100 100).takeDamage 1) (EchoPulse.new 80 100 0 true) rfl rfl rfl
    (by rw [pbo]; simp [EchoPulse.new])
    (by
      have e1 : Game.lastHit.player = Player.new 450 300 := rfl
      have e2 : Game.lastHit.keys = [] := rfl
      rw [pb, e1, e2, eb]
      norm_num [Game.checkCollision, Enemy.box, Enemy.takeDamage, Enemy.new, EchoPulse.new, hc, hs])
  rw [h]
  refine ⟨rfl, rfl, ?_⟩
  have e1 : Game.lastHit.player = Player.new 450 300 := rfl
  have e2 : Game.lastHit.keys = [] := rfl
  have ht : ∀ (e : Enemy ℝ) (d : ℝ), (e.takeDamage d).health = e.health - d := fun _ _ => rfl
  simp only [Completion.state, List.map_cons, List.map_nil, e1, e2]
  rw [ht, eh, pd, ht]
  norm_num [Enemy.new, EchoPulse.new]

/-- C9. Kill accounting does not happen. For every session and every tick, the score and the
number of enemies after the tick are what they were before; and in the session `Game.lastHit`,
where the last point of health of the only enemy is taken by a main projectile, the tick ends in
the exception raised by `createHitEffect`, the score is still 0 and the enemy is still in
`enemies`, with health 0. -/
theorem C9_kill_is_not_accounted :
    (∀ (M : JSMath ℝ) (env : Env ℝ) (dt : ℝ) (g : Game ℝ),
      (Game.update M env dt g).state.score = g.score ∧
      (Game.update M env dt g).state.enemies.length = g.enemies.length) ∧
    Game.lastHit.enemies.map Enemy.health = [1] ∧
    (Game.update realMath ⟨0, 0⟩ (1000 / 60) Game.lastHit).threw = true ∧
    (Game.update realMath ⟨0, 0⟩ (1000 / 60) Game.lastHit).state.score = 0 ∧
    (Game.update realMath ⟨0, 0⟩ (1000 / 60) Game.lastHit).state.enemies.map Enemy.health =
      [0] := by
  refine ⟨fun M env dt g => Game.update_score_enemies M env dt g, ?_, Game.lastHit_tick⟩
  norm_num [Game.lastHit, Enemy.takeDamage, Enemy.new]

/-- C10. An enemy with health 0 stays in the session: every enemy of `Game.lastHit` has health
above 0 before the tick, and after the tick `enemies` holds an enemy with health 0. -/
theorem C10_dead_enemy_stays :
    (∀ e ∈ Game.lastHit.enemies, 0 < e.health) ∧
    ∃ e ∈ (Game.update realMath ⟨0, 0⟩ (1000 / 60) Game.lastHit).state.enemies,
      e.health ≤ 0 := by
  constructor
  · intro e he
    simp only [Game.lastHit, List.mem_singleton] at he
    rw [he]
    norm_num [Enemy.takeDamage, Enemy.new]
  · obtain ⟨-, -, h⟩ := Game.lastHit_tick
    cases hl : (Game.update realMath ⟨0, 0⟩ (1000 / 60) Game.lastHit).state.enemies with
    | nil => rw [hl] at h; simp at h
    | cons e es =>
      rw [hl] at h
      simp only [List.map_cons, List.cons.injEq] at h
      exact ⟨e, List.mem_cons_self _ _, le_of_eq h.1⟩

/-! ### The stages of `Player.update` -/

theorem Player.update_eq_stages (p : Player α) (dt : α) (keys : List String) :
    p.update dt keys =
      ((((p.beforeIntegrate dt keys).integrate).groundFriction).keepInBounds).tickFlash dt := rfl

/-- The stages before the jump leave position, size, vertical velocity and `lastKeys` alone. -/
theorem Player.beforeJump_frame (p : Player α) (dt : α) (keys : List String) :
    (p.beforeJump dt keys).x = p.x ∧ (p.beforeJump dt keys).y = p.y ∧
    (p.beforeJump dt keys).width = p.width ∧ (p.beforeJump dt keys).height = p.height ∧
    (p.beforeJump dt keys).velocityY = p.velocityY ∧
    (p.beforeJump dt keys).lastKeys = p.lastKeys := by
  have h1 : ∀ q : Player α, (q.tickCooldowns dt).x = q.x ∧ (q.tickCooldowns dt).y = q.y ∧
      (q.tickCooldowns dt).width = q.width ∧ (q.tickCooldowns dt).height = q.height ∧
      (q.tickCooldowns dt).velocityY = q.velocityY ∧
      (q.tickCooldowns dt).lastKeys = q.lastKeys := by
    intro q; unfold Player.tickCooldowns; dsimp only; split_ifs <;> simp
  have h2 : ∀ q : Player α, (q.readDirection keys).x = q.x ∧ (q.readDirection keys).y = q.y ∧
      (q.readDirection keys).width = q.width ∧ (q.readDirection keys).height = q.height ∧
      (q.readDirection keys).velocityY = q.velocityY ∧
      (q.readDirection keys).lastKeys = q.lastKeys := by
    intro q; unfold Player.readDirection; dsimp only; split_ifs <;> simp
  have h3 : ∀ q : Player α, q.accelerate.x = q.x ∧ q.accelerate.y = q.y ∧
      q.accelerate.width = q.width ∧ q.accelerate.height = q.height ∧
      q.accelerate.velocityY = q.velocityY ∧ q.accelerate.lastKeys = q.lastKeys := by
    intro q; unfold Player.accelerate; dsimp only; split_ifs <;> simp
  have h4 : ∀ q : Player α, (q.dash keys).x = q.x ∧ (q.dash keys).y = q.y ∧
      (q.dash keys).width = q.width ∧ (q.dash keys).height = q.height ∧
      (q.dash keys).velocityY = q.velocityY ∧ (q.dash keys).lastKeys = q.lastKeys := by
    intro q; unfold Player.dash; split_ifs <;> simp
  unfold Player.beforeJump
  refine ⟨?_, ?_, ?_, ?_, ?_, ?_⟩
  · rw [(h4 _).1, (h3 _).1, (h2 _).1, (h1 _).1]
  · rw [(h4 _).2.1, (h3 _).2.1, (h2 _).2.1, (h1 _).2.1]
  · rw [(h4 _).2.2.1, (h3 _).2.2.1, (h2 _).2.2.1, (h1 _).2.2.1]
  · rw [(h4 _).2.2.2.1, (h3 _).2.2.2.1, (h2 _).2.2.2.1, (h1 _).2.2.2.1]
  · rw [(h4 _).2.2.2.2.1, (h3 _).2.2.2.2.1, (h2 _).2.2.2.2.1, (h1 _).2.2.2.2.1]
  · rw [(h4 _).2.2.2.2.2, (h3 _).2.2.2.2.2, (h2 _).2.2.2.2.2, (h1 _).2.2.2.2.2]

theorem Player.jump_frame (q : Player α) (keys : List String) :
    (q.jump keys).x = q.x ∧ (q.jump keys).y = q.y ∧ (q.jump keys).width = q.width ∧
    (q.jump keys).height = q.height ∧ (q.jump keys).lastKeys = keys := by
  unfold Player.jump; dsimp only; split_ifs <;> simp

theorem Player.wallSlide_frame (q : Player α) :
    q.wallSlide.x = q.x ∧ q.wallSlide.y = q.y ∧ q.wallSlide.width = q.width ∧
    q.wallSlide.height = q.height ∧ q.wallSlide.velocityX = q.velocityX ∧
    q.wallSlide.lastKeys = q.lastKeys := by
  unfold Player.wallSlide; split_ifs <;> simp

theorem Player.cutJump_frame (q : Player α) (keys : List String) :
    (q.cutJump keys).x = q.x ∧ (q.cutJump keys).y = q.y ∧ (q.cutJump keys).width = q.width ∧
    (q.cutJump keys).height = q.height ∧ (q.cutJump keys).velocityX = q.velocityX ∧
    (q.cutJump keys).lastKeys = q.lastKeys := by
  unfold Player.cutJump; split_ifs <;> simp

theorem Player.applyGravity_frame (q : Player α) :
    q.applyGravity.x = q.x ∧ q.applyGravity.y = q.y ∧ q.applyGravity.width = q.width ∧
    q.applyGravity.height = q.height ∧ q.applyGravity.velocityX = q.velocityX ∧
    q.applyGravity.lastKeys = q.lastKeys ∧
    q.applyGravity.velocityY =
      min (q.velocityY + CONFIG.PLAYER.GRAVITY) (CONFIG.PLAYER.MAX_SPEED * 2) := by
  unfold Player.applyGravity; simp

theorem Player.integrate_frame (q : Player α) :
    q.integrate.x = q.x + q.velocityX ∧ q.integrate.y = q.y + q.velocityY ∧
    q.integrate.width = q.width ∧ q.integrate.height = q.height ∧
    q.integrate.velocityX = q.velocityX ∧ q.integrate.velocityY = q.velocityY ∧
    q.integrate.lastKeys = q.lastKeys := by
  unfold Player.integrate; simp

theorem Player.groundFriction_frame (q : Player α) :
    q.groundFriction.x = q.x ∧ q.groundFriction.y = q.y ∧ q.groundFriction.width = q.width ∧
    q.groundFriction.height = q.height ∧ q.groundFriction.velocityY = q.velocityY ∧
    q.groundFriction.lastKeys = q.lastKeys := by
  unfold Player.groundFriction; split_ifs <;> simp

theorem Player.keepInBounds_frame (q : Player α) :
    q.keepInBounds.width = q.width ∧ q.keepInBounds.height = q.height ∧
    q.keepInBounds.velocityX = q.velocityX ∧ q.keepInBounds.lastKeys = q.lastKeys ∧
    q.keepInBounds.x = max 0 (min q.x (CONFIG.CANVAS.WIDTH - q.width)) := by
  unfold Player.keepInBounds; dsimp only; split_ifs <;> simp

theorem Player.tickFlash_frame (q : Player α) (dt : α) :
    (q.tickFlash dt).x = q.x ∧ (q.tickFlash dt).y = q.y ∧ (q.tickFlash dt).width = q.width ∧
    (q.tickFlash dt).height = q.height ∧ (q.tickFlash dt).velocityX = q.velocityX ∧
    (q.tickFlash dt).velocityY = q.velocityY ∧ (q.tickFlash dt).lastKeys = q.lastKeys := by
  unfold Player.tickFlash; simp

/-- Up to "Update position" the position and the size stay, and `lastKeys` is the new key set. -/
theorem Player.beforeIntegrate_frame (p : Player α) (dt : α) (keys : List String) :
    (p.beforeIntegrate dt keys).x = p.x ∧ (p.beforeIntegrate dt keys).y = p.y ∧
    (p.beforeIntegrate dt keys).width = p.width ∧ (p.beforeIntegrate dt keys).height = p.height ∧
    (p.beforeIntegrate dt keys).lastKeys = keys := by
  obtain ⟨a1, a2, a3, a4, -, -⟩ := Player.beforeJump_frame p dt keys
  obtain ⟨b1, b2, b3, b4, b5⟩ := Player.jump_frame (p.beforeJump dt keys) keys
  obtain ⟨c1, c2, c3, c4, -, c6⟩ := Player.wallSlide_frame ((p.beforeJump dt keys).jump keys)
  obtain ⟨d1, d2, d3, d4, -, d6⟩ :=
    Player.cutJump_frame (((p.beforeJump dt keys).jump keys).wallSlide) keys
  obtain ⟨e1, e2, e3, e4, -, e6, -⟩ :=
    Player.applyGravity_frame ((((p.beforeJump dt keys).jump keys).wallSlide).cutJump keys)
  unfold Player.beforeIntegrate
  refine ⟨?_, ?_, ?_, ?_, ?_⟩
  · rw [e1, d1, c1, b1, a1]
  · rw [e2, d2, c2, b2, a2]
  · rw [e3, d3, c3, b3, a3]
  · rw [e4, d4, c4, b4, a4]
  · rw [e6, d6, c6, b5]

/-! ### C20: the player stays in the arena -/

theorem Player.keepInBounds_vertical (q : Player α) (hh : 0 ≤ CONFIG.CANVAS.HEIGHT - q.height) :
    0 ≤ q.keepInBounds.y ∧ q.keepInBounds.y ≤ CONFIG.CANVAS.HEIGHT - q.height ∧
    (q.y > CONFIG.CANVAS.HEIGHT - q.height ∨ q.y < 0 → q.keepInBounds.velocityY = 0) ∧
    (¬ (q.y > CONFIG.CANVAS.HEIGHT - q.height ∨ q.y < 0) →
      q.keepInBounds.velocityY = q.velocityY ∧ q.keepInBounds.y = q.y) := by
  unfold Player.keepInBounds
  dsimp only
  by_cases h1 : q.y > CONFIG.CANVAS.HEIGHT - q.height
  · rw [if_pos h1]
    dsimp only
    rw [if_neg (not_lt.mpr hh)]
    refine ⟨hh, le_refl _, fun _ => rfl, fun h => absurd (Or.inl h1) h⟩
  · rw [if_neg h1]
    dsimp only
    by_cases h2 : q.y < 0
    · rw [if_pos h2]
      refine ⟨le_refl _, hh, fun _ => rfl, fun h => absurd (Or.inr h2) h⟩
    · rw [if_neg h2]
      refine ⟨not_lt.mp h2, not_lt.mp h1, ?_, fun _ => ⟨rfl, rfl⟩⟩
      intro h
      rcases h with h | h
      · exact absurd h h1
      · exact absurd h h2

/-- C20. After every `Player.update`, for every prior state of the constructor's size 32 x 64,
every tick length and every key set, `0 ≤ x ≤ 868` and `0 ≤ y ≤ 536`; and whenever the
integrated `y` (the old `y` plus the velocity the position is moved by) is beyond the floor
(`> 536`) or the ceiling (`< 0`), the vertical velocity after the tick is 0. -/
theorem C20_player_stays_in_arena (p : Player α) (dt : α) (keys : List String)
    (hw : p.width = 32) (hh : p.height = 64) :
    (0 ≤ (p.update dt keys).x ∧ (p.update dt keys).x ≤ 868) ∧
    (0 ≤ (p.update dt keys).y ∧ (p.update dt keys).y ≤ 536) ∧
    (p.y + (p.beforeIntegrate dt keys).velocityY > 536 ∨
      p.y + (p.beforeIntegrate dt keys).velocityY < 0 → (p.update dt keys).velocityY = 0) := by
  obtain ⟨a1, a2, a3, a4, -⟩ := Player.beforeIntegrate_frame p dt keys
  obtain ⟨b1, b2, b3, b4, -, -, -⟩ := Player.integrate_frame (p.beforeIntegrate dt keys)
  obtain ⟨c1, c2, c3, c4, -, -⟩ :=
    Player.groundFriction_frame (p.beforeIntegrate dt keys).integrate
  obtain ⟨d1, d2, -, -, d5⟩ :=
    Player.keepInBounds_frame ((p.beforeIntegrate dt keys).integrate).groundFriction
  obtain ⟨e1, e2, -, -, -, e6, -⟩ :=
    Player.tickFlash_frame
      (((p.beforeIntegrate dt keys).integrate).groundFriction).keepInBounds dt
  have hgw : ((p.beforeIntegrate dt keys).integrate).groundFriction.width = 32 := by
    rw [c3, b3, a3, hw]
  have hgh : ((p.beforeIntegrate dt keys).integrate).groundFriction.height = 64 := by
    rw [c4, b4, a4, hh]
  have hgy : ((p.beforeIntegrate dt keys).integrate).groundFriction.y =
      p.y + (p.beforeIntegrate dt keys).velocityY := by
    rw [c2, b2, a2]
  obtain ⟨v1, v2, v3, -⟩ := Player.keepInBounds_vertical
    ((p.beforeIntegrate dt keys).integrate).groundFriction (by rw [hgh]; norm_num)
  rw [Player.update_eq_stages, e1, e2, e6, d5, hgw]
  refine ⟨⟨le_max_left _ _, ?_⟩, ⟨v1, ?_⟩, ?_⟩
  · have : (CONFIG.CANVAS.WIDTH : α) - 32 = 868 := by norm_num
    rw [this]
    exact max_le (by norm_num) (min_le_right _ _)
  · have : (CONFIG.CANVAS.HEIGHT : α) - 64 = 536 := by norm_num
    rw [hgh, this] at v2
    exact v2
  · intro h
    apply v3
    have : (CONFIG.CANVAS.HEIGHT : α) - 64 = 536 := by norm_num
    rw [hgh, this, hgy]
    exact h

/-- C20, at the player as constructed. -/
theorem C20_player_stays_in_arena_witness :
    (Player.new 450 300 : Player ℚ).width = 32 ∧ (Player.new 450 300 : Player ℚ).height = 64 ∧
    (0 ≤ ((Player.new 450 300 : Player ℚ).update (1000 / 60) []).x ∧
      ((Player.new 450 300 : Player ℚ).update (1000 / 60) []).x ≤ 868) ∧
    (0 ≤ ((Player.new 450 300 : Player ℚ).update (1000 / 60) []).y ∧
      ((Player.new 450 300 : Player ℚ).update (1000 / 60) []).y ≤ 536) :=
  ⟨rfl, rfl,
   (C20_player_stays_in_arena (Player.new 450 300 : Player ℚ) (1000 / 60) [] rfl rfl).1,
   (C20_player_stays_in_arena (Player.new 450 300 : Player ℚ) (1000 / 60) [] rfl rfl).2.1⟩

/-! ### C19: the wall slide -/

theorem Player.contact_congr (p q : Player α) (hx : q.x = p.x) (hy : q.y = p.y)
    (hw : q.width = p.width) (hh : q.height = p.height) :
    q.isOnGround = p.isOnGround ∧ q.isAtLeftWall = p.isAtLeftWall ∧
    q.isAtRightWall = p.isAtRightWall := by
  unfold Player.isOnGround Player.isAtLeftWall Player.isAtRightWall
  rw [hx, hy, hw, hh]
  exact ⟨rfl, rfl, rfl⟩

theorem Player.wallSlide_velocityY (q : Player α) :
    q.wallSlide.velocityY =
      if (!q.isOnGround && (q.isAtLeftWall || q.isAtRightWall)) = true then
        min q.velocityY CONFIG.PLAYER.WALL_SLIDE_SPEED
      else q.velocityY := by
  unfold Player.wallSlide
  by_cases hc : (!q.isOnGround && (q.isAtLeftWall || q.isAtRightWall)) = true
  · rw [if_pos hc, if_pos hc]
    by_cases hv : q.velocityY > CONFIG.PLAYER.WALL_SLIDE_SPEED
    · rw [if_pos hv, min_eq_right (le_of_lt hv)]
    · rw [if_neg hv, min_eq_left (not_lt.mp hv)]
  · rw [if_neg hc, if_neg hc]

theorem Player.cutJump_velocityY_le (q : Player α) (keys : List String) (b : α) (hb : 0 ≤ b)
    (h : q.velocityY ≤ b) : (q.cutJump keys).velocityY ≤ b := by
  unfold Player.cutJump
  split_ifs with hc
  · have : q.velocityY * (85 / 100) ≤ 0 :=
      mul_nonpos_of_nonpos_of_nonneg (le_of_lt hc.2) (by norm_num)
    exact le_trans this hb
  · exact h

theorem Player.keepInBounds_velocityY (q : Player α) :
    q.keepInBounds.velocityY = q.velocityY ∨ q.keepInBounds.velocityY = 0 := by
  unfold Player.keepInBounds
  dsimp only
  split_ifs <;> simp

/-- After "Wall sliding" an airborne player at a wall falls at most at `WALL_SLIDE_SPEED`;
gravity is added afterwards. -/
theorem Player.wallSlide_cap (p : Player α) (dt : α) (keys : List String)
    (hair : p.isOnGround = false) (hwall : p.isAtLeftWall = true ∨ p.isAtRightWall = true) :
    (((p.beforeJump dt keys).jump keys).wallSlide).velocityY ≤ CONFIG.PLAYER.WALL_SLIDE_SPEED ∧
    (p.beforeIntegrate dt keys).velocityY ≤
      CONFIG.PLAYER.WALL_SLIDE_SPEED + CONFIG.PLAYER.GRAVITY ∧
    (p.update dt keys).velocityY ≤ CONFIG.PLAYER.WALL_SLIDE_SPEED + CONFIG.PLAYER.GRAVITY := by
  obtain ⟨a1, a2, a3, a4, -, -⟩ := Player.beforeJump_frame p dt keys
  obtain ⟨b1, b2, b3, b4, -⟩ := Player.jump_frame (p.beforeJump dt keys) keys
  obtain ⟨k1, k2, k3⟩ := Player.contact_congr p ((p.beforeJump dt keys).jump keys)
    (by rw [b1, a1]) (by rw [b2, a2]) (by rw [b3, a3]) (by rw [b4, a4])
  have hc : (!((p.beforeJump dt keys).jump keys).isOnGround &&
      (((p.beforeJump dt keys).jump keys).isAtLeftWall ||
        ((p.beforeJump dt keys).jump keys).isAtRightWall)) = true := by
    rw [k1, k2, k3, hair]
    rcases hwall with h | h <;> simp [h]
  have s1 : (((p.beforeJump dt keys).jump keys).wallSlide).velocityY ≤
      CONFIG.PLAYER.WALL_SLIDE_SPEED := by
    rw [Player.wallSlide_velocityY, if_pos hc]
    exact min_le_right _ _
  have s2 := Player.cutJump_velocityY_le (((p.beforeJump dt keys).jump keys).wallSlide) keys
    CONFIG.PLAYER.WALL_SLIDE_SPEED (by norm_num) s1
  have s3 : (p.beforeIntegrate dt keys).velocityY ≤
      CONFIG.PLAYER.WALL_SLIDE_SPEED + CONFIG.PLAYER.GRAVITY := by
    unfold Player.beforeIntegrate
    rw [(Player.applyGravity_frame _).2.2.2.2.2.2]
    exact le_trans (min_le_left _ _) (by linarith)
  refine ⟨s1, s3, ?_⟩
  obtain ⟨-, -, -, -, -, i6, -⟩ := Player.integrate_frame (p.beforeIntegrate dt keys)
  obtain ⟨-, -, -, -, g5, -⟩ := Player.groundFriction_frame (p.beforeIntegrate dt keys).integrate
  obtain ⟨-, -, -, -, -, f6, -⟩ := Player.tickFlash_frame
    (((p.beforeIntegrate dt keys).integrate).groundFriction).keepInBounds dt
  rw [Player.update_eq_stages, f6]
  rcases Player.keepInBounds_velocityY
    ((p.beforeIntegrate dt keys).integrate).groundFriction with h | h
  · rw [h, g5, i6]; exact s3
  · rw [h]; norm_num

/-- C19 (as amended). In every `Player.update` tick that starts with the player airborne and
touching the left or right wall, the wall-slide step leaves a vertical velocity of at most
`WALL_SLIDE_SPEED = 2`; gravity (0.8) is added after that step, so the velocity the player is
moved by in that tick and the `velocityY` left at the end of the tick do not exceed
`2 + 0.8 = 2.8`. -/
theorem C19_wall_slide_cap_before_gravity (p : Player α) (dt : α) (keys : List String)
    (hair : p.isOnGround = false) (hwall : p.isAtLeftWall = true ∨ p.isAtRightWall = true) :
    (((p.beforeJump dt keys).jump keys).wallSlide).velocityY ≤ 2 ∧
    (p.beforeIntegrate dt keys).velocityY ≤ 2 + 8 / 10 ∧
    (p.update dt keys).velocityY ≤ 2 + 8 / 10 :=
  Player.wallSlide_cap p dt keys hair hwall

theorem Player.jump_not_pressed (q : Player α) (keys : List String)
    (hj : Player.jumpPressed keys = false) : q.jump keys = { q with lastKeys := keys } := by
  unfold Player.jump
  simp [hj]

/-- The velocity left by a tick that does not touch floor or ceiling is the one moved by. -/
theorem Player.update_velocityY_inside (p : Player α) (dt : α) (keys : List String)
    (h : ¬ (p.y + (p.beforeIntegrate dt keys).velocityY > CONFIG.CANVAS.HEIGHT - p.height ∨
      p.y + (p.beforeIntegrate dt keys).velocityY < 0)) :
    (p.update dt keys).velocityY = (p.beforeIntegrate dt keys).velocityY := by
  obtain ⟨-, a2, -, a4, -⟩ := Player.beforeIntegrate_frame p dt keys
  obtain ⟨-, b2, -, b4, -, b6, -⟩ := Player.integrate_frame (p.beforeIntegrate dt keys)
  obtain ⟨-, c2, -, c4, c5, -⟩ :=
    Player.groundFriction_frame (p.beforeIntegrate dt keys).integrate
  obtain ⟨-, -, -, -, -, e6, -⟩ := Player.tickFlash_frame
    (((p.beforeIntegrate dt keys).integrate).groundFriction).keepInBounds dt
  have hq : ¬ (((p.beforeIntegrate dt keys).integrate).groundFriction.y >
      CONFIG.CANVAS.HEIGHT - ((p.beforeIntegrate dt keys).integrate).groundFriction.height ∨
      ((p.beforeIntegrate dt keys).integrate).groundFriction.y < 0) := by
    rw [c2, b2, a2, c4, b4, a4]; exact h
  have hk : (((p.beforeIntegrate dt keys).integrate).groundFriction).keepInBounds.velocityY =
      ((p.beforeIntegrate dt keys).integrate).groundFriction.velocityY := by
    unfold Player.keepInBounds
    dsimp only
    rw [if_neg (fun h' => hq (Or.inl h')), if_neg (fun h' => hq (Or.inr h'))]
  rw [Player.update_eq_stages, e6, hk, c5, b6]

/-- A player sliding down a wall faster than the cap, with no jump key held. -/
theorem Player.wallSlide_exact (p : Player α) (dt : α) (keys : List String)
    (hair : p.isOnGround = false) (hwall : p.isAtLeftWall = true ∨ p.isAtRightWall = true)
    (hv : 2 < p.velocityY) (hj : Player.jumpPressed keys = false) :
    (p.beforeIntegrate dt keys).velocityY = 2 + 8 / 10 := by
  obtain ⟨a1, a2, a3, a4, a5, -⟩ := Player.beforeJump_frame p dt keys
  obtain ⟨b1, b2, b3, b4, -⟩ := Player.jump_frame (p.beforeJump dt keys) keys
  obtain ⟨k1, k2, k3⟩ := Player.contact_congr p ((p.beforeJump dt keys).jump keys)
    (by rw [b1, a1]) (by rw [b2, a2]) (by rw [b3, a3]) (by rw [b4, a4])
  have hc : (!((p.beforeJump dt keys).jump keys).isOnGround &&
      (((p.beforeJump dt keys).jump keys).isAtLeftWall ||
        ((p.beforeJump dt keys).jump keys).isAtRightWall)) = true := by
    rw [k1, k2, k3, hair]
    rcases hwall with h | h <;> simp [h]
  have hjv : ((p.beforeJump dt keys).jump keys).velocityY = p.velocityY := by
    rw [Player.jump_not_pressed _ keys hj]; exact a5
  have s1 : (((p.beforeJump dt keys).jump keys).wallSlide).velocityY = 2 := by
    rw [Player.wallSlide_velocityY, if_pos hc, hjv]
    exact min_eq_right (le_of_lt hv)
  have s2 : ((((p.beforeJump dt keys).jump keys).wallSlide).cutJump keys).velocityY = 2 := by
    unfold Player.cutJump
    rw [if_neg (by rw [s1]; intro h; exact absurd h.2 (by norm_num))]
    exact s1
  unfold Player.beforeIntegrate
  rw [(Player.applyGravity_frame _).2.2.2.2.2.2, s2]
  norm_num

/-- C19, as the specification words it: a player falling at 5 along the left wall, with no key
held, airborne and touching the wall, is moved by a vertical velocity of 2.8 and is left with
`velocityY = 2.8`, which exceeds `WALL_SLIDE_SPEED = 2`. -/
theorem C19_wall_slide_exceeds_cap :
    Player.slidingDown.isOnGround = false ∧ Player.slidingDown.isAtLeftWall = true ∧
    (Player.slidingDown.beforeIntegrate (1000 / 60) []).velocityY = 14 / 5 ∧
    (Player.slidingDown.update (1000 / 60) []).velocityY = 14 / 5 ∧
    ¬ ((Player.slidingDown.update (1000 / 60) []).velocityY ≤ 2) := by
  have hair : Player.slidingDown.isOnGround = false := by
    norm_num [Player.isOnGround, Player.slidingDown, Player.new]
  have hwall : Player.slidingDown.isAtLeftWall = true := by
    norm_num [Player.isAtLeftWall, Player.slidingDown, Player.new]
  have hv := Player.wallSlide_exact Player.slidingDown (1000 / 60) [] hair (Or.inl hwall)
    (by norm_num [Player.slidingDown]) rfl
  have hv' : (Player.slidingDown.beforeIntegrate (1000 / 60) []).velocityY = 14 / 5 := by
    rw [hv]; norm_num
  have hu := Player.update_velocityY_inside Player.slidingDown (1000 / 60) []
    (by rw [hv']; norm_num [Player.slidingDown, Player.new])
  rw [hv'] at hu
  refine ⟨hair, hwall, hv', hu, ?_⟩
  rw [hu]; norm_num

/-- C19 (as amended), at the player falling at 5 along the left wall. -/
theorem C19_wall_slide_cap_before_gravity_witness :
    Player.slidingDown.isOnGround = false ∧
    (Player.slidingDown.isAtLeftWall = true ∨ Player.slidingDown.isAtRightWall = true) ∧
    (Player.slidingDown.beforeIntegrate (1000 / 60) []).velocityY ≤ 2 + 8 / 10 ∧
    (Player.slidingDown.update (1000 / 60) []).velocityY ≤ 2 + 8 / 10 :=
  ⟨by norm_num [Player.isOnGround, Player.slidingDown, Player.new],
   Or.inl (by norm_num [Player.isAtLeftWall, Player.slidingDown, Player.new]),
   (C19_wall_slide_cap_before_gravity Player.slidingDown (1000 / 60) []
     (by norm_num [Player.isOnGround, Player.slidingDown, Player.new])
     (Or.inl (by norm_num [Player.isAtLeftWall, Player.slidingDown, Player.new]))).2⟩

/-! ### C18: the jump is edge-triggered -/

theorem Player.update_lastKeys (p : Player α) (dt : α) (keys : List String) :
    (p.update dt keys).lastKeys = keys := by
  obtain ⟨-, -, -, -, a5⟩ := Player.beforeIntegrate_frame p dt keys
  obtain ⟨-, -, -, -, -, -, b7⟩ := Player.integrate_frame (p.beforeIntegrate dt keys)
  obtain ⟨-, -, -, -, -, c6⟩ := Player.groundFriction_frame (p.beforeIntegrate dt keys).integrate
  obtain ⟨-, -, -, d4, -⟩ :=
    Player.keepInBounds_frame ((p.beforeIntegrate dt keys).integrate).groundFriction
  obtain ⟨-, -, -, -, -, -, e7⟩ := Player.tickFlash_frame
    (((p.beforeIntegrate dt keys).integrate).groundFriction).keepInBounds dt
  rw [Player.update_eq_stages, e7, d4, c6, b7, a5]

theorem Player.jump_held (q : Player α) (keys : List String)
    (h : Player.jumpPressed q.lastKeys = true) : q.jump keys = { q with lastKeys := keys } := by
  unfold Player.jump
  simp [h]

/-- C18. The jump is edge-triggered. A jump key is ArrowUp, KeyW or Space. In every
`Player.update` whose previous key set (`lastKeys`) holds a jump key, the jump step changes
nothing but `lastKeys`: neither the ground jump nor the wall jump is triggered, whatever is held
now. The jump step changes a velocity only in a tick whose key set holds a jump key while the
previous one held none. And since `update` stores the key set in `lastKeys`, a tick that follows
a tick with the same key set holding a jump key triggers no jump: holding the key triggers at
most once. -/
theorem C18_jump_edge_triggered (p : Player α) (dt : α) (keys : List String) :
    (∀ ks : List String, Player.jumpPressed ks = true ↔
      "ArrowUp" ∈ ks ∨ "KeyW" ∈ ks ∨ "Space" ∈ ks) ∧
    (Player.jumpPressed p.lastKeys = true →
      (p.beforeJump dt keys).jump keys = { p.beforeJump dt keys with lastKeys := keys }) ∧
    ((p.beforeJump dt keys).jump keys ≠ { p.beforeJump dt keys with lastKeys := keys } →
      Player.jumpPressed keys = true ∧ Player.jumpPressed p.lastKeys = false) ∧
    (∀ dt' : α, Player.jumpPressed keys = true →
      ((p.update dt keys).beforeJump dt' keys).jump keys =
        { (p.update dt keys).beforeJump dt' keys with lastKeys := keys }) := by
  obtain ⟨-, -, -, -, -, a6⟩ := Player.beforeJump_frame p dt keys
  refine ⟨?_, ?_, ?_, ?_⟩
  · intro ks
    simp [Player.jumpPressed, or_assoc]
  · intro h
    exact Player.jump_held _ keys (by rw [a6]; exact h)
  · intro h
    by_cases h1 : Player.jumpPressed keys = true
    · refine ⟨h1, ?_⟩
      by_contra h2
      exact h (Player.jump_held _ keys (by rw [a6]; simpa using h2))
    · exact absurd (Player.jump_not_pressed _ keys (by simpa using h1)) h
  · intro dt' h
    obtain ⟨-, -, -, -, -, b6⟩ := Player.beforeJump_frame (p.update dt keys) dt' keys
    exact Player.jump_held _ keys (by rw [b6, Player.update_lastKeys]; exact h)

/-! ### C17: the buffered box test -/

theorem Game.checkCollision_iff (a b : Box α) :
    Game.checkCollision a b = true ↔
      a.x < b.x + b.width + 5 ∧ a.x + a.width + 5 > b.x ∧
      a.y < b.y + b.height + 5 ∧ a.y + a.height + 5 > b.y := by
  unfold Game.checkCollision
  simp only [Bool.and_eq_true, decide_eq_true_eq, and_assoc]

/-- C17. `checkCollision(a, b)` is true exactly when `a` strictly overlaps `b` grown by 5 units
on every side, that is, exactly when the gap between the two boxes is below 5 on each axis.
Hence boxes that overlap collide, and boxes whose gap on some axis is 5 or more do not. (This
holds for all boxes, in particular for those of non-negative size.) -/
theorem C17_buffered_box_test (a b : Box α) :
    (Game.checkCollision a b = true ↔ Box.overlaps a (b.grow 5)) ∧
    (Game.checkCollision a b = true ↔ Box.gapX a b < 5 ∧ Box.gapY a b < 5) ∧
    (Box.overlaps a b → Game.checkCollision a b = true) ∧
    (5 ≤ Box.gapX a b ∨ 5 ≤ Box.gapY a b → Game.checkCollision a b = false) := by
  have h1 : Game.checkCollision a b = true ↔ Box.overlaps a (b.grow 5) := by
    rw [Game.checkCollision_iff]
    unfold Box.overlaps Box.grow
    dsimp only
    constructor
    · rintro ⟨p1, p2, p3, p4⟩
      exact ⟨by linarith, by linarith, by linarith, by linarith⟩
    · rintro ⟨p1, p2, p3, p4⟩
      exact ⟨by linarith, by linarith, by linarith, by linarith⟩
  have h2 : Game.checkCollision a b = true ↔ Box.gapX a b < 5 ∧ Box.gapY a b < 5 := by
    rw [Game.checkCollision_iff]
    unfold Box.gapX Box.gapY
    simp only [max_lt_iff]
    constructor
    · rintro ⟨p1, p2, p3, p4⟩
      exact ⟨⟨by linarith, by linarith⟩, ⟨by linarith, by linarith⟩⟩
    · rintro ⟨⟨p1, p2⟩, ⟨p3, p4⟩⟩
      exact ⟨by linarith, by linarith, by linarith, by linarith⟩
  refine ⟨h1, h2, ?_, ?_⟩
  · rintro ⟨p1, p2, p3, p4⟩
    rw [Game.checkCollision_iff]
    exact ⟨by linarith, by linarith, by linarith, by linarith⟩
  · intro h
    by_contra hc
    have hc' : Game.checkCollision a b = true := by simpa using hc
    obtain ⟨g1, g2⟩ := h2.mp hc'
    rcases h with h | h
    · exact absurd g1 (not_lt.mpr h)
    · exact absurd g2 (not_lt.mpr h)

/-! ### C13, C14: pause, resume and the gate on PLAYING -/

/-- No tick makes a session paused that was not. -/
theorem Game.update_not_paused (M : JSMath α) (env : Env α) (dt : α) (g : Game α)
    (hg : g.gameState ≠ GameState.PAUSED) :
    (Game.update M env dt g).state.gameState ≠ GameState.PAUSED := by
  apply Game.update_state_inv (fun s => s.gameState ≠ GameState.PAUSED) M env dt
  · intro s h; exact h
  · intro x k s h _
    rw [Game.updatePulse_eq]
    split_ifs <;> exact h
  · intro x k s h hx
    apply Game.updateEnemy_state_inv (fun s => s.gameState ≠ GameState.PAUSED) M env dt
    · intro s k e h _; exact h
    · intro s k j e pulse h _ _ _; exact h
    · exact h
    · exact hx
  · intro x k s h _
    rw [Game.updateCrystal_eq]
    split_ifs <;> exact h
  · intro x k s h _
    rw [Game.touchEnemy_eq]
    by_cases hc : (!x.isStunned && Game.checkCollision s.player.box x.box) = true
    · rw [if_pos hc]
      simp only [Completion.state]
      split_ifs
      · decide
      · exact h
    · rw [if_neg hc]; exact h
  · exact hg

/-- C14. Simulation is gated on PLAYING: in every session whose mode is START, PAUSED or
GAME_OVER, `update(dt)` and `gameLoop(timestamp)` return at once with the session unchanged
(player, collections, score, accumulator, `lastTime` and the record of calls included), so no
tick runs. -/
theorem C14_gated_on_playing [FloorRing α] (M : JSMath α) (env : Env α) (envs : Nat → Env α)
    (dt timestamp : α) (g : Game α) (h : g.gameState ≠ GameState.PLAYING) :
    Game.update M env dt g = Completion.normal g ∧
    Game.gameLoop M envs timestamp g = Completion.normal g := by
  unfold Game.update Game.gameLoop
  rw [if_pos h, if_pos h]
  exact ⟨rfl, rfl⟩

/-- C14, at the session as constructed (mode START). -/
theorem C14_gated_on_playing_witness :
    (Game.new : Game ℝ).gameState ≠ GameState.PLAYING ∧
    Game.update realMath ⟨0, 0⟩ (1000 / 60) (Game.new : Game ℝ) = Completion.normal Game.new ∧
    Game.gameLoop realMath (fun _ => ⟨0, 0⟩) 5000 (Game.new : Game ℝ) =
      Completion.normal Game.new :=
  ⟨by simp [Game.new],
   C14_gated_on_playing realMath ⟨0, 0⟩ (fun _ => ⟨0, 0⟩) (1000 / 60) 5000 Game.new
     (by simp [Game.new])⟩

theorem Game.resumeGame_not_paused [FloorRing α] (M : JSMath α) (env : Nat → Env α)
    (g : Game α) : (Game.resumeGame M env g).state.gameState ≠ GameState.PAUSED := by
  unfold Game.resumeGame
  split_ifs with h
  · dsimp only
    apply Game.gameLoop_state_inv (fun s => s.gameState ≠ GameState.PAUSED) M env
    · intro e dt s hs; exact Game.update_not_paused M e dt s hs
    · intro s a hs; exact hs
    · intro s t hs; exact hs
    · simp
  · exact h

/-- C13. Pause and resume are idempotent: `pauseGame` in any mode other than PLAYING and
`resumeGame` in any mode other than PAUSED leave the whole session unchanged (so pausing while
PAUSED and resuming while PLAYING do nothing); pausing twice is pausing once, and a second
`resumeGame` right after a first one changes nothing. -/
theorem C13_pause_resume_idempotent [FloorRing α] (M : JSMath α) (env env' : Nat → Env α)
    (g : Game α) :
    (g.gameState ≠ GameState.PLAYING → g.pauseGame = g) ∧
    (g.gameState ≠ GameState.PAUSED → Game.resumeGame M env g = Completion.normal g) ∧
    g.pauseGame.pauseGame = g.pauseGame ∧
    Game.resumeGame M env' (Game.resumeGame M env g).state =
      Completion.normal (Game.resumeGame M env g).state := by
  refine ⟨?_, ?_, ?_, ?_⟩
  · intro h
    unfold Game.pauseGame
    rw [if_neg h]
  · intro h
    unfold Game.resumeGame
    rw [if_neg h]
  · unfold Game.pauseGame
    by_cases h : g.gameState = GameState.PLAYING
    · simp [h]
    · simp [h]
  · have h := Game.resumeGame_not_paused M env g
    generalize (Game.resumeGame M env g).state = s at h
    unfold Game.resumeGame
    rw [if_neg h]

/-! ### C12: death ends the session -/

theorem realMath_unitTrig : realMath.UnitTrig := by
  intro t
  exact ⟨⟨Real.neg_one_le_cos t, Real.cos_le_one t⟩, ⟨Real.neg_one_le_sin t, Real.sin_le_one t⟩⟩

theorem Game.update_aliveOrOver (M : JSMath α) (env : Env α) (dt : α) (g : Game α)
    (hg : g.AliveOrOver) : (Game.update M env dt g).state.AliveOrOver := by
  apply Game.update_state_inv Game.AliveOrOver M env dt
  · intro s h
    unfold Game.AliveOrOver
    rw [(Player.update_combat s.player dt s.keys).1]
    exact h
  · intro x k s h _
    rw [Game.updatePulse_eq]
    split_ifs <;> exact h
  · intro x k s h hx
    apply Game.updateEnemy_state_inv Game.AliveOrOver M env dt
    · intro s k e h _; exact h
    · intro s k j e pulse h _ _ _; exact h
    · exact h
    · exact hx
  · intro x k s h _
    rw [Game.updateCrystal_eq]
    split_ifs
    · rcases h with h | h
      · left
        simp only [Completion.state, Player.heal]
        exact lt_min (by
          have e1 : (CONFIG.CRYSTALS.HEALTH_CRYSTAL.HEAL_AMOUNT : α) = 1 := rfl
          rw [e1]; linarith) (by norm_num)
      · right; exact h
    · exact h
  · intro x k s h _
    rw [Game.touchEnemy_eq]
    by_cases hc : (!x.isStunned && Game.checkCollision s.player.box x.box) = true
    · rw [if_pos hc]
      by_cases hz : (s.player.takeDamage x.damage).health ≤ 0
      · right
        simp only [Completion.state]
        rw [if_pos hz]
      · left
        exact not_le.mp hz
    · rw [if_neg hc]; exact h
  · exact hg

/-- C12. Death ends the session: for every `Game.update` tick that starts in mode PLAYING with
player health above 0, if the player's health is `≤ 0` at the end of the tick then the mode is
GAME_OVER; so a session still PLAYING after the tick has health above 0. -/
theorem C12_death_ends_session (M : JSMath α) (env : Env α) (dt : α) (g : Game α)
    (_hplay : g.gameState = GameState.PLAYING) (hpos : 0 < g.player.health) :
    ((Game.update M env dt g).state.player.health ≤ 0 →
      (Game.update M env dt g).state.gameState = GameState.GAME_OVER) ∧
    ((Game.update M env dt g).state.gameState = GameState.PLAYING →
      0 < (Game.update M env dt g).state.player.health) := by
  have h := Game.update_aliveOrOver M env dt g (Or.inl hpos)
  constructor
  · intro hz
    rcases h with h | h
    · exact absurd hz (not_le.mpr h)
    · exact h
  · intro hp
    rcases h with h | h
    · exact h
    · rw [h] at hp
      exact absurd hp (by decide)

theorem Player.beforeJump_idle (p : Player α) (dt : α) (hvx : p.velocityX = 0) :
    (p.beforeJump dt []).velocityX = 0 := by
  have h1 : (p.tickCooldowns dt).velocityX = 0 := by
    unfold Player.tickCooldowns; dsimp only; split_ifs <;> simp [hvx]
  have h2 : ((p.tickCooldowns dt).readDirection []).velocityX = 0 ∧
      ((p.tickCooldowns dt).readDirection []).moveDirection = 0 := by
    unfold Player.readDirection; simp [h1]
  have h3 : (((p.tickCooldowns dt).readDirection []).accelerate).velocityX = 0 := by
    unfold Player.accelerate; simp [h2.1, h2.2]
  unfold Player.beforeJump Player.dash
  simp [h3]

/-- One tick of a player at rest in mid-air, away from the walls, with no key held. -/
theorem Player.update_fall (p : Player α) (dt : α) (hx : p.x = 450) (hy : p.y = 300)
    (hw : p.width = 32) (hh : p.height = 64) (hvx : p.velocityX = 0) (hvy : p.velocityY = 0) :
    (p.update dt []).box = ⟨450, 300 + 8 / 10, 32, 64⟩ := by
  obtain ⟨a1, a2, a3, a4, a5, -⟩ := Player.beforeJump_frame p dt []
  have a6 := Player.beforeJump_idle p dt hvx
  have hj : (p.beforeJump dt []).jump [] = { p.beforeJump dt [] with lastKeys := [] } :=
    Player.jump_not_pressed _ [] rfl
  have hws : ((p.beforeJump dt []).jump []).wallSlide = (p.beforeJump dt []).jump [] := by
    unfold Player.wallSlide
    rw [hj]
    simp [Player.isAtLeftWall, Player.isAtRightWall, Player.isOnGround, a1, a2, a3, a4, hx, hy,
      hw, hh]
    norm_num
  have hcj : (((p.beforeJump dt []).jump []).wallSlide).cutJump [] =
      (p.beforeJump dt []).jump [] := by
    rw [hws]
    unfold Player.cutJump
    rw [hj]
    simp [a5, hvy]
  have hbi : p.beforeIntegrate dt [] = ((p.beforeJump dt []).jump []).applyGravity := by
    unfold Player.beforeIntegrate
    rw [hcj]
  have hv : (p.beforeIntegrate dt []).velocityY = 8 / 10 := by
    rw [hbi, (Player.applyGravity_frame _).2.2.2.2.2.2, hj]
    simp only [a5, hvy]
    norm_num
  have hvx' : (p.beforeIntegrate dt []).velocityX = 0 := by
    rw [hbi, (Player.applyGravity_frame _).2.2.2.2.1, hj]
    exact a6
  obtain ⟨b1, b2, b3, b4, -⟩ := Player.beforeIntegrate_frame p dt []
  obtain ⟨c1, c2, c3, c4, -, -, -⟩ := Player.integrate_frame (p.beforeIntegrate dt [])
  obtain ⟨d1, d2, d3, d4, -, -⟩ := Player.groundFriction_frame (p.beforeIntegrate dt []).integrate
  obtain ⟨e1, e2, -, -, e5⟩ :=
    Player.keepInBounds_frame ((p.beforeIntegrate dt []).integrate).groundFriction
  obtain ⟨f1, f2, f3, f4, -, -, -⟩ := Player.tickFlash_frame
    (((p.beforeIntegrate dt []).integrate).groundFriction).keepInBounds dt
  have hgy : ((p.beforeIntegrate dt []).integrate).groundFriction.y = 300 + 8 / 10 := by
    rw [d2, c2, b2, hv, hy]
  have hgh : ((p.beforeIntegrate dt []).integrate).groundFriction.height = 64 := by
    rw [d4, c4, b4, hh]
  obtain ⟨-, -, -, v4⟩ := Player.keepInBounds_vertical
    ((p.beforeIntegrate dt []).integrate).groundFriction (by rw [hgh]; norm_num)
  have hky := (v4 (by rw [hgy, hgh]; norm_num)).2
  rw [Player.update_eq_stages]
  unfold Player.box
  rw [f1, f2, f3, f4, e1, e2, e5, hky, hgy, hgh, d1, d3, c1, c3, b1, b3, hvx', hx, hw]
  norm_num

/-- An enemy that is not stunned moves by at most its speed on each axis, and stays unstunned. -/
theorem Enemy.update_seeking (M : JSMath α) (hM : M.UnitTrig) (now : α) (e : Enemy α) (dt : α)
    (p : Player α) (hs : e.isStunned = false) (hsp : 0 ≤ e.speed) :
    (e.update M now dt p).isStunned = false ∧ (e.update M now dt p).damage = e.damage ∧
    (e.update M now dt p).width = e.width ∧ (e.update M now dt p).height = e.height ∧
    ∃ vx vy : α, (-e.speed ≤ vx ∧ vx ≤ e.speed) ∧ (-e.speed ≤ vy ∧ vy ≤ e.speed) ∧
      (e.update M now dt p).x = max 0 (min (e.x + vx) (CONFIG.CANVAS.WIDTH - e.width)) ∧
      (e.update M now dt p).y = max 0 (min (e.y + vy) (CONFIG.CANVAS.HEIGHT - e.height)) := by
  have hb : ∀ (t c : α), 0 ≤ c → c ≤ 1 →
      (-e.speed ≤ M.cos t * e.speed * c * (98 / 100) ∧
        M.cos t * e.speed * c * (98 / 100) ≤ e.speed) ∧
      (-e.speed ≤ M.sin t * e.speed * c * (98 / 100) ∧
        M.sin t * e.speed * c * (98 / 100) ≤ e.speed) := by
    intro t c hc0 hc1
    obtain ⟨⟨c1, c2⟩, ⟨s1, s2⟩⟩ := hM t
    have hk : 0 ≤ e.speed * c * (98 / 100) := by positivity
    have hk1 : e.speed * c * (98 / 100) ≤ e.speed := by
      have : e.speed * c ≤ e.speed := by nlinarith
      nlinarith
    refine ⟨⟨?_, ?_⟩, ⟨?_, ?_⟩⟩
    · nlinarith
    · nlinarith
    · nlinarith
    · nlinarith
  unfold Enemy.update
  rw [if_neg (by simp [hs])]
  dsimp only
  by_cases hd : M.sqrt ((p.x - e.x) * (p.x - e.x) + (p.y - e.y) * (p.y - e.y)) >
      CONFIG.ENEMY.BASIC.MIN_DISTANCE
  · rw [if_pos hd]
    dsimp only
    obtain ⟨hc, hs'⟩ := hb (M.atan2 (p.y - e.y) (p.x - e.x) + M.sin (now * (1 / 1000)) * (2 / 10))
      (1 / 2) (by norm_num) (by norm_num)
    refine ⟨?_, ?_, ?_, ?_, _, _, hc, hs', ?_, ?_⟩
    · split_ifs <;> simp [hs]
    · split_ifs <;> rfl
    · split_ifs <;> rfl
    · split_ifs <;> rfl
    · split_ifs <;> rfl
    · split_ifs <;> rfl
  · rw [if_neg hd]
    dsimp only
    obtain ⟨hc, hs'⟩ := hb
      (M.atan2 (p.y - e.y) (p.x - e.x) + M.PI / 2 + M.sin (now * (1 / 1000)) * (2 / 10))
      1 (by norm_num) (by norm_num)
    rw [mul_one] at hc hs'
    refine ⟨?_, ?_, ?_, ?_, _, _, hc, hs', ?_, ?_⟩
    · split_ifs <;> simp [hs]
    · split_ifs <;> rfl
    · split_ifs <;> rfl
    · split_ifs <;> rfl
    · split_ifs <;> rfl
    · split_ifs <;> rfl

/-- A tick with one enemy, no projectile and no pickup. -/
theorem Game.update_single_touch (M : JSMath α) (env : Env α) (dt : α) (g : Game α)
    (e : Enemy α) (hplay : g.gameState = GameState.PLAYING) (hene : g.enemies = [e])
    (hpul : g.echoPulses = []) (hcr : g.crystals = []) :
    Game.update M env dt g =
      Game.touchEnemy M (e.update M env.now dt (g.player.update dt g.keys)) 0
        { g.afterPlayer dt with
          enemies := [e.update M env.now dt (g.player.update dt g.keys)] } := by
  rw [Game.update_eq_passes, if_neg (by simp [hplay])]
  simp only [Game.pulsePass, Game.enemyPass, Game.crystalPass, Game.touchPass, forEach,
    forEachLoop, Game.afterPlayer, hene, hpul, hcr, Game.updateEnemy, Completion.andThen,
    List.length_nil, List.length_cons, List.getElem?_cons_zero, List.set_cons_zero,
    List.length_singleton, Nat.zero_add]
  rw [Game.touchEnemy_eq]
  split_ifs <;> rfl

theorem Game.lastStand_tick :
    (Game.update realMath ⟨0, 0⟩ (1000 / 60) Game.lastStand).state.player.health = 0 := by
  have hbox := Player.update_fall Game.lastStand.player (1000 / 60) rfl rfl rfl rfl rfl rfl
  obtain ⟨ph, pi, -⟩ := Player.update_combat Game.lastStand.player (1000 / 60) []
  obtain ⟨es, ed, ew, eh, vx, vy, ⟨vx1, vx2⟩, ⟨vy1, vy2⟩, ex, ey⟩ := Enemy.update_seeking realMath
    realMath_unitTrig 0 (Enemy.new 450 300 : Enemy ℝ) (1000 / 60)
    (Game.lastStand.player.update (1000 / 60) []) rfl (by norm_num [Enemy.new])
  have hsp : (Enemy.new 450 300 : Enemy ℝ).speed = 3 / 2 := rfl
  have hex : (Enemy.new 450 300 : Enemy ℝ).x = 450 := rfl
  have hey : (Enemy.new 450 300 : Enemy ℝ).y = 300 := rfl
  have hew : (Enemy.new 450 300 : Enemy ℝ).width = 32 := rfl
  have heh : (Enemy.new 450 300 : Enemy ℝ).height = 32 := rfl
  rw [hsp] at vx1 vx2 vy1 vy2
  rw [hex, hew] at ex
  rw [hey, heh] at ey
  rw [hew] at ew
  rw [heh] at eh
  have ex' : (Enemy.update realMath 0 (Enemy.new 450 300) (1000 / 60)
      (Game.lastStand.player.update (1000 / 60) [])).x = 450 + vx := by
    rw [ex, min_eq_left (by norm_num; linarith), max_eq_right (by linarith)]
  have ey' : (Enemy.update realMath 0 (Enemy.new 450 300) (1000 / 60)
      (Game.lastStand.player.update (1000 / 60) [])).y = 300 + vy := by
    rw [ey, min_eq_left (by norm_num; linarith), max_eq_right (by linarith)]
  have hcol : Game.checkCollision (Game.lastStand.player.update (1000 / 60) []).box
      (Enemy.update realMath 0 (Enemy.new 450 300) (1000 / 60)
        (Game.lastStand.player.update (1000 / 60) [])).box = true := by
    rw [Game.checkCollision_iff, hbox]
    simp only [Enemy.box, ex', ey', ew, eh]
    refine ⟨by linarith, by linarith, by linarith, by linarith⟩
  rw [Game.update_single_touch realMath ⟨0, 0⟩ (1000 / 60) Game.lastStand (Enemy.new 450 300)
    rfl rfl rfl rfl, Game.touchEnemy_eq]
  have e2 : Game.lastStand.keys = [] := rfl
  simp only [Game.afterPlayer, e2, hcol, es, Bool.not_false, Bool.and_self, if_true,
    Completion.state]
  rw [Player.takeDamage_health, pi, ph, ed]
  norm_num [Game.lastStand, Player.new, Enemy.new]

/-- C12, at `Game.lastStand`: a player with health 1, not invincible, overlapping an enemy that
is not stunned and deals 1, ends the tick with health 0 and in mode GAME_OVER. -/
theorem C12_death_ends_session_witness :
    Game.lastStand.gameState = GameState.PLAYING ∧ 0 < Game.lastStand.player.health ∧
    Game.lastStand.player.isInvincible = false ∧
    (Game.update realMath ⟨0, 0⟩ (1000 / 60) Game.lastStand).state.player.health = 0 ∧
    (Game.update realMath ⟨0, 0⟩ (1000 / 60) Game.lastStand).state.gameState =
      GameState.GAME_OVER :=
  ⟨rfl, by norm_num [Game.lastStand], rfl, Game.lastStand_tick,
   (C12_death_ends_session realMath ⟨0, 0⟩ (1000 / 60) Game.lastStand rfl
     (by norm_num [Game.lastStand])).1 (le_of_eq Game.lastStand_tick)⟩

/-! ### Pickups -/

theorem Game.pulledCrystal_congr (M : JSMath α) (dt : α) (c : Crystal α) (g g' : Game α)
    (h : g.player = g'.player) : Game.pulledCrystal M dt c g = Game.pulledCrystal M dt c g' := by
  unfold Game.pulledCrystal
  rw [h]

/-- A tick without enemies and projectiles whose first pickup overlaps the player: that pickup
is collected, and the exception of `createHealEffect` ends the tick before any other pickup is
looked at. -/
theorem Game.update_first_pickup (M : JSMath α) (env : Env α) (dt : α) (g : Game α)
    (c : Crystal α) (rest : List (Crystal α)) (hplay : g.gameState = GameState.PLAYING)
    (hene : g.enemies = []) (hpul : g.echoPulses = []) (hcr : g.crystals = c :: rest)
    (hcol : Game.checkCollision (g.player.update dt g.keys).box
      (Game.pulledCrystal M dt c (g.afterPlayer dt)).box = true) :
    Game.update M env dt g =
      Completion.throws
        { g.afterPlayer dt with
          crystals := rest,
          player := (g.player.update dt g.keys).heal CONFIG.CRYSTALS.HEALTH_CRYSTAL.HEAL_AMOUNT,
          trace := g.trace ++ [Event.healed 0] } := by
  rw [Game.update_eq_passes, if_neg (by simp [hplay])]
  have key : ∀ g' : Game α, g'.player = g.player.update dt g.keys →
      Game.checkCollision g'.player.box (Game.pulledCrystal M dt c g').box = true := by
    intro g' h
    rw [Game.pulledCrystal_congr M dt c g' (g.afterPlayer dt) (h.trans rfl), h]
    exact hcol
  simp only [Game.pulsePass, Game.enemyPass, Game.crystalPass, forEach, forEachLoop,
    Game.afterPlayer, hene, hpul, hcr, Completion.andThen, List.length_nil, List.length_cons,
    List.getElem?_cons_zero, Game.updateCrystal_eq, List.set_cons_zero,
    List.eraseIdx_cons_zero]
  have hk := key { g with player := g.player.update dt g.keys, echoPulses := [], enemies := [],
                          crystals := c :: rest } rfl
  rw [if_pos hk]

/-- The pull moves a pickup along the segment to the player's position, by at most a tenth. -/
theorem Game.pulledCrystal_between (M : JSMath α) (hsq : ∀ v : α, 0 ≤ M.sqrt v) (dt : α)
    (c : Crystal α) (g : Game α) :
    (Game.pulledCrystal M dt c g).width = c.width ∧
    (Game.pulledCrystal M dt c g).height = c.height ∧
    ∃ t : α, 0 ≤ t ∧ t ≤ 1 / 10 ∧
      (Game.pulledCrystal M dt c g).x = c.x + (g.player.x - c.x) * t ∧
      (Game.pulledCrystal M dt c g).y = c.y + (g.player.y - c.y) * t := by
  have hu : (c.update M dt).x = c.x ∧ (c.update M dt).y = c.y ∧
      (c.update M dt).width = c.width ∧ (c.update M dt).height = c.height := by
    unfold Crystal.update
    dsimp only
    split_ifs <;> simp
  obtain ⟨u1, u2, u3, u4⟩ := hu
  unfold Game.pulledCrystal
  dsimp only
  by_cases hd : M.sqrt ((g.player.x - (c.update M dt).x) ^ 2 +
      (g.player.y - (c.update M dt).y) ^ 2) < 150
  · rw [if_pos hd]
    refine ⟨u3, u4, (150 - M.sqrt ((g.player.x - (c.update M dt).x) ^ 2 +
      (g.player.y - (c.update M dt).y) ^ 2)) / 150 * (1 / 10), ?_, ?_, ?_, ?_⟩
    · have := hsq ((g.player.x - (c.update M dt).x) ^ 2 + (g.player.y - (c.update M dt).y) ^ 2)
      apply mul_nonneg _ (by norm_num)
      apply div_nonneg _ (by norm_num)
      linarith
    · have := hsq ((g.player.x - (c.update M dt).x) ^ 2 + (g.player.y - (c.update M dt).y) ^ 2)
      have h1 : (150 - M.sqrt ((g.player.x - (c.update M dt).x) ^ 2 +
          (g.player.y - (c.update M dt).y) ^ 2)) / 150 ≤ 1 := by
        rw [div_le_one (by norm_num)]
        linarith
      linarith
    · simp only [u1, u2]; ring
    · simp only [u1, u2]; ring
  · rw [if_neg hd]
    exact ⟨u3, u4, 0, le_refl _, by norm_num, by rw [u1]; ring, by rw [u2]; ring⟩

/-! ### C15: the accumulator loop -/

/-- No tick touches the clock of the loop. -/
theorem Game.update_clock (M : JSMath α) (env : Env α) (dt : α) (g : Game α) :
    (Game.update M env dt g).state.accumulator = g.accumulator ∧
    (Game.update M env dt g).state.lastTime = g.lastTime := by
  apply Game.update_state_inv
    (fun s => s.accumulator = g.accumulator ∧ s.lastTime = g.lastTime) M env dt
  · intro s h; exact h
  · intro x k s h _
    rw [Game.updatePulse_eq]
    split_ifs <;> exact h
  · intro x k s h hx
    apply Game.updateEnemy_state_inv
      (fun s => s.accumulator = g.accumulator ∧ s.lastTime = g.lastTime) M env dt
    · intro s k e h _; exact h
    · intro s k j e pulse h _ _ _; exact h
    · exact h
    · exact hx
  · intro x k s h _
    rw [Game.updateCrystal_eq]
    split_ifs <;> exact h
  · intro x k s h _
    rw [Game.touchEnemy_eq]
    split_ifs <;> exact h
  · exact ⟨rfl, rfl⟩

theorem Game.timestep_pos : (0 : α) < Game.timestep := by
  unfold Game.timestep
  norm_num

/-- With the fuel `⌊accumulator / timestep⌋` the loop test never stops the loop early and the
fuel never runs out early: the loop is the sequence of that many ticks. -/
theorem Game.tickLoop_eq_runTicks [FloorRing α] (M : JSMath α) (envs : Nat → Env α) :
    ∀ (n i : Nat) (g : Game α), 0 ≤ g.accumulator → ⌊g.accumulator / Game.timestep⌋₊ = n →
      Game.tickLoop M envs n i g = Game.runTicks M envs n i g := by
  intro n
  induction n with
  | zero => intro i g _ _; rfl
  | succ n ih =>
    intro i g h0 hn
    have hts : (0 : α) < Game.timestep := Game.timestep_pos
    have h1 : (1 : α) ≤ g.accumulator / Game.timestep := by
      have : 1 ≤ ⌊g.accumulator / Game.timestep⌋₊ := by omega
      have h2 := Nat.floor_le (div_nonneg h0 (le_of_lt hts))
      calc (1 : α) ≤ ((⌊g.accumulator / Game.timestep⌋₊ : Nat) : α) := by exact_mod_cast this
        _ ≤ g.accumulator / Game.timestep := h2
    have hge : g.accumulator ≥ Game.timestep := by
      have := (le_div_iff₀ hts).mp h1
      linarith
    unfold Game.tickLoop Game.runTicks
    rw [if_pos hge]
    have hc := (Game.update_clock M (envs i) Game.timestep g).1
    cases hu : Game.update M (envs i) Game.timestep g with
    | throws g' => rfl
    | normal g' =>
      rw [hu] at hc
      simp only [Completion.state] at hc
      apply ih
      · simp only [hc]; linarith
      · simp only [hc]
        have : (g.accumulator - Game.timestep) / Game.timestep =
            g.accumulator / Game.timestep - 1 := by
          field_simp
        rw [this, Nat.floor_sub_one, hn]
        rfl

/-- When no tick raises, `n` ticks take `n` timesteps off the accumulator. -/
theorem Game.runTicks_clock (M : JSMath α) (envs : Nat → Env α) :
    ∀ (n i : Nat) (g g' : Game α), Game.runTicks M envs n i g = Completion.normal g' →
      g'.accumulator = g.accumulator - Game.timestep * n ∧ g'.lastTime = g.lastTime := by
  intro n
  induction n with
  | zero =>
    intro i g g' h
    simp only [Game.runTicks, Completion.normal.injEq] at h
    rw [← h]; simp
  | succ n ih =>
    intro i g g' h
    unfold Game.runTicks at h
    have hc := Game.update_clock M (envs i) Game.timestep g
    cases hu : Game.update M (envs i) Game.timestep g with
    | throws s => rw [hu] at h; simp at h
    | normal s =>
      rw [hu] at h hc
      simp only [Completion.state] at hc
      obtain ⟨r1, r2⟩ := ih _ _ _ h
      simp only [hc.1, hc.2] at r1 r2
      refine ⟨?_, r2⟩
      rw [r1]; push_cast; ring

/-- What `gameLoop` does in mode PLAYING. -/
theorem Game.gameLoop_playing [FloorRing α] (M : JSMath α) (envs : Nat → Env α) (t : α)
    (g : Game α) (hplay : g.gameState = GameState.PLAYING)
    (h0 : 0 ≤ g.accumulator + (t - g.lastTime)) :
    Game.gameLoop M envs t g =
      Game.runTicks M envs ⌊(g.accumulator + (t - g.lastTime)) / Game.timestep⌋₊ 0
        { g with lastTime := t, accumulator := g.accumulator + (t - g.lastTime) } := by
  unfold Game.gameLoop
  rw [if_neg (by simp [hplay])]
  dsimp only
  exact Game.tickLoop_eq_runTicks M envs _ 0 _ h0 rfl

/-- A frame none of whose ticks raises leaves the clock as the fixed-timestep scheme says. -/
theorem Game.gameLoop_clock [FloorRing α] (M : JSMath α) (envs : Nat → Env α) (t : α)
    (g g' : Game α) (hplay : g.gameState = GameState.PLAYING)
    (h0 : 0 ≤ g.accumulator + (t - g.lastTime))
    (hn : Game.gameLoop M envs t g = Completion.normal g') :
    g'.lastTime = t ∧
    g'.accumulator = g.accumulator + (t - g.lastTime) -
      Game.timestep * ⌊(g.accumulator + (t - g.lastTime)) / Game.timestep⌋₊ ∧
    0 ≤ g'.accumulator ∧ g'.accumulator < Game.timestep := by
  rw [Game.gameLoop_playing M envs t g hplay h0] at hn
  obtain ⟨r1, r2⟩ := Game.runTicks_clock M envs _ _ _ _ hn
  have hts : (0 : α) < Game.timestep := Game.timestep_pos
  have hq : 0 ≤ (g.accumulator + (t - g.lastTime)) / Game.timestep :=
    div_nonneg h0 (le_of_lt hts)
  have f1 := Nat.floor_le hq
  have f2 := Nat.lt_floor_add_one ((g.accumulator + (t - g.lastTime)) / Game.timestep)
  rw [le_div_iff₀ hts] at f1
  rw [div_lt_iff₀ hts] at f2
  refine ⟨r2, r1, ?_, ?_⟩
  · rw [r1]; simp only []; linarith
  · rw [r1]; simp only []; linarith

/-- A tick in which the main projectile of `Game.lastHit` meets its stunned enemy raises,
whatever the rest of the session is. -/
theorem Game.stunned_hit (env : Env ℝ) (dt : ℝ) (g : Game ℝ)
    (hplay : g.gameState = GameState.PLAYING)
    (hene : g.enemies = [(Enemy.new 100 100).takeDamage 1])
    (hpul : g.echoPulses = [EchoPulse.new 80 100 0 true]) :
    (Game.update realMath env dt g).threw = true := by
  have hc : realMath.cos 0 = 1 := by simp [realMath]
  have hs : realMath.sin 0 = 0 := by simp [realMath]
  obtain ⟨pb, pbo, -, -⟩ := EchoPulse.update_free realMath
    (EchoPulse.new 80 100 0 true : EchoPulse ℝ) dt
    (by norm_num [EchoPulse.new, hc]) (by norm_num [EchoPulse.new, hs])
  obtain ⟨eb, -⟩ := Enemy.update_stunned realMath env.now
    ((Enemy.new 100 100 : Enemy ℝ).takeDamage 1) dt (g.player.update dt g.keys) rfl
  rw [Game.update_single_hit realMath env dt g ((Enemy.new 100 100).takeDamage 1)
    (EchoPulse.new 80 100 0 true) hplay hene hpul (by rw [pbo]; simp [EchoPulse.new])
    (by
      rw [pb, eb]
      norm_num [Game.checkCollision, Enemy.box, Enemy.takeDamage, Enemy.new, EchoPulse.new, hc,
        hs])]
  rfl

/-- C15. The accumulator loop is cut short by a tick that raises. In mode PLAYING with
`accumulator + elapsed ≥ 0`, `gameLoop` sets `lastTime`, adds the elapsed time and runs
`⌊(accumulator + elapsed) / timestep⌋` ticks of length `timestep`, stopping at the first tick
that raises; when none raises, the accumulator ends at `accumulator + elapsed` minus that many
timesteps, in `[0, timestep)`. In `Game.lastHit` (accumulator 0, `lastTime` 0) the frame at
`timestamp = 100/3`, two timesteps later, raises in its first tick and leaves the accumulator at
`100/3`, which is not below `timestep`. -/
theorem C15_loop_is_cut_by_exception :
    (∀ (M : JSMath ℝ) (envs : Nat → Env ℝ) (t : ℝ) (g : Game ℝ),
      g.gameState = GameState.PLAYING → 0 ≤ g.accumulator + (t - g.lastTime) →
      Game.gameLoop M envs t g =
        Game.runTicks M envs ⌊(g.accumulator + (t - g.lastTime)) / Game.timestep⌋₊ 0
          { g with lastTime := t, accumulator := g.accumulator + (t - g.lastTime) }) ∧
    (∀ (M : JSMath ℝ) (envs : Nat → Env ℝ) (t : ℝ) (g g' : Game ℝ),
      g.gameState = GameState.PLAYING → 0 ≤ g.accumulator + (t - g.lastTime) →
      Game.gameLoop M envs t g = Completion.normal g' →
      g'.lastTime = t ∧
      g'.accumulator = g.accumulator + (t - g.lastTime) -
        Game.timestep * ⌊(g.accumulator + (t - g.lastTime)) / Game.timestep⌋₊ ∧
      0 ≤ g'.accumulator ∧ g'.accumulator < Game.timestep) ∧
    (Game.gameLoop realMath (fun _ => ⟨0, 0⟩) (100 / 3) Game.lastHit).threw = true ∧
    (Game.gameLoop realMath (fun _ => ⟨0, 0⟩) (100 / 3) Game.lastHit).state.accumulator =
      100 / 3 ∧
    ¬ ((Game.gameLoop realMath (fun _ => ⟨0, 0⟩) (100 / 3) Game.lastHit).state.accumulator <
      Game.timestep) := by
  refine ⟨fun M envs t g h1 h2 => Game.gameLoop_playing M envs t g h1 h2,
    fun M envs t g g' h1 h2 h3 => Game.gameLoop_clock M envs t g g' h1 h2 h3, ?_⟩
  have hfl : ⌊(Game.lastHit.accumulator + (100 / 3 - Game.lastHit.lastTime)) /
      (Game.timestep : ℝ)⌋₊ = 2 := by
    have : (Game.lastHit.accumulator + (100 / 3 - Game.lastHit.lastTime)) /
        (Game.timestep : ℝ) = ((2 : Nat) : ℝ) := by
      norm_num [Game.lastHit, Game.timestep]
    rw [this, Nat.floor_natCast]
  have hloop := Game.gameLoop_playing realMath (fun _ => ⟨0, 0⟩) (100 / 3) Game.lastHit rfl
    (by norm_num [Game.lastHit])
  rw [hfl] at hloop
  have hthrew := Game.stunned_hit ⟨0, 0⟩ Game.timestep
    { Game.lastHit with
      lastTime := 100 / 3
      accumulator := Game.lastHit.accumulator + (100 / 3 - Game.lastHit.lastTime) }
    rfl rfl rfl
  have hclock := Game.update_clock realMath ⟨0, 0⟩ Game.timestep
    { Game.lastHit with
      lastTime := 100 / 3
      accumulator := Game.lastHit.accumulator + (100 / 3 - Game.lastHit.lastTime) }
  rw [hloop]
  unfold Game.runTicks
  cases hu : Game.update realMath ⟨0, 0⟩ Game.timestep
    { Game.lastHit with
      lastTime := 100 / 3
      accumulator := Game.lastHit.accumulator + (100 / 3 - Game.lastHit.lastTime) } with
  | normal s =>
    rw [hu] at hthrew
    simp [Completion.threw] at hthrew
  | throws s =>
    rw [hu] at hclock
    simp only [Completion.state] at hclock
    have ha : s.accumulator = 100 / 3 := by
      rw [hclock.1]; norm_num [Game.lastHit]
    refine ⟨rfl, ha, ?_⟩
    simp only [Completion.state]
    rw [ha]
    norm_num [Game.timestep]

/-! ### C16: resuming -/

theorem Player.update_flash (p : Player α) (dt : α) (keys : List String) :
    (p.update dt keys).invincibilityFlashTime = p.invincibilityFlashTime + dt := by
  have h1 : ∀ q : Player α,
      (q.tickCooldowns dt).invincibilityFlashTime = q.invincibilityFlashTime := by
    intro q; unfold Player.tickCooldowns; dsimp only; split_ifs <;> simp
  have h2 : ∀ q : Player α,
      (q.readDirection keys).invincibilityFlashTime = q.invincibilityFlashTime := by
    intro q; unfold Player.readDirection; dsimp only; split_ifs <;> simp
  have h3 : ∀ q : Player α, q.accelerate.invincibilityFlashTime = q.invincibilityFlashTime := by
    intro q; unfold Player.accelerate; dsimp only; split_ifs <;> simp
  have h4 : ∀ q : Player α, (q.dash keys).invincibilityFlashTime = q.invincibilityFlashTime := by
    intro q; unfold Player.dash; split_ifs <;> simp
  have h5 : ∀ q : Player α, (q.jump keys).invincibilityFlashTime = q.invincibilityFlashTime := by
    intro q; unfold Player.jump; dsimp only; split_ifs <;> simp
  have h6 : ∀ q : Player α, q.wallSlide.invincibilityFlashTime = q.invincibilityFlashTime := by
    intro q; unfold Player.wallSlide; split_ifs <;> simp
  have h7 : ∀ q : Player α,
      (q.cutJump keys).invincibilityFlashTime = q.invincibilityFlashTime := by
    intro q; unfold Player.cutJump; split_ifs <;> simp
  have h8 : ∀ q : Player α, q.applyGravity.invincibilityFlashTime = q.invincibilityFlashTime := by
    intro q; unfold Player.applyGravity; simp
  have h9 : ∀ q : Player α, q.integrate.invincibilityFlashTime = q.invincibilityFlashTime := by
    intro q; unfold Player.integrate; simp
  have h10 : ∀ q : Player α,
      q.groundFriction.invincibilityFlashTime = q.invincibilityFlashTime := by
    intro q; unfold Player.groundFriction; split_ifs <;> simp
  have h11 : ∀ q : Player α, q.keepInBounds.invincibilityFlashTime = q.invincibilityFlashTime := by
    intro q; unfold Player.keepInBounds; dsimp only; split_ifs <;> simp
  unfold Player.update
  dsimp only
  unfold Player.tickFlash
  dsimp only
  rw [h11, h10, h9, h8, h7, h6, h5, h4, h3, h2, h1]

/-- A tick of a running session with nothing but the player in the arena. -/
theorem Game.update_quiet (M : JSMath α) (env : Env α) (dt : α) (g : Game α)
    (hplay : g.gameState = GameState.PLAYING) (hene : g.enemies = [])
    (hpul : g.echoPulses = []) (hcr : g.crystals = []) :
    Game.update M env dt g = Completion.normal (g.afterPlayer dt) := by
  rw [Game.update_eq_passes, if_neg (by simp [hplay])]
  simp [Game.pulsePass, Game.enemyPass, Game.crystalPass, Game.touchPass, forEach, forEachLoop,
    Game.afterPlayer, hene, hpul, hcr, Completion.andThen]

/-- Each tick of such a session adds a timestep to the player's flash time. -/
theorem Game.runTicks_quiet (M : JSMath α) (envs : Nat → Env α) :
    ∀ (n i : Nat) (g : Game α), g.gameState = GameState.PLAYING → g.enemies = [] →
      g.echoPulses = [] → g.crystals = [] →
      ∃ g' : Game α, Game.runTicks M envs n i g = Completion.normal g' ∧
        g'.player.invincibilityFlashTime =
          g.player.invincibilityFlashTime + Game.timestep * n := by
  intro n
  induction n with
  | zero => intro i g _ _ _ _; exact ⟨g, rfl, by simp⟩
  | succ n ih =>
    intro i g h1 h2 h3 h4
    unfold Game.runTicks
    rw [Game.update_quiet M (envs i) Game.timestep g h1 h2 h3 h4]
    dsimp only
    obtain ⟨g', r1, r2⟩ := ih (i + 1)
      { g.afterPlayer Game.timestep with
        accumulator := (g.afterPlayer Game.timestep).accumulator - Game.timestep }
      h1 h2 h3 h4
    refine ⟨g', r1, ?_⟩
    rw [r2]
    simp only [Game.afterPlayer, Player.update_flash]
    push_cast
    ring

theorem Game.pausedIdle_resume (envs : Nat → Env ℝ) :
    Game.resumeGame realMath envs Game.pausedIdle =
      Completion.normal { Game.pausedIdle with gameState := GameState.PLAYING } := by
  have hp : Game.pausedIdle.gameState = GameState.PAUSED := rfl
  unfold Game.resumeGame
  rw [if_pos hp]
  dsimp only
  rw [Game.gameLoop_playing realMath envs _ _ rfl (by norm_num [Game.pausedIdle, Game.new])]
  have hfl : ⌊(({ Game.pausedIdle with gameState := GameState.PLAYING } : Game ℝ).accumulator +
      (Game.pausedIdle.lastTime -
        ({ Game.pausedIdle with gameState := GameState.PLAYING } : Game ℝ).lastTime)) /
      (Game.timestep : ℝ)⌋₊ = 0 := by
    norm_num [Game.pausedIdle, Game.new]
  rw [hfl]
  simp [Game.runTicks, Game.pausedIdle, Game.new]

/-- The first frame after resuming `Game.pausedIdle`, at wall-clock time `5000 + d`. -/
theorem Game.pausedIdle_frame (envs : Nat → Env ℝ) (n : Nat) (d : ℝ)
    (hd : d / Game.timestep = n) :
    ∃ g' : Game ℝ,
      Game.gameLoop realMath envs (5000 + d)
        { Game.pausedIdle with gameState := GameState.PLAYING } = Completion.normal g' ∧
      g'.player.invincibilityFlashTime = Game.timestep * n := by
  have hd0 : 0 ≤ d := by
    have hts : (0 : ℝ) < Game.timestep := Game.timestep_pos
    have : d = n * Game.timestep := by
      field_simp at hd
      linarith
    rw [this]
    positivity
  rw [Game.gameLoop_playing realMath envs _ _ rfl
    (by norm_num [Game.pausedIdle, Game.new]; exact hd0)]
  have hfl : ⌊(({ Game.pausedIdle with gameState := GameState.PLAYING } : Game ℝ).accumulator +
      (5000 + d - ({ Game.pausedIdle with gameState := GameState.PLAYING } : Game ℝ).lastTime)) /
      (Game.timestep : ℝ)⌋₊ = n := by
    have : (({ Game.pausedIdle with gameState := GameState.PLAYING } : Game ℝ).accumulator +
        (5000 + d - ({ Game.pausedIdle with gameState := GameState.PLAYING } : Game ℝ).lastTime)) =
        d := by
      norm_num [Game.pausedIdle, Game.new]
    rw [this, hd, Nat.floor_natCast]
  rw [hfl]
  obtain ⟨g', r1, r2⟩ := Game.runTicks_quiet realMath envs n 0
    { ({ Game.pausedIdle with gameState := GameState.PLAYING } : Game ℝ) with
      lastTime := 5000 + d
      accumulator :=
        ({ Game.pausedIdle with gameState := GameState.PLAYING } : Game ℝ).accumulator +
          (5000 + d - ({ Game.pausedIdle with gameState := GameState.PLAYING } : Game ℝ).lastTime) }
    rfl rfl rfl rfl
  refine ⟨g', r1, ?_⟩
  rw [r2]
  norm_num [Game.pausedIdle, Game.new, Player.new]

/-- C16. The paused time is credited on resume. `resumeGame` on `Game.pausedIdle` (paused at
its last frame time 5000) runs no tick and leaves `lastTime` at 5000. If the first frame after
it comes one timestep after the last frame (no time spent paused), it runs one tick and the
player's flash time is one timestep. If it comes after 1000 ms of pause and one timestep, it
runs 61 ticks and the player's flash time is 61 timesteps: the time spent paused went into the
accumulator and was simulated. -/
theorem C16_paused_time_is_credited :
    Game.resumeGame realMath (fun _ => ⟨0, 0⟩) Game.pausedIdle =
      Completion.normal { Game.pausedIdle with gameState := GameState.PLAYING } ∧
    (∃ g' : Game ℝ,
      Game.gameLoop realMath (fun _ => ⟨0, 0⟩) (5000 + 50 / 3)
        (Game.resumeGame realMath (fun _ => ⟨0, 0⟩) Game.pausedIdle).state =
          Completion.normal g' ∧
      g'.player.invincibilityFlashTime = 50 / 3) ∧
    (∃ g' : Game ℝ,
      Game.gameLoop realMath (fun _ => ⟨0, 0⟩) (5000 + (1000 + 50 / 3))
        (Game.resumeGame realMath (fun _ => ⟨0, 0⟩) Game.pausedIdle).state =
          Completion.normal g' ∧
      g'.player.invincibilityFlashTime = 61 * (50 / 3)) := by
  refine ⟨Game.pausedIdle_resume _, ?_, ?_⟩
  · rw [Game.pausedIdle_resume]
    obtain ⟨g', r1, r2⟩ := Game.pausedIdle_frame (fun _ => ⟨0, 0⟩) 1 (50 / 3)
      (by norm_num [Game.timestep])
    refine ⟨g', r1, ?_⟩
    rw [r2]; norm_num [Game.timestep]
  · rw [Game.pausedIdle_resume]
    obtain ⟨g', r1, r2⟩ := Game.pausedIdle_frame (fun _ => ⟨0, 0⟩) 61 (1000 + 50 / 3)
      (by norm_num [Game.timestep])
    refine ⟨g', r1, ?_⟩
    rw [r2]; norm_num [Game.timestep]

/-! ### C29: the box test is symmetric -/

/-- C29. `checkCollision` is symmetric: for all boxes `a` and `b`, of any position and size,
`checkCollision(a, b) = checkCollision(b, a)`. -/
theorem C29_checkCollision_symmetric (a b : Box α) :
    Game.checkCollision a b = Game.checkCollision b a := by
  have h : ∀ x y : Box α, Game.checkCollision x y = true → Game.checkCollision y x = true := by
    intro x y hxy
    rw [Game.checkCollision_iff] at hxy ⊢
    obtain ⟨h1, h2, h3, h4⟩ := hxy
    exact ⟨by linarith, by linarith, by linarith, by linarith⟩
  cases hab : Game.checkCollision a b with
  | true => exact (h a b hab).symm
  | false =>
    cases hba : Game.checkCollision b a with
    | true => rw [h b a hba] at hab; exact absurd hab (by decide)
    | false => rfl

/-! ### C27: damping of the enemy's velocity -/

/-- The stunned branch of `Enemy.update`. -/
theorem Enemy.update_stunned_eq (M : JSMath α) (now : α) (e : Enemy α) (dt : α) (p : Player α)
    (hs : e.isStunned = true) :
    e.update M now dt p =
      { e with stunDuration := e.stunDuration - dt,
               isStunned := decide (¬ (e.stunDuration - dt ≤ 0)),
               velocityX := e.velocityX * (8 / 10), velocityY := e.velocityY * (8 / 10) } := by
  unfold Enemy.update
  rw [if_pos hs]
  dsimp only
  split_ifs with h <;> simp [h, hs]

/-- The velocity of an enemy that is not stunned is computed afresh and damped by 0.98. -/
theorem Enemy.update_seeking_velocity (M : JSMath α) (now : α) (e : Enemy α) (dt : α)
    (p : Player α) (hs : e.isStunned = false) :
    (M.sqrt ((p.x - e.x) * (p.x - e.x) + (p.y - e.y) * (p.y - e.y)) > 200 →
      (e.update M now dt p).velocityX =
        M.cos (M.atan2 (p.y - e.y) (p.x - e.x) + M.sin (now * (1 / 1000)) * (2 / 10)) *
          e.speed * (1 / 2) * (98 / 100) ∧
      (e.update M now dt p).velocityY =
        M.sin (M.atan2 (p.y - e.y) (p.x - e.x) + M.sin (now * (1 / 1000)) * (2 / 10)) *
          e.speed * (1 / 2) * (98 / 100)) ∧
    (¬ M.sqrt ((p.x - e.x) * (p.x - e.x) + (p.y - e.y) * (p.y - e.y)) > 200 →
      (e.update M now dt p).velocityX =
        M.cos (M.atan2 (p.y - e.y) (p.x - e.x) + M.PI / 2 +
          M.sin (now * (1 / 1000)) * (2 / 10)) * e.speed * (98 / 100) ∧
      (e.update M now dt p).velocityY =
        M.sin (M.atan2 (p.y - e.y) (p.x - e.x) + M.PI / 2 +
          M.sin (now * (1 / 1000)) * (2 / 10)) * e.speed * (98 / 100)) := by
  unfold Enemy.update
  rw [if_neg (by simp [hs])]
  dsimp only
  constructor
  · intro hd
    rw [if_pos hd]
    dsimp only
    constructor
    · split_ifs <;> rfl
    · split_ifs <;> rfl
  · intro hd
    rw [if_neg hd]
    dsimp only
    constructor
    · split_ifs <;> rfl
    · split_ifs <;> rfl

/-- C27 (as amended). The damping of `Enemy.update` depends on the state. A stunned enemy with
velocity `v` ends the call with velocity `0.8 * v`, where it was. An enemy that is not stunned
gets a velocity computed afresh from the direction to the player (half its speed towards the
player when further than 200, its full speed across that direction otherwise, with the wobble
added to the angle), multiplied by 0.98. -/
theorem C27_damping_by_state (M : JSMath α) (now : α) (e : Enemy α) (dt : α) (p : Player α) :
    (e.isStunned = true →
      (e.update M now dt p).velocityX = e.velocityX * (8 / 10) ∧
      (e.update M now dt p).velocityY = e.velocityY * (8 / 10) ∧
      (e.update M now dt p).x = e.x ∧ (e.update M now dt p).y = e.y) ∧
    (e.isStunned = false →
      (M.sqrt ((p.x - e.x) * (p.x - e.x) + (p.y - e.y) * (p.y - e.y)) > 200 →
        (e.update M now dt p).velocityX =
          M.cos (M.atan2 (p.y - e.y) (p.x - e.x) + M.sin (now * (1 / 1000)) * (2 / 10)) *
            e.speed * (1 / 2) * (98 / 100) ∧
        (e.update M now dt p).velocityY =
          M.sin (M.atan2 (p.y - e.y) (p.x - e.x) + M.sin (now * (1 / 1000)) * (2 / 10)) *
            e.speed * (1 / 2) * (98 / 100)) ∧
      (¬ M.sqrt ((p.x - e.x) * (p.x - e.x) + (p.y - e.y) * (p.y - e.y)) > 200 →
        (e.update M now dt p).velocityX =
          M.cos (M.atan2 (p.y - e.y) (p.x - e.x) + M.PI / 2 +
            M.sin (now * (1 / 1000)) * (2 / 10)) * e.speed * (98 / 100) ∧
        (e.update M now dt p).velocityY =
          M.sin (M.atan2 (p.y - e.y) (p.x - e.x) + M.PI / 2 +
            M.sin (now * (1 / 1000)) * (2 / 10)) * e.speed * (98 / 100))) := by
  constructor
  · intro hs
    rw [Enemy.update_stunned_eq M now e dt p hs]
    exact ⟨rfl, rfl, rfl, rfl⟩
  · intro hs
    exact Enemy.update_seeking_velocity M now e dt p hs

/-- C27, as the specification words it, fails for the stunned enemy `Enemy.knockedBack`, whose
velocity is (1.47, 0): it ends `update` with velocity 0.8 * 1.47 = 1.176, not 0.98 * 1.47. -/
theorem C27_stunned_is_not_damped_by_098 :
    Enemy.knockedBack.isStunned = true ∧ Enemy.knockedBack.velocityX = 147 / 100 ∧
    (Enemy.knockedBack.update realMath 0 (1000 / 60) (Player.new 450 300)).velocityX =
      8 / 10 * (147 / 100) ∧
    (Enemy.knockedBack.update realMath 0 (1000 / 60) (Player.new 450 300)).velocityX ≠
      98 / 100 * Enemy.knockedBack.velocityX := by
  rw [Enemy.update_stunned_eq realMath 0 Enemy.knockedBack (1000 / 60) (Player.new 450 300) rfl]
  refine ⟨rfl, rfl, ?_, ?_⟩ <;> norm_num [Enemy.knockedBack, Enemy.takeDamage, Enemy.new]

/-! ### C24: bounces and reflections -/

/-- Contact with a vertical and a horizontal boundary at once. -/
theorem EchoPulse.bounce_corner (M : JSMath α) (e : EchoPulse α)
    (hx : e.x ≤ 0 ∨ e.x ≥ CONFIG.CANVAS.WIDTH - e.width)
    (hy : e.y ≤ 0 ∨ e.y ≥ CONFIG.CANVAS.HEIGHT - e.height) :
    (e.bounce M).angle = -(M.PI - e.angle) ∧
    (e.bounce M).x = max 0 (min e.x (CONFIG.CANVAS.WIDTH - e.width)) ∧
    (e.bounce M).y = max 0 (min e.y (CONFIG.CANVAS.HEIGHT - e.height)) ∧
    (e.bounce M).bounces = e.bounces + 1 := by
  unfold EchoPulse.bounce
  simp only [hx, hy, decide_True, decide_False, if_true, if_false, Bool.false_eq_true,
    Bool.or_true, Bool.or_false, Bool.or_self, and_self]

/-- The bounce count after `update`, from the position the move of `update` reaches. -/
theorem EchoPulse.update_bounces_eq (M : JSMath α) (e : EchoPulse α) (dt : α) :
    (e.update M dt).bounces =
      if (e.x + M.cos e.angle * e.speed ≤ 0 ∨
            e.x + M.cos e.angle * e.speed ≥ CONFIG.CANVAS.WIDTH - e.width) ∨
         (e.y + M.sin e.angle * e.speed ≤ 0 ∨
            e.y + M.sin e.angle * e.speed ≥ CONFIG.CANVAS.HEIGHT - e.height) then e.bounces + 1
      else e.bounces := by
  obtain ⟨mx, my, mw, mh, -, mb⟩ := EchoPulse.moved_eq M e
  unfold EchoPulse.update
  rw [EchoPulse.bounce_bounces, mx, my, mw, mh, mb]

/-- A corner hit: both reflections are applied to the angle and the count rises by one. -/
theorem EchoPulse.update_corner (M : JSMath α) (e : EchoPulse α) (dt : α)
    (hx : e.x + M.cos e.angle * e.speed ≤ 0 ∨
      e.x + M.cos e.angle * e.speed ≥ CONFIG.CANVAS.WIDTH - e.width)
    (hy : e.y + M.sin e.angle * e.speed ≤ 0 ∨
      e.y + M.sin e.angle * e.speed ≥ CONFIG.CANVAS.HEIGHT - e.height) :
    (e.update M dt).angle = -(M.PI - e.angle) ∧ (e.update M dt).bounces = e.bounces + 1 := by
  obtain ⟨mx, my, mw, mh, ma, mb⟩ := EchoPulse.moved_eq M e
  have hX : (e.animate.advance M).x ≤ 0 ∨
      (e.animate.advance M).x ≥ CONFIG.CANVAS.WIDTH - (e.animate.advance M).width := by
    rw [mx, mw]; exact hx
  have hY : (e.animate.advance M).y ≤ 0 ∨
      (e.animate.advance M).y ≥ CONFIG.CANVAS.HEIGHT - (e.animate.advance M).height := by
    rw [my, mh]; exact hy
  obtain ⟨r1, -, -, r4⟩ := EchoPulse.bounce_corner M _ hX hY
  unfold EchoPulse.update
  rw [r1, r4, ma, mb]
  exact ⟨rfl, rfl⟩

/-- C24 (as amended). Write `(x', y')` for the position the move of `EchoPulse.update` reaches.
`update` adds exactly 1 to `bounces` when `(x', y')` touches at least one boundary of the arena
and leaves `bounces` as it was otherwise. In particular a corner hit, where the projectile is
reflected off a vertical and a horizontal boundary in the same call and its angle becomes
`-(PI - angle)`, adds 1 to `bounces`, not 2. -/
theorem C24_one_bounce_per_update (M : JSMath α) (e : EchoPulse α) (dt : α) :
    (((e.x + M.cos e.angle * e.speed ≤ 0 ∨
          e.x + M.cos e.angle * e.speed ≥ CONFIG.CANVAS.WIDTH - e.width) ∨
        (e.y + M.sin e.angle * e.speed ≤ 0 ∨
          e.y + M.sin e.angle * e.speed ≥ CONFIG.CANVAS.HEIGHT - e.height)) →
      (e.update M dt).bounces = e.bounces + 1) ∧
    (¬ ((e.x + M.cos e.angle * e.speed ≤ 0 ∨
          e.x + M.cos e.angle * e.speed ≥ CONFIG.CANVAS.WIDTH - e.width) ∨
        (e.y + M.sin e.angle * e.speed ≤ 0 ∨
          e.y + M.sin e.angle * e.speed ≥ CONFIG.CANVAS.HEIGHT - e.height)) →
      (e.update M dt).bounces = e.bounces) ∧
    ((e.x + M.cos e.angle * e.speed ≤ 0 ∨
          e.x + M.cos e.angle * e.speed ≥ CONFIG.CANVAS.WIDTH - e.width) →
      (e.y + M.sin e.angle * e.speed ≤ 0 ∨
          e.y + M.sin e.angle * e.speed ≥ CONFIG.CANVAS.HEIGHT - e.height) →
      (e.update M dt).angle = -(M.PI - e.angle) ∧
      (e.update M dt).bounces = e.bounces + 1) := by
  refine ⟨fun h => ?_, fun h => ?_, fun hx hy => EchoPulse.update_corner M e dt hx hy⟩
  · rw [EchoPulse.update_bounces_eq, if_pos h]
  · rw [EchoPulse.update_bounces_eq, if_neg h]

/-- C24, as the specification words it, fails for the projectile that a player standing in the
bottom right corner of the arena fires to the right: it starts at (884, 568), the move takes it
to (894, 568), which is past the right boundary and on the bottom one, both reflections are
applied (the angle becomes `-(pi - 0)`), and `bounces` is 1 after the call, not 2. -/
theorem C24_corner_hit_counts_once :
    (884 : ℝ) + realMath.cos 0 * 10 ≥ 868 ∧ (568 : ℝ) + realMath.sin 0 * 10 ≥ 568 ∧
    (EchoPulse.new 884 568 0 true : EchoPulse ℝ).bounces = 0 ∧
    ((EchoPulse.new 884 568 0 true : EchoPulse ℝ).update realMath (1000 / 60)).angle =
      -(Real.pi - 0) ∧
    ((EchoPulse.new 884 568 0 true : EchoPulse ℝ).update realMath (1000 / 60)).bounces = 1 ∧
    ((EchoPulse.new 884 568 0 true : EchoPulse ℝ).update realMath (1000 / 60)).bounces ≠
      (EchoPulse.new 884 568 0 true : EchoPulse ℝ).bounces + 2 := by
  have hc : realMath.cos 0 = 1 := by simp [realMath]
  have hs : realMath.sin 0 = 0 := by simp [realMath]
  have h := EchoPulse.update_corner realMath (EchoPulse.new 884 568 0 true : EchoPulse ℝ)
    (1000 / 60) (Or.inr (by norm_num [EchoPulse.new, hc]))
    (Or.inr (by norm_num [EchoPulse.new, hs]))
  refine ⟨by rw [hc]; norm_num, by rw [hs]; norm_num, rfl, h.1, ?_, ?_⟩
  · rw [h.2]; rfl
  · rw [h.2]; simp [EchoPulse.new]

/-! ### C23, C25: the projectile pass -/

/-- The projectile pass keeps every bounce count below `MAX_BOUNCES`. -/
theorem Game.pulsePass_pulsesLive (M : JSMath α) (dt : α) (g : Game α) (hg : g.PulsesLive) :
    (Game.pulsePass M dt g).state.PulsesLive := by
  apply forEach_state_inv Game.echoPulses (Game.updatePulse M dt) Game.PulsesLive
  · intro x k g h _
    rw [Game.updatePulse_eq]
    split_ifs with hb
    · intro q hq
      simp only [Completion.state, eraseIdx_set_self] at hq
      exact h q (List.mem_of_mem_eraseIdx hq)
    · intro q hq
      simp only [Completion.state] at hq
      rcases List.mem_or_eq_of_mem_set hq with hq | hq
      · exact h q hq
      · rw [hq]; exact not_le.mp hb
  · exact hg

/-- The projectile pass over a single projectile that its update brings to `MAX_BOUNCES`. -/
theorem Game.pulsePass_one_spent (M : JSMath α) (dt : α) (g : Game α) (a : EchoPulse α)
    (hg : g.echoPulses = [a]) (ha : (a.update M dt).bounces ≥ CONFIG.ECHO.MAX_BOUNCES) :
    Game.pulsePass M dt g = Completion.normal { g with echoPulses := [] } := by
  unfold Game.pulsePass forEach
  rw [hg]
  have h0 : Game.updatePulse M dt a 0 g = Completion.normal { g with echoPulses := [] } := by
    rw [Game.updatePulse_eq, if_pos ha, hg]
    rfl
  rw [show ([a] : List (EchoPulse α)).length = 0 + 1 from rfl,
    forEachLoop_normal Game.echoPulses (Game.updatePulse M dt) 0 0 g _ a (by rw [hg]; rfl) h0]
  rfl

/-- The projectile pass over two projectiles of which the update brings the first to
`MAX_BOUNCES`: the first is spliced out, the second moves to index 0, and the loop goes on at
index 1, where nothing is left. The second projectile is not updated. -/
theorem Game.pulsePass_two_first_spent (M : JSMath α) (dt : α) (g : Game α)
    (a b : EchoPulse α) (hg : g.echoPulses = [a, b])
    (ha : (a.update M dt).bounces ≥ CONFIG.ECHO.MAX_BOUNCES) :
    Game.pulsePass M dt g = Completion.normal { g with echoPulses := [b] } := by
  unfold Game.pulsePass forEach
  rw [hg]
  have h0 : Game.updatePulse M dt a 0 g = Completion.normal { g with echoPulses := [b] } := by
    rw [Game.updatePulse_eq, if_pos ha, hg]
    rfl
  rw [show ([a, b] : List (EchoPulse α)).length = 1 + 1 from rfl,
    forEachLoop_normal Game.echoPulses (Game.updatePulse M dt) 1 0 g _ a (by rw [hg]; rfl) h0,
    forEachLoop_skip Game.echoPulses (Game.updatePulse M dt) 0 1
      ({ g with echoPulses := [b] } : Game α) rfl]
  rfl

/-- A tick of a running session without enemies and pickups is its projectile pass. -/
theorem Game.update_pulses_only (M : JSMath α) (env : Env α) (dt : α) (g : Game α)
    (hs : g.gameState = GameState.PLAYING) (he : g.enemies = []) (hc : g.crystals = [])
    (ps : List (EchoPulse α))
    (hp : Game.pulsePass M dt (g.afterPlayer dt) =
      Completion.normal { g.afterPlayer dt with echoPulses := ps }) :
    Game.update M env dt g = Completion.normal { g.afterPlayer dt with echoPulses := ps } := by
  rw [Game.update_eq_passes, if_neg (by rw [hs]; exact fun h => h rfl), hp]
  have e1 : (g.afterPlayer dt).enemies = [] := he
  have e2 : (g.afterPlayer dt).crystals = [] := hc
  simp only [Completion.andThen, Game.enemyPass, Game.crystalPass, Game.touchPass, forEach, e1,
    e2, List.length_nil, forEachLoop_zero]

/-- The update of `EchoPulse.lastBounce` is its third bounce. -/
theorem EchoPulse.lastBounce_update :
    (EchoPulse.lastBounce.update realMath (1000 / 60)).bounces = 3 := by
  have hc : realMath.cos 0 = 1 := by simp [realMath]
  rw [EchoPulse.update_bounces_eq, if_pos]
  · rfl
  · left; right
    norm_num [EchoPulse.lastBounce, EchoPulse.new, hc]

/-- C23 (as amended). The bounce check runs in the callback of the projectile pass right after
the projectile's own update: a projectile whose counter has reached `MAX_BOUNCES = 3` after its
update is spliced out of `echoPulses` in that same callback, and one whose counter is below 3
stays. So, in a session where every projectile has fewer than 3 bounces (as in every session a
page can reach), no projectile with 3 or more bounces is in `echoPulses` when the projectile
pass of a tick is over, that is, when that tick's projectile-enemy collision pass starts. -/
theorem C23_spent_projectile_removed_at_once (M : JSMath α) (dt : α) :
    (∀ (pulse : EchoPulse α) (index : Nat) (s : Game α),
      3 ≤ (pulse.update M dt).bounces →
        Game.updatePulse M dt pulse index s =
          Completion.normal { s with echoPulses := s.echoPulses.eraseIdx index }) ∧
    (∀ (pulse : EchoPulse α) (index : Nat) (s : Game α),
      (pulse.update M dt).bounces < 3 →
        Game.updatePulse M dt pulse index s =
          Completion.normal { s with echoPulses := s.echoPulses.set index (pulse.update M dt) }) ∧
    (∀ g : Game α, (∀ q ∈ g.echoPulses, q.bounces < 3) →
      ∀ q ∈ (Game.pulsePass M dt (g.afterPlayer dt)).state.echoPulses, q.bounces < 3) := by
  refine ⟨fun pulse index s h => ?_, fun pulse index s h => ?_, fun g hg => ?_⟩
  · rw [Game.updatePulse_eq, if_pos h, eraseIdx_set_self]
  · rw [Game.updatePulse_eq, if_neg (not_le.mpr h)]
  · exact Game.pulsePass_pulsesLive M dt (g.afterPlayer dt) hg

/-- C23, as the specification words it, fails in the session `Game.spentShot`: the update of its
only projectile is the third bounce, the projectile pass of that tick leaves `echoPulses` empty
for the collision pass that follows, and the session has no projectile when the tick is over. -/
theorem C23_spent_projectile_is_gone_in_its_tick :
    Game.spentShot.gameState = GameState.PLAYING ∧
    Game.spentShot.echoPulses = [EchoPulse.lastBounce] ∧
    EchoPulse.lastBounce.bounces = 2 ∧
    (EchoPulse.lastBounce.update realMath (1000 / 60)).bounces = 3 ∧
    (Game.pulsePass realMath (1000 / 60) (Game.spentShot.afterPlayer (1000 / 60))).state.echoPulses
      = [] ∧
    (Game.update realMath ⟨0, 0⟩ (1000 / 60) Game.spentShot).state.echoPulses = [] := by
  have hp := Game.pulsePass_one_spent realMath (1000 / 60)
    (Game.spentShot.afterPlayer (1000 / 60)) EchoPulse.lastBounce rfl
    (by rw [EchoPulse.lastBounce_update])
  refine ⟨rfl, rfl, rfl, EchoPulse.lastBounce_update, ?_, ?_⟩
  · rw [hp]; rfl
  · rw [Game.update_pulses_only realMath ⟨0, 0⟩ (1000 / 60) Game.spentShot rfl rfl rfl [] hp]
    rfl

/-- C25. A projectile is skipped when the one before it is removed. In the session
`Game.volley` the first projectile makes its third bounce in the tick and is spliced out inside
the loop over `echoPulses`; the second one moves to index 0, the loop goes on at index 1, and the
tick ends with the second projectile still in `echoPulses` exactly as it was, at x = 400 and not
at 410: `EchoPulse.update` was not applied to it. -/
theorem C25_projectile_after_removed_one_is_skipped :
    Game.volley.gameState = GameState.PLAYING ∧
    Game.volley.echoPulses = [EchoPulse.lastBounce, EchoPulse.new 400 300 0 true] ∧
    ((EchoPulse.new 400 300 0 true : EchoPulse ℝ).update realMath (1000 / 60)).x = 410 ∧
    (Game.update realMath ⟨0, 0⟩ (1000 / 60) Game.volley).state.echoPulses =
      [EchoPulse.new 400 300 0 true] ∧
    (Game.update realMath ⟨0, 0⟩ (1000 / 60) Game.volley).state.echoPulses.map EchoPulse.x =
      [400] := by
  have hp := Game.pulsePass_two_first_spent realMath (1000 / 60)
    (Game.volley.afterPlayer (1000 / 60)) EchoPulse.lastBounce (EchoPulse.new 400 300 0 true) rfl
    (by rw [EchoPulse.lastBounce_update])
  have hu := Game.update_pulses_only realMath ⟨0, 0⟩ (1000 / 60) Game.volley rfl rfl rfl _ hp
  have hc : realMath.cos 0 = 1 := by simp [realMath]
  have hs : realMath.sin 0 = 0 := by simp [realMath]
  obtain ⟨pb, -, -, -⟩ := EchoPulse.update_free realMath
    (EchoPulse.new 400 300 0 true : EchoPulse ℝ) (1000 / 60)
    (by norm_num [EchoPulse.new, hc]) (by norm_num [EchoPulse.new, hs])
  refine ⟨rfl, rfl, ?_, ?_, ?_⟩
  · have hx : ((EchoPulse.new 400 300 0 true : EchoPulse ℝ).update realMath (1000 / 60)).x =
        ((EchoPulse.new 400 300 0 true : EchoPulse ℝ).update realMath (1000 / 60)).box.x := rfl
    rw [hx, pb]
    norm_num [EchoPulse.new, hc]
  · rw [hu]; rfl
  · rw [hu]; rfl

/-! ### C28: the length of a stun -/

/-- The enemy after `k ≤ 30` calls of `update` that follow a `takeDamage`. -/
theorem Enemy.updates_stunned (M : JSMath α) (now : Nat → α) (player : Nat → Player α)
    (e : Enemy α) (amount : α) (k : Nat) (hk : k ≤ 30) :
    (Enemy.updates M now player (1000 / 60) k (e.takeDamage amount)).stunDuration =
      500 - (k : α) * (1000 / 60) ∧
    (Enemy.updates M now player (1000 / 60) k (e.takeDamage amount)).isStunned =
      decide (k < 30) ∧
    (Enemy.updates M now player (1000 / 60) k (e.takeDamage amount)).x = e.x ∧
    (Enemy.updates M now player (1000 / 60) k (e.takeDamage amount)).y = e.y ∧
    (Enemy.updates M now player (1000 / 60) k (e.takeDamage amount)).health =
      e.health - amount ∧
    (Enemy.updates M now player (1000 / 60) k (e.takeDamage amount)).velocityX =
      e.velocityX * (8 / 10) ^ k ∧
    (Enemy.updates M now player (1000 / 60) k (e.takeDamage amount)).velocityY =
      e.velocityY * (8 / 10) ^ k := by
  induction k with
  | zero =>
    simp [Enemy.updates, Enemy.takeDamage]
  | succ k ih =>
    obtain ⟨h1, h2, h3, h4, h5, h6, h7⟩ := ih (by omega)
    have hlt : k < 30 := by omega
    have hs : (Enemy.updates M now player (1000 / 60) k (e.takeDamage amount)).isStunned =
        true := by
      rw [h2]; exact decide_eq_true hlt
    have hstep : Enemy.updates M now player (1000 / 60) (k + 1) (e.takeDamage amount) =
        (Enemy.updates M now player (1000 / 60) k (e.takeDamage amount)).update M (now k)
          (1000 / 60) (player k) := rfl
    rw [hstep, Enemy.update_stunned_eq M (now k) _ (1000 / 60) (player k) hs]
    dsimp only
    rw [h1, h3, h4, h5, h6, h7]
    refine ⟨?_, ?_, rfl, rfl, rfl, ?_, ?_⟩
    · push_cast; ring
    · have hk30 : (k : α) + 1 ≤ 30 := by exact_mod_cast hk
      by_cases h30 : k + 1 < 30
      · have h' : (k : α) + 1 < 30 := by exact_mod_cast h30
        have : ¬ (500 - (k : α) * (1000 / 60) - 1000 / 60 ≤ 0) := by
          intro h; linarith
        simp [this, h30]
      · have h' : (k : α) + 1 = 30 := by
          have : k + 1 = 30 := by omega
          exact_mod_cast this
        have : 500 - (k : α) * (1000 / 60) - 1000 / 60 ≤ 0 := by
          have : (k : α) = 29 := by linarith
          rw [this]; norm_num
        simp [this, h30]
    · rw [pow_succ]; ring
    · rw [pow_succ]; ring

/-- C28. `Enemy.takeDamage(amount)` lowers `health` by exactly `amount`, sets `isStunned` and
sets `stunDuration` to 500. With ticks of 1000/60 ms and no further damage, whatever the clock
and the player are: after `k ≤ 30` further `update` calls the enemy is where it was, with the
health it had and `stunDuration = 500 - k * (1000/60)`; it is still stunned after each of the
first 29 calls, so that each of the first 30 calls takes the stunned branch, and it is no longer
stunned after the 30th, so that the 31st does not. The result of these calls does not depend on
the clock or the player they are given. -/
theorem C28_stun_lasts_thirty_ticks (M : JSMath α) (now : Nat → α) (player : Nat → Player α)
    (e : Enemy α) (amount : α) :
    (e.takeDamage amount).health = e.health - amount ∧
    (e.takeDamage amount).isStunned = true ∧
    (e.takeDamage amount).stunDuration = 500 ∧
    (∀ k : Nat, k ≤ 30 →
      (Enemy.updates M now player (1000 / 60) k (e.takeDamage amount)).stunDuration =
        500 - (k : α) * (1000 / 60) ∧
      (Enemy.updates M now player (1000 / 60) k (e.takeDamage amount)).x = e.x ∧
      (Enemy.updates M now player (1000 / 60) k (e.takeDamage amount)).y = e.y ∧
      (Enemy.updates M now player (1000 / 60) k (e.takeDamage amount)).health =
        e.health - amount) ∧
    (∀ k : Nat, k < 30 →
      (Enemy.updates M now player (1000 / 60) k (e.takeDamage amount)).isStunned = true) ∧
    (Enemy.updates M now player (1000 / 60) 30 (e.takeDamage amount)).isStunned = false ∧
    (∀ (k : Nat) (now2 : Nat → α) (player2 : Nat → Player α), k ≤ 30 →
      Enemy.updates M now2 player2 (1000 / 60) k (e.takeDamage amount) =
        Enemy.updates M now player (1000 / 60) k (e.takeDamage amount)) := by
  refine ⟨rfl, rfl, rfl, fun k hk => ?_, fun k hk => ?_, ?_, ?_⟩
  · obtain ⟨h1, -, h3, h4, h5, -, -⟩ := Enemy.updates_stunned M now player e amount k hk
    exact ⟨h1, h3, h4, h5⟩
  · rw [(Enemy.updates_stunned M now player e amount k (by omega)).2.1]
    exact decide_eq_true hk
  · rw [(Enemy.updates_stunned M now player e amount 30 (le_refl _)).2.1]
    rfl
  · intro k now2 player2 hk
    induction k with
    | zero => rfl
    | succ k ih =>
      have hlt : k < 30 := by omega
      have hs : (Enemy.updates M now player (1000 / 60) k (e.takeDamage amount)).isStunned =
          true := by
        rw [(Enemy.updates_stunned M now player e amount k (by omega)).2.1]
        exact decide_eq_true hlt
      have e1 : Enemy.updates M now2 player2 (1000 / 60) (k + 1) (e.takeDamage amount) =
          (Enemy.updates M now2 player2 (1000 / 60) k (e.takeDamage amount)).update M (now2 k)
            (1000 / 60) (player2 k) := rfl
      have e2 : Enemy.updates M now player (1000 / 60) (k + 1) (e.takeDamage amount) =
          (Enemy.updates M now player (1000 / 60) k (e.takeDamage amount)).update M (now k)
            (1000 / 60) (player k) := rfl
      rw [e1, e2, ih (by omega), Enemy.update_stunned_eq M (now2 k) _ (1000 / 60) (player2 k) hs,
        Enemy.update_stunned_eq M (now k) _ (1000 / 60) (player k) hs]

/-! ### C21: spawn placement -/

/-- `getDistance` does not depend on the order of the two points. -/
theorem Game.getDistance_comm (M : JSMath α) (x1 y1 x2 y2 : α) :
    Game.getDistance M x1 y1 x2 y2 = Game.getDistance M x2 y2 x1 y1 := by
  unfold Game.getDistance
  dsimp only
  congr 1
  ring

/-- The `for` loop of `generateLevel` over the positions found so far. -/
theorem Game.spawnCheck_eq_true (M : JSMath α) (x y : α) (sp : List (α × α)) (v : Bool) :
    sp.foldl
      (fun valid pos =>
        if Game.getDistance M x y pos.1 pos.2 < CONFIG.ENEMY.BASIC.SPAWN_DISTANCE then false
        else valid) v = true ↔
    v = true ∧ ∀ pos ∈ sp, CONFIG.ENEMY.BASIC.SPAWN_DISTANCE ≤ Game.getDistance M x y pos.1 pos.2 := by
  induction sp generalizing v with
  | nil => simp
  | cons p sp ih =>
    rw [List.foldl_cons, ih]
    by_cases hp : Game.getDistance M x y p.1 p.2 < CONFIG.ENEMY.BASIC.SPAWN_DISTANCE
    · rw [if_pos hp]
      constructor
      · intro h; exact absurd h.1 (by simp)
      · intro h; exact absurd (h.2 p (List.mem_cons_self _ _)) (not_le.mpr hp)
    · rw [if_neg hp]
      constructor
      · intro h
        refine ⟨h.1, ?_⟩
        intro pos hpos
        rcases List.mem_cons.mp hpos with rfl | hpos
        · exact not_lt.mp hp
        · exact h.2 pos hpos
      · intro h
        exact ⟨h.1, fun pos hpos => h.2 pos (List.mem_cons_of_mem _ hpos)⟩

/-- What the `while` loop of `generateLevel` keeps true of `spawnPositions`, and that it ends
with two positions. -/
theorem Game.generateLevelLoop_inv (M : JSMath α) (g : Game α) (draws : List (α × α))
    (hd : ∀ d ∈ draws, (0 ≤ d.1 ∧ d.1 < 1) ∧ (0 ≤ d.2 ∧ d.2 < 1)) :
    ∀ (sp r : List (α × α)), sp.length ≤ 2 →
      (∀ p ∈ sp, 300 ≤ Game.getDistance M p.1 p.2 g.player.x g.player.y ∧
        (0 ≤ p.1 ∧ p.1 ≤ 868) ∧ (0 ≤ p.2 ∧ p.2 ≤ 568)) →
      sp.Pairwise (fun a b => 300 ≤ Game.getDistance M b.1 b.2 a.1 a.2) →
      Game.generateLevelLoop M g draws sp = some r →
      r.length = 2 ∧
      (∀ p ∈ r, 300 ≤ Game.getDistance M p.1 p.2 g.player.x g.player.y ∧
        (0 ≤ p.1 ∧ p.1 ≤ 868) ∧ (0 ≤ p.2 ∧ p.2 ≤ 568)) ∧
      r.Pairwise (fun a b => 300 ≤ Game.getDistance M b.1 b.2 a.1 a.2) := by
  induction draws with
  | nil =>
    intro sp r hl hp hpw h
    unfold Game.generateLevelLoop at h
    by_cases h2 : sp.length < 2
    · rw [if_pos h2] at h
      exact absurd h (by simp)
    · rw [if_neg h2] at h
      have : sp = r := Option.some.inj h
      subst this
      exact ⟨by omega, hp, hpw⟩
  | cons d rest ih =>
    intro sp r hl hp hpw h
    obtain ⟨r1, r2⟩ := d
    have hrest : ∀ d ∈ rest, (0 ≤ d.1 ∧ d.1 < 1) ∧ (0 ≤ d.2 ∧ d.2 < 1) :=
      fun d hd' => hd d (List.mem_cons_of_mem _ hd')
    obtain ⟨⟨h10, h11⟩, ⟨h20, h21⟩⟩ := hd (r1, r2) (List.mem_cons_self _ _)
    unfold Game.generateLevelLoop at h
    by_cases h2 : sp.length < 2
    · rw [if_pos h2] at h
      dsimp only at h
      split_ifs at h with hv
      · rw [Game.spawnCheck_eq_true] at hv
        obtain ⟨hv1, hv2⟩ := hv
        have hfar : ¬ Game.getDistance M (r1 * (CONFIG.CANVAS.WIDTH - CONFIG.ENEMY.BASIC.SIZE))
            (r2 * (CONFIG.CANVAS.HEIGHT - CONFIG.ENEMY.BASIC.SIZE)) g.player.x g.player.y <
            CONFIG.ENEMY.BASIC.SPAWN_DISTANCE := by
          simpa [Game.isCloseToPlayer] using hv1
        apply ih hrest _ r _ _ _ h
        · rw [List.length_append]; simp; omega
        · intro p hp'
          rcases List.mem_append.mp hp' with hp' | hp'
          · exact hp p hp'
          · rw [List.mem_singleton] at hp'
            subst hp'
            refine ⟨not_lt.mp hfar, ⟨?_, ?_⟩, ⟨?_, ?_⟩⟩
            · exact mul_nonneg h10 (by norm_num)
            · have : r1 * ((CONFIG.CANVAS.WIDTH : α) - CONFIG.ENEMY.BASIC.SIZE) = r1 * 868 := by
                norm_num
              show r1 * ((CONFIG.CANVAS.WIDTH : α) - CONFIG.ENEMY.BASIC.SIZE) ≤ 868
              rw [this]; linarith
            · exact mul_nonneg h20 (by norm_num)
            · have : r2 * ((CONFIG.CANVAS.HEIGHT : α) - CONFIG.ENEMY.BASIC.SIZE) = r2 * 568 := by
                norm_num
              show r2 * ((CONFIG.CANVAS.HEIGHT : α) - CONFIG.ENEMY.BASIC.SIZE) ≤ 568
              rw [this]; linarith
        · rw [List.pairwise_append]
          refine ⟨hpw, List.pairwise_singleton _ _, ?_⟩
          intro a ha b hb
          rw [List.mem_singleton] at hb
          subst hb
          exact hv2 a ha
      · exact ih hrest sp r hl hp hpw h
    · rw [if_neg h2] at h
      have : sp = r := Option.some.inj h
      subst this
      exact ⟨by omega, hp, hpw⟩

/-- C21. Spawn placement. For every sequence of pairs of `Math.random()` values (each in
`[0, 1)`) on which `generateLevel` comes back, it adds exactly 2 enemies, freshly constructed, at
the end of `enemies` and changes nothing else; each of the two is at distance at least
`SPAWN_DISTANCE = 300` from the player's position, the two are at distance at least 300 from
each other, and each lies in the arena (`0 ≤ x ≤ 868`, `0 ≤ y ≤ 568`). Distances are as
`getDistance` computes them. -/
theorem C21_spawn_placement (M : JSMath α) (draws : List (α × α)) (g g' : Game α)
    (hd : ∀ d ∈ draws, (0 ≤ d.1 ∧ d.1 < 1) ∧ (0 ≤ d.2 ∧ d.2 < 1))
    (h : Game.generateLevel M draws g = some g') :
    ∃ x1 y1 x2 y2 : α,
      g' = { g with enemies := g.enemies ++ [Enemy.new x1 y1, Enemy.new x2 y2] } ∧
      300 ≤ Game.getDistance M x1 y1 g.player.x g.player.y ∧
      300 ≤ Game.getDistance M x2 y2 g.player.x g.player.y ∧
      300 ≤ Game.getDistance M x1 y1 x2 y2 ∧ 300 ≤ Game.getDistance M x2 y2 x1 y1 ∧
      (0 ≤ x1 ∧ x1 ≤ 868) ∧ (0 ≤ y1 ∧ y1 ≤ 568) ∧
      (0 ≤ x2 ∧ x2 ≤ 868) ∧ (0 ≤ y2 ∧ y2 ≤ 568) := by
  unfold Game.generateLevel at h
  simp only [Option.map_eq_some'] at h
  obtain ⟨r, hr, hg⟩ := h
  obtain ⟨hlen, hall, hpw⟩ := Game.generateLevelLoop_inv M g draws hd [] r (by simp)
    (by simp) List.Pairwise.nil hr
  match r, hlen, hall, hpw, hg with
  | [p1, p2], _, hall, hpw, hg =>
    obtain ⟨a1, a2, a3⟩ := hall p1 (by simp)
    obtain ⟨b1, b2, b3⟩ := hall p2 (by simp)
    have hp12 : 300 ≤ Game.getDistance M p2.1 p2.2 p1.1 p1.2 := by
      rw [List.pairwise_cons] at hpw
      exact hpw.1 p2 (by simp)
    refine ⟨p1.1, p1.2, p2.1, p2.2, hg.symm, a1, b1, ?_, hp12, a2, a3, b2, b3⟩
    rw [Game.getDistance_comm]
    exact hp12

/-- One pass of the `while` loop of `generateLevel` that accepts the position drawn. -/
theorem Game.generateLevelLoop_accept (M : JSMath α) (g : Game α) (r1 r2 : α)
    (rest sp : List (α × α)) (h2 : sp.length < 2)
    (hfar : 300 ≤ Game.getDistance M (r1 * (CONFIG.CANVAS.WIDTH - CONFIG.ENEMY.BASIC.SIZE))
      (r2 * (CONFIG.CANVAS.HEIGHT - CONFIG.ENEMY.BASIC.SIZE)) g.player.x g.player.y)
    (hsp : ∀ pos ∈ sp,
      300 ≤ Game.getDistance M (r1 * (CONFIG.CANVAS.WIDTH - CONFIG.ENEMY.BASIC.SIZE))
        (r2 * (CONFIG.CANVAS.HEIGHT - CONFIG.ENEMY.BASIC.SIZE)) pos.1 pos.2) :
    Game.generateLevelLoop M g ((r1, r2) :: rest) sp =
      Game.generateLevelLoop M g rest
        (sp ++ [(r1 * (CONFIG.CANVAS.WIDTH - CONFIG.ENEMY.BASIC.SIZE),
          r2 * (CONFIG.CANVAS.HEIGHT - CONFIG.ENEMY.BASIC.SIZE))]) := by
  rw [Game.generateLevelLoop, if_pos h2]
  dsimp only
  rw [if_pos]
  rw [Game.spawnCheck_eq_true]
  refine ⟨?_, hsp⟩
  simpa [Game.isCloseToPlayer] using hfar

/-- One pass of the `while` loop of `generateLevel` that finds the position drawn too close to
the player. -/
theorem Game.generateLevelLoop_reject (M : JSMath α) (g : Game α) (r1 r2 : α)
    (rest sp : List (α × α)) (h2 : sp.length < 2)
    (hclose : Game.getDistance M (r1 * (CONFIG.CANVAS.WIDTH - CONFIG.ENEMY.BASIC.SIZE))
      (r2 * (CONFIG.CANVAS.HEIGHT - CONFIG.ENEMY.BASIC.SIZE)) g.player.x g.player.y < 300) :
    Game.generateLevelLoop M g ((r1, r2) :: rest) sp = Game.generateLevelLoop M g rest sp := by
  rw [Game.generateLevelLoop, if_pos h2]
  dsimp only
  rw [if_neg]
  rw [Game.spawnCheck_eq_true]
  intro h
  have : ¬ Game.getDistance M (r1 * (CONFIG.CANVAS.WIDTH - CONFIG.ENEMY.BASIC.SIZE))
      (r2 * (CONFIG.CANVAS.HEIGHT - CONFIG.ENEMY.BASIC.SIZE)) g.player.x g.player.y <
      CONFIG.ENEMY.BASIC.SPAWN_DISTANCE := by
    simpa [Game.isCloseToPlayer] using h.1
  exact this hclose

/-- The `while` loop of `generateLevel` ends once it has two positions. -/
theorem Game.generateLevelLoop_done (M : JSMath α) (g : Game α) (draws sp : List (α × α))
    (h2 : ¬ sp.length < 2) : Game.generateLevelLoop M g draws sp = some sp := by
  cases draws with
  | nil => rw [Game.generateLevelLoop, if_neg h2]
  | cons d rest => rw [Game.generateLevelLoop, if_neg h2]

/-- C21, on the draws (0, 0), (1/2, 1/2), (3/4, 0) for the session as constructed, whose player
is at (450, 300): the first draw gives the position (0, 0), which is accepted; the second gives
(434, 284), which is closer than 300 to the player and is dropped; the third gives (651, 0),
which is accepted, and `generateLevel` comes back with enemies at (0, 0) and (651, 0). -/
theorem C21_spawn_placement_witness :
    Game.generateLevel realMath [(0, 0), (1 / 2, 1 / 2), (3 / 4, 0)] (Game.new : Game ℝ) =
      some { (Game.new : Game ℝ) with enemies := [Enemy.new 0 0, Enemy.new 651 0] } ∧
    ∃ x1 y1 x2 y2 : ℝ,
      ({ (Game.new : Game ℝ) with enemies := [Enemy.new 0 0, Enemy.new 651 0] } : Game ℝ) =
        { (Game.new : Game ℝ) with
          enemies := (Game.new : Game ℝ).enemies ++ [Enemy.new x1 y1, Enemy.new x2 y2] } ∧
      300 ≤ Game.getDistance realMath x1 y1 (Game.new : Game ℝ).player.x
        (Game.new : Game ℝ).player.y ∧
      300 ≤ Game.getDistance realMath x2 y2 (Game.new : Game ℝ).player.x
        (Game.new : Game ℝ).player.y ∧
      300 ≤ Game.getDistance realMath x1 y1 x2 y2 ∧
      300 ≤ Game.getDistance realMath x2 y2 x1 y1 ∧
      (0 ≤ x1 ∧ x1 ≤ 868) ∧ (0 ≤ y1 ∧ y1 ≤ 568) ∧
      (0 ≤ x2 ∧ x2 ≤ 868) ∧ (0 ≤ y2 ∧ y2 ≤ 568) := by
  have hpx : (Game.new : Game ℝ).player.x = 450 := by norm_num [Game.new, Player.new]
  have hpy : (Game.new : Game ℝ).player.y = 300 := by norm_num [Game.new, Player.new]
  have heval : Game.generateLevel realMath [(0, 0), (1 / 2, 1 / 2), (3 / 4, 0)]
      (Game.new : Game ℝ) =
        some { (Game.new : Game ℝ) with enemies := [Enemy.new 0 0, Enemy.new 651 0] } := by
    unfold Game.generateLevel
    rw [Game.generateLevelLoop_accept realMath _ 0 0 _ [] (by simp)
        (by
          rw [hpx, hpy]
          unfold Game.getDistance realMath
          dsimp only
          rw [Real.le_sqrt' (by norm_num)]
          norm_num)
        (by simp),
      Game.generateLevelLoop_reject realMath _ (1 / 2) (1 / 2) _ _ (by simp)
        (by
          rw [hpx, hpy]
          unfold Game.getDistance realMath
          dsimp only
          rw [Real.sqrt_lt' (by norm_num)]
          norm_num),
      Game.generateLevelLoop_accept realMath _ (3 / 4) 0 _ _ (by simp)
        (by
          rw [hpx, hpy]
          unfold Game.getDistance realMath
          dsimp only
          rw [Real.le_sqrt' (by norm_num)]
          norm_num)
        (by
          intro pos hpos
          simp only [List.nil_append, List.mem_singleton] at hpos
          subst hpos
          unfold Game.getDistance realMath
          dsimp only
          rw [Real.le_sqrt' (by norm_num)]
          norm_num),
      Game.generateLevelLoop_done realMath _ _ _ (by simp)]
    simp only [Option.map_some', List.nil_append, List.map_cons, List.map_nil,
      List.singleton_append]
    norm_num [Game.new]
  refine ⟨heval, ?_⟩
  exact C21_spawn_placement realMath [(0, 0), (1 / 2, 1 / 2), (3 / 4, 0)] Game.new _
    (by
      intro d hd
      simp only [List.mem_cons, List.mem_singleton, List.not_mem_nil, or_false] at hd
      rcases hd with rfl | rfl | rfl <;> norm_num)
    heval

/-! ### C26: pickup magnetism -/

/-- The position of a pickup after the pull, over any `Math`. -/
theorem Game.pulledCrystal_pos (M : JSMath α) (dt : α) (c : Crystal α) (g : Game α) :
    (M.sqrt ((g.player.x - c.x) ^ 2 + (g.player.y - c.y) ^ 2) < 150 →
      (Game.pulledCrystal M dt c g).x = c.x + (g.player.x - c.x) *
        ((150 - M.sqrt ((g.player.x - c.x) ^ 2 + (g.player.y - c.y) ^ 2)) / 150) * (1 / 10) ∧
      (Game.pulledCrystal M dt c g).y = c.y + (g.player.y - c.y) *
        ((150 - M.sqrt ((g.player.x - c.x) ^ 2 + (g.player.y - c.y) ^ 2)) / 150) * (1 / 10)) ∧
    (¬ M.sqrt ((g.player.x - c.x) ^ 2 + (g.player.y - c.y) ^ 2) < 150 →
      (Game.pulledCrystal M dt c g).x = c.x ∧ (Game.pulledCrystal M dt c g).y = c.y) := by
  have hu : (c.update M dt).x = c.x ∧ (c.update M dt).y = c.y := by
    unfold Crystal.update
    dsimp only
    split_ifs <;> simp
  obtain ⟨u1, u2⟩ := hu
  unfold Game.pulledCrystal
  dsimp only
  rw [u1, u2]
  constructor
  · intro hd
    rw [if_pos hd]
    exact ⟨rfl, rfl⟩
  · intro hd
    rw [if_neg hd]
    exact ⟨u1, u2⟩

/-- C26. Pickup magnetism is a contraction towards the player. Write `d` for the distance
between a pickup and the player's position, over the reals. If `0 < d < 150`, the pull of one
tick moves the pickup along the straight line to the player by the fraction
`0.1 * (150 - d) / 150` of the gap; its new distance is `d * (1 - 0.1 * (150 - d) / 150)`, which
is strictly less than `d` and at least `0.9 * d`. If `d ≥ 150`, the pickup is not moved. -/
theorem C26_magnetism_is_a_contraction (dt : ℝ) (c : Crystal ℝ) (g : Game ℝ) :
    (0 < Real.sqrt ((g.player.x - c.x) ^ 2 + (g.player.y - c.y) ^ 2) →
      Real.sqrt ((g.player.x - c.x) ^ 2 + (g.player.y - c.y) ^ 2) < 150 →
      (Game.pulledCrystal realMath dt c g).x = c.x + (g.player.x - c.x) *
        (1 / 10 * ((150 - Real.sqrt ((g.player.x - c.x) ^ 2 + (g.player.y - c.y) ^ 2)) / 150)) ∧
      (Game.pulledCrystal realMath dt c g).y = c.y + (g.player.y - c.y) *
        (1 / 10 * ((150 - Real.sqrt ((g.player.x - c.x) ^ 2 + (g.player.y - c.y) ^ 2)) / 150)) ∧
      Real.sqrt ((g.player.x - (Game.pulledCrystal realMath dt c g).x) ^ 2 +
          (g.player.y - (Game.pulledCrystal realMath dt c g).y) ^ 2) =
        Real.sqrt ((g.player.x - c.x) ^ 2 + (g.player.y - c.y) ^ 2) *
          (1 - 1 / 10 *
            ((150 - Real.sqrt ((g.player.x - c.x) ^ 2 + (g.player.y - c.y) ^ 2)) / 150)) ∧
      Real.sqrt ((g.player.x - (Game.pulledCrystal realMath dt c g).x) ^ 2 +
          (g.player.y - (Game.pulledCrystal realMath dt c g).y) ^ 2) <
        Real.sqrt ((g.player.x - c.x) ^ 2 + (g.player.y - c.y) ^ 2) ∧
      9 / 10 * Real.sqrt ((g.player.x - c.x) ^ 2 + (g.player.y - c.y) ^ 2) ≤
        Real.sqrt ((g.player.x - (Game.pulledCrystal realMath dt c g).x) ^ 2 +
          (g.player.y - (Game.pulledCrystal realMath dt c g).y) ^ 2)) ∧
    (150 ≤ Real.sqrt ((g.player.x - c.x) ^ 2 + (g.player.y - c.y) ^ 2) →
      (Game.pulledCrystal realMath dt c g).x = c.x ∧
      (Game.pulledCrystal realMath dt c g).y = c.y) := by
  obtain ⟨hnear, hfar⟩ := Game.pulledCrystal_pos realMath dt c g
  have hsq : realMath.sqrt = Real.sqrt := rfl
  rw [hsq] at hnear hfar
  constructor
  · intro h0 h150
    obtain ⟨hx, hy⟩ := hnear h150
    generalize hd : Real.sqrt ((g.player.x - c.x) ^ 2 + (g.player.y - c.y) ^ 2) = d at *
    have ht0 : 0 ≤ 1 - 1 / 10 * ((150 - d) / 150) := by
      have : (150 - d) / 150 ≤ 1 := by rw [div_le_one (by norm_num)]; linarith
      linarith
    have ht1 : 0 < 1 / 10 * ((150 - d) / 150) := by
      apply mul_pos (by norm_num)
      apply div_pos _ (by norm_num)
      linarith
    have hnew : Real.sqrt ((g.player.x - (Game.pulledCrystal realMath dt c g).x) ^ 2 +
        (g.player.y - (Game.pulledCrystal realMath dt c g).y) ^ 2) =
        d * (1 - 1 / 10 * ((150 - d) / 150)) := by
      rw [hx, hy]
      have e : (g.player.x - (c.x + (g.player.x - c.x) * ((150 - d) / 150) * (1 / 10))) ^ 2 +
          (g.player.y - (c.y + (g.player.y - c.y) * ((150 - d) / 150) * (1 / 10))) ^ 2 =
          ((g.player.x - c.x) ^ 2 + (g.player.y - c.y) ^ 2) *
            (1 - 1 / 10 * ((150 - d) / 150)) ^ 2 := by ring
      rw [e, Real.sqrt_mul (by positivity), Real.sqrt_sq ht0, hd]
    refine ⟨by rw [hx]; ring, by rw [hy]; ring, hnew, ?_, ?_⟩
    · rw [hnew]
      nlinarith
    · rw [hnew]
      have : (150 - d) / 150 ≤ 1 := by rw [div_le_one (by norm_num)]; linarith
      nlinarith
  · intro h150
    exact hfar (not_lt.mpr h150)

/-- C26, for a pickup at (480, 340) and the player of the session as constructed, at (450, 300):
the distance is 50, the pull moves the pickup by 1/15 of the gap to (478, 340 - 8/3), and the new
distance is 50 * (1 - 1/15) = 140/3. -/
theorem C26_magnetism_is_a_contraction_witness :
    Real.sqrt (((Game.new : Game ℝ).player.x - (Crystal.new 480 340 : Crystal ℝ).x) ^ 2 +
      ((Game.new : Game ℝ).player.y - (Crystal.new 480 340 : Crystal ℝ).y) ^ 2) = 50 ∧
    (Game.pulledCrystal realMath (1000 / 60) (Crystal.new 480 340) (Game.new : Game ℝ)).x =
      478 ∧
    (Game.pulledCrystal realMath (1000 / 60) (Crystal.new 480 340) (Game.new : Game ℝ)).y =
      340 - 8 / 3 ∧
    Real.sqrt (((Game.new : Game ℝ).player.x -
        (Game.pulledCrystal realMath (1000 / 60) (Crystal.new 480 340)
          (Game.new : Game ℝ)).x) ^ 2 +
      ((Game.new : Game ℝ).player.y -
        (Game.pulledCrystal realMath (1000 / 60) (Crystal.new 480 340)
          (Game.new : Game ℝ)).y) ^ 2) = 140 / 3 := by
  have hd : Real.sqrt (((Game.new : Game ℝ).player.x - (Crystal.new 480 340 : Crystal ℝ).x) ^ 2 +
      ((Game.new : Game ℝ).player.y - (Crystal.new 480 340 : Crystal ℝ).y) ^ 2) = 50 := by
    rw [Real.sqrt_eq_iff_mul_self_eq (by positivity) (by norm_num)]
    norm_num [Game.new, Player.new, Crystal.new]
  have h := (C26_magnetism_is_a_contraction (1000 / 60) (Crystal.new 480 340)
    (Game.new : Game ℝ)).1 (by rw [hd]; norm_num) (by rw [hd]; norm_num)
  rw [hd] at h
  obtain ⟨hx, hy, hn, -, -⟩ := h
  refine ⟨hd, ?_, ?_, ?_⟩
  · rw [hx]; norm_num [Game.new, Player.new, Crystal.new]
  · rw [hy]; norm_num [Game.new, Player.new, Crystal.new]
  · rw [hn]; norm_num

/-! ### C30: knockback and invincibility -/

/-- The callback of the player-enemy pass for an invincible player that overlaps an enemy that
is not stunned: `takeDamage` returns at once and the knockback is added all the same. -/
theorem Game.touchEnemy_invincible (M : JSMath α) (enemy : Enemy α) (index : Nat) (g : Game α)
    (hinv : g.player.isInvincible = true) (hstun : enemy.isStunned = false)
    (hcol : Game.checkCollision g.player.box enemy.box = true) :
    Game.touchEnemy M enemy index g =
      Completion.normal
        { g with
          player :=
            { g.player with
              velocityX := g.player.velocityX +
                M.cos (M.atan2 (g.player.y - enemy.y) (g.player.x - enemy.x)) * 10
              velocityY := g.player.velocityY +
                M.sin (M.atan2 (g.player.y - enemy.y) (g.player.x - enemy.x)) * 10 }
          gameState := if g.player.health ≤ 0 then GameState.GAME_OVER else g.gameState } := by
  have ht : g.player.takeDamage enemy.damage = g.player := by
    simp [Player.takeDamage, hinv]
  rw [Game.touchEnemy_eq, if_pos (by simp [hstun, hcol]), ht]

/-- Over the reals, the cosine and sine of `atan2 dy dx` are `dx` and `dy` over the length of
`(dx, dy)`, for `(dx, dy)` other than `(0, 0)`. -/
theorem realMath_unit_direction (dx dy : ℝ) (h : dx ≠ 0 ∨ dy ≠ 0) :
    realMath.cos (realMath.atan2 dy dx) = dx / Real.sqrt (dx ^ 2 + dy ^ 2) ∧
    realMath.sin (realMath.atan2 dy dx) = dy / Real.sqrt (dx ^ 2 + dy ^ 2) ∧
    0 < Real.sqrt (dx ^ 2 + dy ^ 2) := by
  have hz : (⟨dx, dy⟩ : ℂ) ≠ 0 := by
    intro hz
    have h1 := congrArg Complex.re hz
    have h2 := congrArg Complex.im hz
    simp at h1 h2
    rcases h with h | h
    · exact h h1
    · exact h h2
  have habs : Complex.abs (⟨dx, dy⟩ : ℂ) = Real.sqrt (dx ^ 2 + dy ^ 2) := by
    rw [Complex.abs_apply, Complex.normSq_mk]
    congr 1
    ring
  refine ⟨?_, ?_, ?_⟩
  · show Real.cos (Complex.arg ⟨dx, dy⟩) = _
    rw [Complex.cos_arg hz, habs]
  · show Real.sin (Complex.arg ⟨dx, dy⟩) = _
    rw [Complex.sin_arg, habs]
  · rw [← habs]
    exact AbsoluteValue.pos Complex.abs hz

/-- The knockback of the callback over the reals. -/
theorem Game.touchEnemy_knockback (enemy : Enemy ℝ) (index : Nat) (g : Game ℝ)
    (hinv : g.player.isInvincible = true) (hstun : enemy.isStunned = false)
    (hcol : Game.checkCollision g.player.box enemy.box = true)
    (hpos : g.player.x - enemy.x ≠ 0 ∨ g.player.y - enemy.y ≠ 0) :
    (Game.touchEnemy realMath enemy index g).threw = false ∧
    (Game.touchEnemy realMath enemy index g).state.player.health = g.player.health ∧
    (Game.touchEnemy realMath enemy index g).state.player.isInvincible = true ∧
    (Game.touchEnemy realMath enemy index g).state.player.box = g.player.box ∧
    (Game.touchEnemy realMath enemy index g).state.enemies = g.enemies ∧
    (Game.touchEnemy realMath enemy index g).state.player.velocityX - g.player.velocityX =
      10 * ((g.player.x - enemy.x) /
        Real.sqrt ((g.player.x - enemy.x) ^ 2 + (g.player.y - enemy.y) ^ 2)) ∧
    (Game.touchEnemy realMath enemy index g).state.player.velocityY - g.player.velocityY =
      10 * ((g.player.y - enemy.y) /
        Real.sqrt ((g.player.x - enemy.x) ^ 2 + (g.player.y - enemy.y) ^ 2)) ∧
    ((Game.touchEnemy realMath enemy index g).state.player.velocityX - g.player.velocityX) ^ 2 +
      ((Game.touchEnemy realMath enemy index g).state.player.velocityY - g.player.velocityY) ^ 2
      = 10 ^ 2 := by
  obtain ⟨hc, hs, hd⟩ := realMath_unit_direction _ _ hpos
  rw [Game.touchEnemy_invincible realMath enemy index g hinv hstun hcol]
  simp only [Completion.state, Completion.threw, hc, hs]
  have hsq : Real.sqrt ((g.player.x - enemy.x) ^ 2 + (g.player.y - enemy.y) ^ 2) ^ 2 =
      (g.player.x - enemy.x) ^ 2 + (g.player.y - enemy.y) ^ 2 := Real.sq_sqrt (by positivity)
  have hunit : ((g.player.x - enemy.x) /
        Real.sqrt ((g.player.x - enemy.x) ^ 2 + (g.player.y - enemy.y) ^ 2)) ^ 2 +
      ((g.player.y - enemy.y) /
        Real.sqrt ((g.player.x - enemy.x) ^ 2 + (g.player.y - enemy.y) ^ 2)) ^ 2 = 1 := by
    rw [div_pow, div_pow, ← add_div, hsq, div_self]
    rw [← hsq]
    exact pow_ne_zero 2 (ne_of_gt hd)
  refine ⟨trivial, trivial, hinv, rfl, trivial, by ring, by ring, ?_⟩
  linear_combination 100 * hunit

/-- A loop whose callback never raises and leaves the array alone is a fold. -/
theorem forEachLoop_fold {σ β : Type} (arr : σ → List β) (f : β → Nat → σ → Completion σ)
    (step : β → σ → σ) (hf : ∀ x k s, f x k s = Completion.normal (step x s))
    (harr : ∀ x s, arr (step x s) = arr s) :
    ∀ (n k : Nat) (s : σ),
      forEachLoop arr f n k s =
        Completion.normal ((((arr s).drop k).take n).foldl (fun s x => step x s) s) := by
  intro n
  induction n with
  | zero => intro k s; simp [forEachLoop]
  | succ n ih =>
    intro k s
    cases hx : (arr s)[k]? with
    | none =>
      rw [forEachLoop_skip arr f n k s hx, ih]
      have hk : (arr s).length ≤ k := List.getElem?_eq_none_iff.mp hx
      rw [List.drop_eq_nil_of_le hk, List.drop_eq_nil_of_le (by omega)]
      simp
    | some x =>
      rw [forEachLoop_normal arr f n k s (step x s) x hx (hf x k s), ih, harr]
      have hk : k < (arr s).length := by
        rcases List.getElem?_eq_some_iff.mp hx with ⟨h, -⟩
        exact h
      have hxe : (arr s)[k] = x := by
        rcases List.getElem?_eq_some_iff.mp hx with ⟨_, h⟩
        exact h
      rw [List.drop_eq_getElem_cons hk, hxe, List.take_succ_cons, List.foldl_cons]

theorem forEach_fold {σ β : Type} (arr : σ → List β) (f : β → Nat → σ → Completion σ)
    (step : β → σ → σ) (hf : ∀ x k s, f x k s = Completion.normal (step x s))
    (harr : ∀ x s, arr (step x s) = arr s) (s : σ) :
    forEach arr f s = Completion.normal ((arr s).foldl (fun s x => step x s) s) := by
  unfold forEach
  rw [forEachLoop_fold arr f step hf harr]
  simp

/-- The callback of the player-enemy pass never raises, does not read its index and leaves
`enemies` alone. -/
theorem Game.touchEnemy_step (M : JSMath α) (enemy : Enemy α) (index : Nat) (g : Game α) :
    Game.touchEnemy M enemy index g =
      Completion.normal (Game.touchEnemy M enemy 0 g).state ∧
    (Game.touchEnemy M enemy 0 g).state.enemies = g.enemies := by
  rw [Game.touchEnemy_eq, Game.touchEnemy_eq]
  split_ifs <;> exact ⟨rfl, rfl⟩

/-- The player-enemy pass as a fold over `enemies`. -/
theorem Game.touchPass_fold (M : JSMath α) (g : Game α) :
    Game.touchPass M g =
      Completion.normal (g.enemies.foldl (fun s x => (Game.touchEnemy M x 0 s).state) g) := by
  unfold Game.touchPass
  exact forEach_fold Game.enemies (Game.touchEnemy M) (fun x s => (Game.touchEnemy M x 0 s).state)
    (fun x k s => (Game.touchEnemy_step M x k s).1) (fun x s => (Game.touchEnemy_step M x 0 s).2) g

/-- Enemies that are stunned or do not overlap the player leave the session as it is. -/
theorem Game.touchFold_idle (M : JSMath α) (l : List (Enemy α)) (g : Game α)
    (hl : ∀ x ∈ l, (!x.isStunned && Game.checkCollision g.player.box x.box) = false) :
    l.foldl (fun s x => (Game.touchEnemy M x 0 s).state) g = g := by
  induction l with
  | nil => rfl
  | cons x l ih =>
    have hx := hl x (List.mem_cons_self _ _)
    rw [List.foldl_cons, Game.touchEnemy_eq, if_neg (by rw [hx]; simp)]
    exact ih (fun y hy => hl y (List.mem_cons_of_mem _ hy))

/-- The player-enemy pass of a session whose invincible player is touched by exactly one enemy
is the callback of that enemy. -/
theorem Game.touchPass_single (M : JSMath α) (g : Game α) (l1 l2 : List (Enemy α))
    (e : Enemy α) (hene : g.enemies = l1 ++ e :: l2)
    (hinv : g.player.isInvincible = true) (hstun : e.isStunned = false)
    (hcol : Game.checkCollision g.player.box e.box = true)
    (hrest : ∀ x ∈ l1 ++ l2,
      (!x.isStunned && Game.checkCollision g.player.box x.box) = false) :
    Game.touchPass M g = Game.touchEnemy M e 0 g := by
  rw [Game.touchPass_fold, hene, List.foldl_append, List.foldl_cons,
    Game.touchFold_idle M l1 g (fun x hx => hrest x (List.mem_append_left _ hx))]
  have hbox : (Game.touchEnemy M e 0 g).state.player.box = g.player.box := by
    rw [Game.touchEnemy_invincible M e 0 g hinv hstun hcol]
    rfl
  rw [Game.touchFold_idle M l2 _ (fun x hx => by
    rw [hbox]; exact hrest x (List.mem_append_right _ hx))]
  exact ((Game.touchEnemy_step M e 0 g).1).symm

/-- A tick of a running session is the passes before the player-enemy pass, then that pass. -/
theorem Game.update_eq_beforeTouch (M : JSMath α) (env : Env α) (dt : α) (g : Game α)
    (hplay : g.gameState = GameState.PLAYING) :
    Game.update M env dt g = (Game.beforeTouch M env dt g).andThen (Game.touchPass M) := by
  rw [Game.update_eq_passes, if_neg (by rw [hplay]; exact fun h => h rfl)]
  unfold Game.beforeTouch
  cases Game.pulsePass M dt (g.afterPlayer dt) with
  | throws s => rfl
  | normal s =>
    simp only [Completion.andThen]
    cases Game.enemyPass M env dt s with
    | throws s => rfl
    | normal s => rfl

/-- When the passes before the player-enemy pass end normally, the player is as its own update
left it. -/
theorem Game.beforeTouch_player (M : JSMath α) (env : Env α) (dt : α) (g g3 : Game α)
    (h : Game.beforeTouch M env dt g = Completion.normal g3) :
    g3.player = g.player.update dt g.keys := by
  unfold Game.beforeTouch at h
  obtain ⟨ps, hps⟩ := Game.pulsePass_normal M dt (g.afterPlayer dt)
  rw [hps] at h
  simp only [Completion.andThen] at h
  have h2 := Game.enemyPass_meets M env dt { g.afterPlayer dt with echoPulses := ps }
  cases he : Game.enemyPass M env dt { g.afterPlayer dt with echoPulses := ps } with
  | throws s => rw [he] at h; simp [Completion.andThen] at h
  | normal s =>
    rw [he] at h h2
    obtain ⟨es, hs, -⟩ := h2
    simp only [Completion.andThen] at h
    have h3 := Game.crystalPass_meets M dt s
    rw [h] at h3
    obtain ⟨cs, hg3, -⟩ := h3
    rw [hg3, hs]
    rfl

/-! ### C22: the invincibility window -/

theorem Player.firstHit_eq :
    Player.firstHit =
      { (Player.new 450 300 : Player ℚ) with
        health := 4
        isInvincible := true
        timers := [⟨1000, TimerAction.clearInvincible⟩, ⟨800, TimerAction.clearInvincible⟩] } := by
  norm_num [Player.firstHit, Player.takeDamage, Player.startInvincibility, Player.new]

theorem Player.firstHit_elapse_900 :
    Player.firstHit.elapse 900 =
      { (Player.new 450 300 : Player ℚ) with
        health := 4
        isInvincible := false
        timers := [⟨100, TimerAction.clearInvincible⟩] } := by
  rw [Player.firstHit_eq]
  norm_num [Player.elapse, Player.runTimer, Player.new]

theorem Player.secondHit_eq :
    Player.secondHit =
      { (Player.new 450 300 : Player ℚ) with
        health := 3
        isInvincible := true
        timers := [⟨100, TimerAction.clearInvincible⟩, ⟨1000, TimerAction.clearInvincible⟩,
          ⟨800, TimerAction.clearInvincible⟩] } := by
  rw [Player.secondHit, Player.firstHit_elapse_900]
  norm_num [Player.takeDamage, Player.startInvincibility, Player.new]

/-- C22. The window after a hit can be cut short by a callback left over from the hit before.
`takeDamage` registers two callbacks that lower `isInvincible`, one after 1000 ms (through
`startInvincibility(1000)`) and one after `INVINCIBILITY_DURATION = 800` ms, and none is ever
cancelled. After a first hit the player is invincible for 800 ms. A second hit 900 ms after the
first lowers the health to 3 and raises the flag, and 100 ms later the callback that the first
hit registered for 1000 ms lowers it: the player is invincible for 100 ms, not 800. -/
theorem C22_stale_timer_cuts_the_window :
    Player.firstHit.health = 4 ∧ Player.firstHit.isInvincible = true ∧
    Player.firstHit.timers =
      [⟨1000, TimerAction.clearInvincible⟩, ⟨800, TimerAction.clearInvincible⟩] ∧
    (∀ d : ℚ, d < 800 → (Player.firstHit.elapse d).isInvincible = true) ∧
    (Player.firstHit.elapse 800).isInvincible = false ∧
    (Player.firstHit.elapse 900).isInvincible = false ∧
    (Player.firstHit.elapse 900).timers = [⟨100, TimerAction.clearInvincible⟩] ∧
    Player.secondHit.health = 3 ∧ Player.secondHit.isInvincible = true ∧
    (∀ d : ℚ, d < 100 → (Player.secondHit.elapse d).isInvincible = true) ∧
    (Player.secondHit.elapse 100).isInvincible = false := by
  refine ⟨?_, ?_, ?_, ?_, ?_, ?_, ?_, ?_, ?_, ?_, ?_⟩
  · rw [Player.firstHit_eq]
  · rw [Player.firstHit_eq]
  · rw [Player.firstHit_eq]
  · intro d hd
    rw [Player.firstHit_eq]
    have h1 : ¬ (1000 : ℚ) ≤ d := by linarith
    have h2 : ¬ (800 : ℚ) ≤ d := by linarith
    simp [Player.elapse, h1, h2]
  · rw [Player.firstHit_eq]
    norm_num [Player.elapse, Player.runTimer]
  · rw [Player.firstHit_elapse_900]
  · rw [Player.firstHit_elapse_900]
  · rw [Player.secondHit_eq]
  · rw [Player.secondHit_eq]
  · intro d hd
    rw [Player.secondHit_eq]
    have h1 : ¬ (1000 : ℚ) ≤ d := by linarith
    have h2 : ¬ (800 : ℚ) ≤ d := by linarith
    have h3 : ¬ (100 : ℚ) ≤ d := by linarith
    simp [Player.elapse, h1, h2, h3]
  · rw [Player.secondHit_eq]
    norm_num [Player.elapse, Player.runTimer]

/-- The passes before the player-enemy pass in a session with two enemies, no projectile and no
pickup: the player and the two enemies are updated, and nothing raises. -/
theorem Game.beforeTouch_two_enemies (M : JSMath α) (env : Env α) (dt : α) (g : Game α)
    (e1 e2 : Enemy α) (hene : g.enemies = [e1, e2]) (hpul : g.echoPulses = [])
    (hcr : g.crystals = []) :
    Game.beforeTouch M env dt g =
      Completion.normal
        { g.afterPlayer dt with
          enemies := [e1.update M env.now dt (g.player.update dt g.keys),
            e2.update M env.now dt (g.player.update dt g.keys)] } := by
  simp only [Game.beforeTouch, Game.pulsePass, Game.enemyPass, Game.crystalPass, forEach,
    forEachLoop, Game.afterPlayer, hene, hpul, hcr, Game.updateEnemy, Completion.andThen,
    List.length_nil, List.length_cons, List.getElem?_cons_zero, List.getElem?_cons_succ,
    List.set_cons_zero, List.set_cons_succ, List.length_singleton, Nat.zero_add]

/-- A tick of a running session that reaches the player-enemy pass, for an invincible player
that exactly one enemy touches: the knockback of that enemy is all the pass does. Here `s` is
the session the earlier passes leave and `p` the player as updated in the tick. -/
theorem Game.update_knockback (env : Env ℝ) (dt : ℝ) (g s : Game ℝ) (l1 l2 : List (Enemy ℝ))
    (e : Enemy ℝ) (p : Player ℝ) (hplay : g.gameState = GameState.PLAYING)
    (hinv : g.player.isInvincible = true) (hp : p = g.player.update dt g.keys)
    (hs : Game.beforeTouch realMath env dt g = Completion.normal s)
    (hene : s.enemies = l1 ++ e :: l2) (hstun : e.isStunned = false)
    (hcol : Game.checkCollision p.box e.box = true)
    (hpos : p.x - e.x ≠ 0 ∨ p.y - e.y ≠ 0)
    (hrest : ∀ x ∈ l1 ++ l2, (!x.isStunned && Game.checkCollision p.box x.box) = false) :
    (Game.update realMath env dt g).threw = false ∧
    (Game.update realMath env dt g).state.player.health = g.player.health ∧
    (Game.update realMath env dt g).state.player.isInvincible = true ∧
    (Game.update realMath env dt g).state.player.box = p.box ∧
    (Game.update realMath env dt g).state.enemies = s.enemies ∧
    (Game.update realMath env dt g).state.player.velocityX - p.velocityX =
      10 * ((p.x - e.x) / Real.sqrt ((p.x - e.x) ^ 2 + (p.y - e.y) ^ 2)) ∧
    (Game.update realMath env dt g).state.player.velocityY - p.velocityY =
      10 * ((p.y - e.y) / Real.sqrt ((p.x - e.x) ^ 2 + (p.y - e.y) ^ 2)) ∧
    ((Game.update realMath env dt g).state.player.velocityX - p.velocityX) ^ 2 +
      ((Game.update realMath env dt g).state.player.velocityY - p.velocityY) ^ 2 =
      10 ^ 2 := by
  obtain ⟨ph, pi, -⟩ := Player.update_combat g.player dt g.keys
  have hpl : s.player = p := by
    rw [hp]; exact Game.beforeTouch_player realMath env dt g s hs
  have hinv2 : s.player.isInvincible = true := by
    rw [hpl, hp, pi]; exact hinv
  rw [Game.update_eq_beforeTouch realMath env dt g hplay, hs]
  simp only [Completion.andThen]
  rw [Game.touchPass_single realMath s l1 l2 e hene hinv2 hstun (by rw [hpl]; exact hcol)
    (by rw [hpl]; exact hrest)]
  obtain ⟨k1, k2, k3, k4, k5, k6, k7, k8⟩ := Game.touchEnemy_knockback e 0 s hinv2 hstun
    (by rw [hpl]; exact hcol) (by rw [hpl]; exact hpos)
  rw [hpl] at k2 k4 k6 k7 k8
  refine ⟨k1, ?_, k3, k4, k5, k6, k7, k8⟩
  rw [k2, hp, ph]

/-- In a tick of `Game.underAttack` or `Game.crossfire`, whose players and enemies are the
same: the player falls to (450, 300.8); the first enemy, not stunned, still overlaps the player,
from its right; the second enemy is far from the player and within reach of a projectile at
(90, 100). -/
theorem Game.underAttack_positions :
    (Game.underAttack.player.update (1000 / 60) []).box = ⟨450, 300 + 8 / 10, 32, 64⟩ ∧
    (Enemy.update realMath 0 (Enemy.new 460 310) (1000 / 60)
      (Game.underAttack.player.update (1000 / 60) [])).isStunned = false ∧
    Game.checkCollision (Game.underAttack.player.update (1000 / 60) []).box
      (Enemy.update realMath 0 (Enemy.new 460 310) (1000 / 60)
        (Game.underAttack.player.update (1000 / 60) [])).box = true ∧
    (Game.underAttack.player.update (1000 / 60) []).x -
      (Enemy.update realMath 0 (Enemy.new 460 310) (1000 / 60)
        (Game.underAttack.player.update (1000 / 60) [])).x ≠ 0 ∧
    Game.checkCollision (Game.underAttack.player.update (1000 / 60) []).box
      (Enemy.update realMath 0 (Enemy.new 100 100) (1000 / 60)
        (Game.underAttack.player.update (1000 / 60) [])).box = false ∧
    Game.checkCollision ⟨90, 100, 32, 32⟩
      (Enemy.update realMath 0 (Enemy.new 460 310) (1000 / 60)
        (Game.underAttack.player.update (1000 / 60) [])).box = false ∧
    Game.checkCollision ⟨90, 100, 32, 32⟩
      (Enemy.update realMath 0 (Enemy.new 100 100) (1000 / 60)
        (Game.underAttack.player.update (1000 / 60) [])).box = true := by
  have hbox := Player.update_fall Game.underAttack.player (1000 / 60) rfl rfl rfl rfl rfl rfl
  obtain ⟨es, -, ew, eh, vx, vy, ⟨vx1, vx2⟩, ⟨vy1, vy2⟩, ex, ey⟩ := Enemy.update_seeking realMath
    realMath_unitTrig 0 (Enemy.new 460 310 : Enemy ℝ) (1000 / 60)
    (Game.underAttack.player.update (1000 / 60) []) rfl (by norm_num [Enemy.new])
  obtain ⟨-, -, fw, fh, wx, wy, ⟨wx1, wx2⟩, ⟨wy1, wy2⟩, fx, fy⟩ := Enemy.update_seeking realMath
    realMath_unitTrig 0 (Enemy.new 100 100 : Enemy ℝ) (1000 / 60)
    (Game.underAttack.player.update (1000 / 60) []) rfl (by norm_num [Enemy.new])
  have hsp : ∀ x y : ℝ, (Enemy.new x y : Enemy ℝ).speed = 3 / 2 := fun _ _ => rfl
  have hex : ∀ x y : ℝ, (Enemy.new x y : Enemy ℝ).x = x := fun _ _ => rfl
  have hey : ∀ x y : ℝ, (Enemy.new x y : Enemy ℝ).y = y := fun _ _ => rfl
  have hew : ∀ x y : ℝ, (Enemy.new x y : Enemy ℝ).width = 32 := fun _ _ => rfl
  have heh : ∀ x y : ℝ, (Enemy.new x y : Enemy ℝ).height = 32 := fun _ _ => rfl
  rw [hsp] at vx1 vx2 vy1 vy2 wx1 wx2 wy1 wy2
  rw [hex, hew] at ex fx
  rw [hey, heh] at ey fy
  rw [hew] at ew fw
  rw [heh] at eh fh
  have ex' : (Enemy.update realMath 0 (Enemy.new 460 310) (1000 / 60)
      (Game.underAttack.player.update (1000 / 60) [])).x = 460 + vx := by
    rw [ex, min_eq_left (by norm_num; linarith), max_eq_right (by linarith)]
  have ey' : (Enemy.update realMath 0 (Enemy.new 460 310) (1000 / 60)
      (Game.underAttack.player.update (1000 / 60) [])).y = 310 + vy := by
    rw [ey, min_eq_left (by norm_num; linarith), max_eq_right (by linarith)]
  have fx' : (Enemy.update realMath 0 (Enemy.new 100 100) (1000 / 60)
      (Game.underAttack.player.update (1000 / 60) [])).x = 100 + wx := by
    rw [fx, min_eq_left (by norm_num; linarith), max_eq_right (by linarith)]
  have fy' : (Enemy.update realMath 0 (Enemy.new 100 100) (1000 / 60)
      (Game.underAttack.player.update (1000 / 60) [])).y = 100 + wy := by
    rw [fy, min_eq_left (by norm_num; linarith), max_eq_right (by linarith)]
  have hpx : (Game.underAttack.player.update (1000 / 60) []).x = 450 := by
    have : (Game.underAttack.player.update (1000 / 60) []).x =
        (Game.underAttack.player.update (1000 / 60) []).box.x := rfl
    rw [this, hbox]
  refine ⟨hbox, es, ?_, ?_, ?_, ?_, ?_⟩
  · rw [Game.checkCollision_iff, hbox]
    simp only [Enemy.box, ex', ey', ew, eh]
    refine ⟨by linarith, by linarith, by linarith, by linarith⟩
  · rw [hpx, ex']; intro h0; linarith
  · rw [← Bool.not_eq_true, Game.checkCollision_iff, hbox]
    simp only [Enemy.box, fx', fw]
    intro h
    linarith [h.1]
  · rw [← Bool.not_eq_true, Game.checkCollision_iff]
    simp only [Enemy.box, ex']
    intro h
    linarith [h.2.1]
  · rw [Game.checkCollision_iff]
    simp only [Enemy.box, fx', fy', fw, fh]
    refine ⟨by linarith, by linarith, by linarith, by linarith⟩

/-- The tick of `Game.underAttack`: it ends normally, the health stays at 4, and the velocity
the player's own update left is changed by a vector of length 10. -/
theorem Game.underAttack_tick :
    (Game.update realMath ⟨0, 0⟩ (1000 / 60) Game.underAttack).threw = false ∧
    (Game.update realMath ⟨0, 0⟩ (1000 / 60) Game.underAttack).state.player.health = 4 ∧
    ((Game.update realMath ⟨0, 0⟩ (1000 / 60) Game.underAttack).state.player.velocityX -
        (Game.underAttack.player.update (1000 / 60) []).velocityX) ^ 2 +
      ((Game.update realMath ⟨0, 0⟩ (1000 / 60) Game.underAttack).state.player.velocityY -
        (Game.underAttack.player.update (1000 / 60) []).velocityY) ^ 2 = 10 ^ 2 := by
  have hh : Game.underAttack.player.health = 4 := by
    norm_num [Game.underAttack, Player.takeDamage, Player.startInvincibility, Player.new]
  obtain ⟨-, es, hcol, hpos, hfar, -, -⟩ := Game.underAttack_positions
  have h := Game.update_knockback ⟨0, 0⟩ (1000 / 60) Game.underAttack _ []
    [Enemy.update realMath 0 (Enemy.new 100 100) (1000 / 60)
      (Game.underAttack.player.update (1000 / 60) [])]
    (Enemy.update realMath 0 (Enemy.new 460 310) (1000 / 60)
      (Game.underAttack.player.update (1000 / 60) []))
    (Game.underAttack.player.update (1000 / 60) []) rfl rfl rfl
    (Game.beforeTouch_two_enemies realMath ⟨0, 0⟩ (1000 / 60) Game.underAttack
      (Enemy.new 460 310) (Enemy.new 100 100) rfl rfl rfl)
    rfl es hcol (Or.inl hpos)
    (by
      intro x hx
      simp only [List.nil_append, List.mem_singleton] at hx
      rw [hx, hfar]
      simp)
  exact ⟨h.1, by rw [h.2.1]; exact hh, h.2.2.2.2.2.2.2⟩

/-- A tick of a session with two enemies and one projectile that misses the first enemy and
overlaps the second: the exception of `createHitEffect` ends the tick in the projectile-enemy
pass, before the pickup pass and the player-enemy pass. -/
theorem Game.update_second_enemy_hit (M : JSMath α) (env : Env α) (dt : α) (g : Game α)
    (e1 e2 : Enemy α) (p : EchoPulse α) (hplay : g.gameState = GameState.PLAYING)
    (hene : g.enemies = [e1, e2]) (hpul : g.echoPulses = [p])
    (hb : (p.update M dt).bounces < 3)
    (hmiss : Game.checkCollision (p.update M dt).box
      (e1.update M env.now dt (g.player.update dt g.keys)).box = false)
    (hcol : Game.checkCollision (p.update M dt).box
      (e2.update M env.now dt (g.player.update dt g.keys)).box = true) :
    Game.update M env dt g =
      Completion.throws
        { g.afterPlayer dt with
          echoPulses := [],
          enemies := [e1.update M env.now dt (g.player.update dt g.keys),
            (e2.update M env.now dt (g.player.update dt g.keys)).takeDamage
              (p.update M dt).damage],
          trace := g.trace ++ [Event.hit 0 1 (p.update M dt)] } := by
  rw [Game.update_eq_passes, if_neg (by simp [hplay])]
  have hb' : ¬ (CONFIG.ECHO.MAX_BOUNCES ≤ (p.update M dt).bounces) := not_le.mpr hb
  simp [Game.pulsePass, Game.enemyPass, forEach, forEachLoop, Game.afterPlayer,
    Game.updatePulse_eq, Completion.andThen, Game.updateEnemy, Game.hitPulse_eq, hene, hpul, hb',
    hcol, hmiss]

/-- The tick of `Game.crossfire`: the projectile reaches the second enemy, the exception of
`createHitEffect` ends the tick there, and the player is left as its own update left it. -/
theorem Game.crossfire_tick :
    (Game.update realMath ⟨0, 0⟩ (1000 / 60) Game.crossfire).threw = true ∧
    (Game.update realMath ⟨0, 0⟩ (1000 / 60) Game.crossfire).state.player =
      Game.crossfire.player.update (1000 / 60) [] := by
  have hc : realMath.cos 0 = 1 := by simp [realMath]
  have hs : realMath.sin 0 = 0 := by simp [realMath]
  obtain ⟨pb, pbo, -, -⟩ := EchoPulse.update_free realMath
    (EchoPulse.new 80 100 0 true : EchoPulse ℝ) (1000 / 60)
    (by norm_num [EchoPulse.new, hc]) (by norm_num [EchoPulse.new, hs])
  have pb' : ((EchoPulse.new 80 100 0 true : EchoPulse ℝ).update realMath (1000 / 60)).box =
      ⟨90, 100, 32, 32⟩ := by
    rw [pb]; norm_num [EchoPulse.new, hc, hs]
  obtain ⟨-, -, -, -, -, hmiss, hhit⟩ := Game.underAttack_positions
  have h := Game.update_second_enemy_hit realMath ⟨0, 0⟩ (1000 / 60) Game.crossfire
    (Enemy.new 460 310) (Enemy.new 100 100) (EchoPulse.new 80 100 0 true) rfl rfl rfl
    (by rw [pbo]; simp [EchoPulse.new]) (by rw [pb']; exact hmiss) (by rw [pb']; exact hhit)
  rw [h]
  exact ⟨rfl, rfl⟩

/-- C30. Knockback does not depend on invincibility, but a tick that a hit ends never gets to
it. Over the reals: (a) In the callback of the player-enemy pass of `Game.update`, for every
session whose player is invincible and overlaps an enemy that is not stunned and stands at a
different position: the callback ends normally, the player's health is unchanged, and the
player's velocity is changed by 10 times the unit vector from the enemy's position to the
player's position, a vector of Euclidean length exactly 10; the player is still invincible and
in the same place afterwards. (b) For a whole tick of any running session, whatever its enemies,
projectiles and pickups, that reaches the player-enemy pass (the passes before it end normally,
leaving the session `s`): if the player was invincible at the start of the tick and, with the
player `p` as updated in the tick, exactly one enemy `e` of `s` is not stunned and overlaps `p`,
at a different position, then the tick ends normally, the player's health is what it was, and
the velocity of `p` is changed by 10 times the unit vector from `e` to `p`. (c) So it is in the
tick of `Game.underAttack`. (d) In `Game.crossfire`, which has the same player and enemies and
a projectile that reaches the other enemy in the tick, the player overlaps the first enemy just
the same, but the tick ends in the exception of `createHitEffect` during the projectile-enemy
pass: the player-enemy pass is not reached and the player's velocity is what its own update
left, without any knockback. -/
theorem C30_hit_in_the_tick_skips_the_knockback :
    (∀ (g : Game ℝ) (enemy : Enemy ℝ) (index : Nat),
      g.player.isInvincible = true → enemy.isStunned = false →
      Game.checkCollision g.player.box enemy.box = true →
      (g.player.x - enemy.x ≠ 0 ∨ g.player.y - enemy.y ≠ 0) →
      (Game.touchEnemy realMath enemy index g).threw = false ∧
      (Game.touchEnemy realMath enemy index g).state.player.health = g.player.health ∧
      (Game.touchEnemy realMath enemy index g).state.player.isInvincible = true ∧
      (Game.touchEnemy realMath enemy index g).state.player.box = g.player.box ∧
      (Game.touchEnemy realMath enemy index g).state.enemies = g.enemies ∧
      (Game.touchEnemy realMath enemy index g).state.player.velocityX - g.player.velocityX =
        10 * ((g.player.x - enemy.x) /
          Real.sqrt ((g.player.x - enemy.x) ^ 2 + (g.player.y - enemy.y) ^ 2)) ∧
      (Game.touchEnemy realMath enemy index g).state.player.velocityY - g.player.velocityY =
        10 * ((g.player.y - enemy.y) /
          Real.sqrt ((g.player.x - enemy.x) ^ 2 + (g.player.y - enemy.y) ^ 2)) ∧
      ((Game.touchEnemy realMath enemy index g).state.player.velocityX -
          g.player.velocityX) ^ 2 +
        ((Game.touchEnemy realMath enemy index g).state.player.velocityY -
          g.player.velocityY) ^ 2 = 10 ^ 2) ∧
    (∀ (env : Env ℝ) (dt : ℝ) (g s : Game ℝ) (l1 l2 : List (Enemy ℝ)) (e : Enemy ℝ)
        (p : Player ℝ),
      g.gameState = GameState.PLAYING → g.player.isInvincible = true →
      p = g.player.update dt g.keys →
      Game.beforeTouch realMath env dt g = Completion.normal s →
      s.enemies = l1 ++ e :: l2 →
      e.isStunned = false → Game.checkCollision p.box e.box = true →
      (p.x - e.x ≠ 0 ∨ p.y - e.y ≠ 0) →
      (∀ x ∈ l1 ++ l2, (!x.isStunned && Game.checkCollision p.box x.box) = false) →
      (Game.update realMath env dt g).threw = false ∧
      (Game.update realMath env dt g).state.player.health = g.player.health ∧
      (Game.update realMath env dt g).state.player.isInvincible = true ∧
      (Game.update realMath env dt g).state.player.box = p.box ∧
      (Game.update realMath env dt g).state.enemies = s.enemies ∧
      (Game.update realMath env dt g).state.player.velocityX - p.velocityX =
        10 * ((p.x - e.x) / Real.sqrt ((p.x - e.x) ^ 2 + (p.y - e.y) ^ 2)) ∧
      (Game.update realMath env dt g).state.player.velocityY - p.velocityY =
        10 * ((p.y - e.y) / Real.sqrt ((p.x - e.x) ^ 2 + (p.y - e.y) ^ 2)) ∧
      ((Game.update realMath env dt g).state.player.velocityX - p.velocityX) ^ 2 +
        ((Game.update realMath env dt g).state.player.velocityY - p.velocityY) ^ 2 =
        10 ^ 2) ∧
    (Game.underAttack.gameState = GameState.PLAYING ∧
      Game.underAttack.player.isInvincible = true ∧
      Game.underAttack.enemies = [Enemy.new 460 310, Enemy.new 100 100] ∧
      (Game.update realMath ⟨0, 0⟩ (1000 / 60) Game.underAttack).threw = false ∧
      (Game.update realMath ⟨0, 0⟩ (1000 / 60) Game.underAttack).state.player.health = 4 ∧
      ((Game.update realMath ⟨0, 0⟩ (1000 / 60) Game.underAttack).state.player.velocityX -
          (Game.underAttack.player.update (1000 / 60) []).velocityX) ^ 2 +
        ((Game.update realMath ⟨0, 0⟩ (1000 / 60) Game.underAttack).state.player.velocityY -
          (Game.underAttack.player.update (1000 / 60) []).velocityY) ^ 2 = 10 ^ 2) ∧
    (Game.crossfire.gameState = GameState.PLAYING ∧
      Game.crossfire.player = Game.underAttack.player ∧
      Game.crossfire.enemies = Game.underAttack.enemies ∧
      Game.crossfire.echoPulses = [EchoPulse.new 80 100 0 true] ∧
      (Enemy.update realMath 0 (Enemy.new 460 310) (1000 / 60)
        (Game.crossfire.player.update (1000 / 60) [])).isStunned = false ∧
      Game.checkCollision (Game.crossfire.player.update (1000 / 60) []).box
        (Enemy.update realMath 0 (Enemy.new 460 310) (1000 / 60)
          (Game.crossfire.player.update (1000 / 60) [])).box = true ∧
      (Game.crossfire.player.update (1000 / 60) []).x -
        (Enemy.update realMath 0 (Enemy.new 460 310) (1000 / 60)
          (Game.crossfire.player.update (1000 / 60) [])).x ≠ 0 ∧
      (Game.update realMath ⟨0, 0⟩ (1000 / 60) Game.crossfire).threw = true ∧
      (Game.update realMath ⟨0, 0⟩ (1000 / 60) Game.crossfire).state.player.velocityX =
        (Game.crossfire.player.update (1000 / 60) []).velocityX ∧
      (Game.update realMath ⟨0, 0⟩ (1000 / 60) Game.crossfire).state.player.velocityY =
        (Game.crossfire.player.update (1000 / 60) []).velocityY) := by
  refine ⟨?_, ?_, ?_, ?_⟩
  · intro g enemy index hinv hstun hcol hpos
    exact Game.touchEnemy_knockback enemy index g hinv hstun hcol hpos
  · intro env dt g s l1 l2 e p hplay hinv hp hs hene hstun hcol hpos hrest
    exact Game.update_knockback env dt g s l1 l2 e p hplay hinv hp hs hene hstun hcol hpos hrest
  · obtain ⟨h1, h2, h3⟩ := Game.underAttack_tick
    exact ⟨rfl, rfl, rfl, h1, h2, h3⟩
  · obtain ⟨-, es, hcol, hpos, -, -, -⟩ := Game.underAttack_positions
    obtain ⟨h1, h2⟩ := Game.crossfire_tick
    refine ⟨rfl, rfl, rfl, rfl, es, hcol, hpos, h1, ?_, ?_⟩
    · rw [h2]
    · rw [h2]

/-! ### Sessions never hold a pickup -/

/-- No tick brings a pickup into a session that has none: the only statement that creates one
sits in the kill branch, behind the call of `createHitEffect`, which raises. -/
theorem Game.update_noPickups (M : JSMath α) (env : Env α) (dt : α) (g : Game α)
    (hg : g.crystals = []) : (Game.update M env dt g).state.crystals = [] := by
  apply Game.update_state_inv (fun s => s.crystals = []) M env dt
  · intro s h; exact h
  · intro x k s h _
    rw [Game.updatePulse_eq]
    split_ifs <;> exact h
  · intro x k s h hx
    apply Game.updateEnemy_state_inv (fun s => s.crystals = []) M env dt
    · intro s k e h _; exact h
    · intro s k j e pulse h _ _ _; exact h
    · exact h
    · exact hx
  · intro x k s h hx
    rw [h] at hx
    simp at hx
  · intro x k s h _
    rw [Game.touchEnemy_eq]
    split_ifs <;> exact h
  · exact hg

/-- In every session a page can reach, `crystals` is empty. -/
theorem Reachable.noPickups [FloorRing α] (M : JSMath α) (g : Game α) (hg : Reachable M g) :
    g.crystals = [] := by
  apply Reachable.induction (fun s => s.crystals = []) M _ _ _ _ _ _ _ _ _ _ _ g hg
  · rfl
  · intro g ks h; exact h
  · intro g h _; exact h
  · intro g x y h _
    unfold Player.shootEchoPulse
    dsimp only
    split_ifs
    · exact h
    · exact h
  · intro g i h; exact h
  · intro e dt g h; exact Game.update_noPickups M e dt g h
  · intro g a h; exact h
  · intro g t h; exact h
  · intro g spawn _; rfl
  · intro g h _; exact h
  · intro g h; exact h

/-! ### A session that has been started -/

/-- The level generated on the draws (0, 0), (1/2, 1/2), (3/4, 0) for a player at (450, 300). -/
theorem Game.generateLevel_sample (g : Game ℝ) (hpx : g.player.x = 450)
    (hpy : g.player.y = 300) :
    Game.generateLevel realMath [(0, 0), (1 / 2, 1 / 2), (3 / 4, 0)] g =
      some { g with enemies := g.enemies ++ [Enemy.new 0 0, Enemy.new 651 0] } := by
  unfold Game.generateLevel
  rw [Game.generateLevelLoop_accept realMath _ 0 0 _ [] (by simp)
      (by
        rw [hpx, hpy]
        unfold Game.getDistance realMath
        dsimp only
        rw [Real.le_sqrt' (by norm_num)]
        norm_num)
      (by simp),
    Game.generateLevelLoop_reject realMath _ (1 / 2) (1 / 2) _ _ (by simp)
      (by
        rw [hpx, hpy]
        unfold Game.getDistance realMath
        dsimp only
        rw [Real.sqrt_lt' (by norm_num)]
        norm_num),
    Game.generateLevelLoop_accept realMath _ (3 / 4) 0 _ _ (by simp)
      (by
        rw [hpx, hpy]
        unfold Game.getDistance realMath
        dsimp only
        rw [Real.le_sqrt' (by norm_num)]
        norm_num)
      (by
        intro pos hpos
        simp only [List.nil_append, List.mem_singleton] at hpos
        subst hpos
        unfold Game.getDistance realMath
        dsimp only
        rw [Real.le_sqrt' (by norm_num)]
        norm_num),
    Game.generateLevelLoop_done realMath _ _ _ (by simp)]
  simp only [Option.map_some', List.nil_append, List.map_cons, List.map_nil,
    List.singleton_append]
  norm_num

/-- The method `startGame()` on the page as loaded, on these draws, gives `Game.started`. -/
theorem Game.startGame_sample (env : Nat → Env ℝ) :
    Game.startGame realMath env [(0, 0), (1 / 2, 1 / 2), (3 / 4, 0)] (Game.new : Game ℝ) =
      some (Completion.normal Game.started) := by
  unfold Game.startGame Game.resetGame
  dsimp only
  rw [Game.generateLevel_sample _ (by norm_num [Player.new]) (by norm_num [Player.new])]
  simp only [Option.map_some']
  rw [Game.gameLoop_playing realMath env 0 _ rfl (by norm_num [Game.new])]
  norm_num [Game.new, Game.runTicks, Game.started]

/-- The session `Game.started` is one a page can reach. -/
theorem Game.started_reachable : Reachable realMath Game.started :=
  Relation.ReflTransGen.single
    (Step.start (fun _ => ⟨0, 0⟩) [(0, 0), (1 / 2, 1 / 2), (3 / 4, 0)] Game.new _
      (Game.startGame_sample fun _ => ⟨0, 0⟩))

/-- The session `Game.firstShot` is one a page can reach, and it holds five projectiles. -/
theorem Game.firstShot_reachable :
    Reachable realMath Game.firstShot ∧ Game.firstShot.echoPulses.length = 5 ∧
    Game.firstShot.enemies.length = 2 ∧ Game.firstShot.gameState = GameState.PLAYING := by
  refine ⟨Relation.ReflTransGen.tail Game.started_reachable (Step.click 450 0 Game.started),
    ?_, ?_, ?_⟩
  · simp [Game.firstShot, Game.click, Game.started, Player.shootEchoPulse, Player.new,
      Player.startInvincibility]
  · simp [Game.firstShot, Game.click, Game.started, Player.shootEchoPulse, Player.new,
      Player.startInvincibility]
  · simp [Game.firstShot, Game.click, Game.started, Player.shootEchoPulse, Player.new,
      Player.startInvincibility]

/-- C1, at `Game.firstShot`, the started session (two enemies, player invincible) after a first
shot (five projectiles): a session a page can reach, with health within 0 and 5 before and after
a tick. -/
theorem C1_health_in_range_witness :
    Reachable realMath Game.firstShot ∧ Game.firstShot.gameState = GameState.PLAYING ∧
    Game.firstShot.enemies.length = 2 ∧ Game.firstShot.echoPulses.length = 5 ∧
    (0 ≤ Game.firstShot.player.health ∧ Game.firstShot.player.health ≤ 5) ∧
    (0 ≤ (Game.update realMath ⟨0, 0⟩ (1000 / 60) Game.firstShot).state.player.health ∧
      (Game.update realMath ⟨0, 0⟩ (1000 / 60) Game.firstShot).state.player.health ≤ 5) :=
  ⟨Game.firstShot_reachable.1, Game.firstShot_reachable.2.2.2, Game.firstShot_reachable.2.2.1,
   Game.firstShot_reachable.2.1,
   (C1_health_in_range realMath Game.firstShot Game.firstShot_reachable.1 ⟨0, 0⟩ (1000 / 60)).1,
   (C1_health_in_range realMath Game.firstShot Game.firstShot_reachable.1 ⟨0, 0⟩ (1000 / 60)).2⟩

/-- C6, at `Game.firstShot`, the started session after a first shot: a session a page can
reach, with five projectiles in flight, each with fewer than 3 bounces before and after a
tick. -/
theorem C6_bounce_rule_witness :
    Reachable realMath Game.firstShot ∧ Game.firstShot.echoPulses.length = 5 ∧
    (∀ q ∈ Game.firstShot.echoPulses, q.bounces < 3) ∧
    (∀ q ∈ (Game.update realMath ⟨0, 0⟩ (1000 / 60) Game.firstShot).state.echoPulses,
      q.bounces < 3) :=
  ⟨Game.firstShot_reachable.1, Game.firstShot_reachable.2.1,
   (C6_bounce_rule realMath Game.firstShot Game.firstShot_reachable.1 ⟨0, 0⟩ (1000 / 60)).2.1,
   (C6_bounce_rule realMath Game.firstShot Game.firstShot_reachable.1 ⟨0, 0⟩
     (1000 / 60)).2.2.1⟩

end Properties

end EchoGame
